import Mathlib

/-!
# ShashChess search core (`src/All/search.cpp`): shallow embedding

Values, depths and plies are C++ `int`s and are embedded as `Int`; C++ `/` on
`int` truncates toward zero and is embedded as `Int.tdiv`.  The enumerators and
inline helpers of `types.h`, `movepick.h`, `tt.h`, `position.h` are declared outside
`search.cpp`, so they enter the embedding as the fields of a
parameter record (`Params`, `PosOps`, `TTOps`).  `Value`, `Depth` and plies are
`Int`; `Move`, `Square`, `Piece`, `PieceType`, `Color` and `Key` are `Nat` codes.
-/

namespace ShashChess

/-- Enumerators and inline helpers of `types.h` that `search.cpp` uses.  The
header is outside `search.cpp`, so every one of them is a parameter of the
embedding. -/
structure Params where
  ONE_PLY : Int
  DEPTH_ZERO : Int
  DEPTH_QS_CHECKS : Int
  DEPTH_QS_NO_CHECKS : Int
  DEPTH_NONE : Int
  DEPTH_MAX : Int
  MAX_PLY : Int
  VALUE_ZERO : Int
  VALUE_DRAW : Int
  VALUE_KNOWN_WIN : Int
  VALUE_MATE : Int
  VALUE_INFINITE : Int
  VALUE_NONE : Int
  VALUE_MATE_IN_MAX_PLY : Int
  VALUE_MATED_IN_MAX_PLY : Int
  PawnValueMg : Int
  PawnValueEg : Int
  Tempo : Int
  MOVE_NONE : Nat
  MOVE_NULL : Nat
  NO_PIECE : Nat
  to_sq : Nat → Nat
  from_to : Nat → Nat
  is_ok : Nat → Bool
  type_of : Nat → Nat
  PieceValueEg : Nat → Int
  HISTORY_MAX : Int
  BOUND_NONE : Nat
  BOUND_UPPER : Nat
  BOUND_LOWER : Nat
  BOUND_EXACT : Nat

/-- Modelled from the spec: the numeric values of the `types.h` enumerators,
which `search.cpp` uses but does not define.  The spec fixes only their roles
(`mate_in(p) = VALUE_MATE - p`, `VALUE_NONE` a sentinel, depths in units of
`ONE_PLY`, `VALUE_MATE_IN_MAX_PLY = VALUE_MATE − 2·MAX_PLY`); the numbers are those
of the Stockfish lineage the engine derives from: `MAX_PLY = 128`,
`VALUE_MATE = 32000`, `VALUE_INFINITE = 32001`, `VALUE_NONE = 32002`,
`VALUE_DRAW = VALUE_ZERO = 0`, `ONE_PLY = 1`, `MOVE_NONE = 0`, `MOVE_NULL = 65`, a
move packed as `from << 6 | to`, history limit 10692.  Piece values and tempo are
placeholders of the usual magnitude.  The record serves to evaluate the embedding
at concrete inputs; the general theorems quantify over every `Params`. -/
def upstream : Params where
  ONE_PLY := 1
  DEPTH_ZERO := 0
  DEPTH_QS_CHECKS := 0
  DEPTH_QS_NO_CHECKS := -1
  DEPTH_NONE := -6
  DEPTH_MAX := 128
  MAX_PLY := 128
  VALUE_ZERO := 0
  VALUE_DRAW := 0
  VALUE_KNOWN_WIN := 10000
  VALUE_MATE := 32000
  VALUE_INFINITE := 32001
  VALUE_NONE := 32002
  VALUE_MATE_IN_MAX_PLY := 32000 - 2 * 128
  VALUE_MATED_IN_MAX_PLY := -32000 + 2 * 128
  PawnValueMg := 128
  PawnValueEg := 213
  Tempo := 28
  MOVE_NONE := 0
  MOVE_NULL := 65
  NO_PIECE := 0
  to_sq := fun m => m % 64
  from_to := fun m => m % 4096
  is_ok := fun m => decide (m / 64 % 64 ≠ m % 64)
  type_of := fun pc => pc % 8
  PieceValueEg := fun _ => 0
  HISTORY_MAX := 10692
  BOUND_NONE := 0
  BOUND_UPPER := 1
  BOUND_LOWER := 2
  BOUND_EXACT := 3

/-- C `abs` on `int`. -/
def cabs (x : Int) : Int := if x < 0 then -x else x

/-- Modelled from the spec: `mate_in(p) = VALUE_MATE - p` (declared in `types.h`). -/
def mate_in (K : Params) (ply : Int) : Int := K.VALUE_MATE - ply

/-- Modelled from the spec: `mated_in(p) = -VALUE_MATE + p` (declared in `types.h`). -/
def mated_in (K : Params) (ply : Int) : Int := -K.VALUE_MATE + ply

/-- `stat_bonus` (search.cpp:114). -/
def stat_bonus (K : Params) (depth : Int) : Int :=
  let d := Int.tdiv depth K.ONE_PLY
  if d > 17 then 0 else 29 * d * d + 138 * d - 134

/-- `value_to_tt` (search.cpp:2154), the release build: the `assert(v != VALUE_NONE)`
is compiled out. -/
def value_to_tt (K : Params) (v : Int) (ply : Int) : Int :=
  if v ≥ K.VALUE_MATE_IN_MAX_PLY then v + ply
  else if v ≤ K.VALUE_MATED_IN_MAX_PLY then v - ply
  else v

/-- `value_from_tt` (search.cpp:2167). -/
def value_from_tt (K : Params) (v : Int) (ply : Int) : Int :=
  if v = K.VALUE_NONE then K.VALUE_NONE
  else if v ≥ K.VALUE_MATE_IN_MAX_PLY then v - ply
  else if v ≤ K.VALUE_MATED_IN_MAX_PLY then v + ply
  else v

/-- The assignment `skillLevel = ((int)((uciElo-1500)/65))` of `MainThread::search`
(search.cpp:307). -/
def skillLevel (uciElo : Int) : Int := Int.tdiv (uciElo - 1500) 65

/-- `Skill::enabled` (search.cpp:128). -/
def Skill.enabled (level : Int) : Bool := decide (level < 20)

/-- `Skill::time_to_pick` (search.cpp:129). -/
def Skill.time_to_pick (K : Params) (level : Int) (depth : Int) : Bool :=
  decide (Int.tdiv depth K.ONE_PLY = 1 + level)

/-- Conversion of a 64-bit integer to `int` (two's complement, 32 bits), as in
`int(Limits.nodes / 1024)`. -/
def toInt32 (x : Int) : Int := (x + 2 ^ 31) % 2 ^ 32 - 2 ^ 31

/-- The fields of `Search::LimitsType` (search.h) that `check_time` reads.
`nodes` is a 64-bit integer, hence the casts in the source. -/
structure LimitsType where
  nodes : Int
  movetime : Int
  startTime : Int
  use_time_management : Bool

/-- The mutable state `MainThread::check_time` works on: the members `callsCnt`,
`ponder`, `stopOnPonderhit`, the shared flag `Threads.stop`, and the function's
static local `lastInfoTime` (`none` until the first full check initialises it). -/
structure MainThreadState where
  callsCnt : Int
  stop : Bool
  ponder : Bool
  stopOnPonderhit : Bool
  lastInfoTime : Option Int

/-- What one call of `check_time` reads from its environment when it reaches the
full check: `now()`, `Time.elapsed()`, `Time.maximum()`, `Threads.nodes_searched()`. -/
structure ClockEnv where
  now : Int
  elapsed : Int
  maximum : Int
  nodes_searched : Nat

/-- What one call of `check_time` did: whether it went past the early return
(`full`, the call that reads the clock and may raise `stop`) and whether it
called `dbg_print`. -/
structure CheckTrace where
  full : Bool
  printed : Bool

/-- `MainThread::check_time` (search.cpp:2286). -/
def check_time (L : LimitsType) (e : ClockEnv) (s : MainThreadState) :
    MainThreadState × CheckTrace :=
  let c := s.callsCnt - 1
  if c > 0 then
    ({ s with callsCnt := c }, { full := false, printed := false })
  else
    let callsCnt := if L.nodes ≠ 0 then min 1024 (toInt32 (Int.tdiv L.nodes 1024)) else 1024
    let last0 := s.lastInfoTime.getD e.now
    let elapsed := e.elapsed
    let tick := L.startTime + elapsed
    let printed := decide (tick - last0 ≥ 1000)
    let last1 := if tick - last0 ≥ 1000 then tick else last0
    let s1 : MainThreadState := { s with callsCnt := callsCnt, lastInfoTime := some last1 }
    if s.ponder then
      (s1, { full := true, printed := printed })
    else if (L.use_time_management && (decide (elapsed > e.maximum - 10) || s.stopOnPonderhit))
        || (decide (L.movetime ≠ 0) && decide (elapsed ≥ L.movetime))
        || (decide (L.nodes ≠ 0) && decide ((e.nodes_searched : Int) ≥ L.nodes % 2 ^ 64)) then
      ({ s1 with stop := true }, { full := true, printed := printed })
    else
      (s1, { full := true, printed := printed })

/-- A search without node limit (`go` with a clock only). -/
def limitsNoNodes : LimitsType :=
  { nodes := 0, movetime := 0, startTime := 0, use_time_management := true }

/-- A main thread whose next `check_time` call is a full check. -/
def mainThreadDue : MainThreadState :=
  { callsCnt := 1, stop := false, ponder := false, stopOnPonderhit := false,
    lastInfoTime := none }

/-- A clock reading well inside the time budget. -/
def clockEarly : ClockEnv := { now := 0, elapsed := 5, maximum := 1000, nodes_searched := 10 }

/-- The fields of `Search::Stack` (search.h) that `search.cpp` reads or writes.
`continuationHistory` is a pointer to one plane
`thisThread->continuationHistory[piece][square]` and is kept as that index pair;
`pv` is `none` for a null pointer. -/
structure Stack where
  ply : Int
  currentMove : Nat
  excludedMove : Nat
  killers0 : Nat
  killers1 : Nat
  staticEval : Int
  statScore : Int
  moveCount : Int
  continuationHistory : Nat × Nat
  pv : Option (List Nat)

/-- The per-thread tables and counters of `Thread` (thread.h) used by the search:
`mainHistory[color][from_to]`, `captureHistory[piece][to][captured type]`,
`continuationHistory[piece][to]` (a table of planes, each indexed `[piece][to]`),
`counterMoves[piece][to]`, and the playout statistics. -/
structure Thread where
  mainHistory : Nat → Nat → Int
  captureHistory : Nat → Nat → Nat → Int
  continuationHistory : Nat → Nat → Nat → Nat → Int
  counterMoves : Nat → Nat → Nat
  selDepth : Int
  nodes : Nat
  visits : Int
  allScores : Int

/-- The operations of `Position`, `MoveList`, `MovePicker` and `Eval::evaluate`
that `search.cpp` calls, over an abstract position type `P`.  They are
external collaborators of the search and enter as parameters.  `qs_moves` is the
sequence of moves a quiescence `MovePicker(pos, ttMove, depth, …, recaptureSquare)`
yields; `legal_moves` is `MoveList<LEGAL>(pos)`. -/
structure PosOps (P : Type) where
  side_to_move : P → Nat
  moved_piece : P → Nat → Nat
  piece_on : P → Nat → Nat
  capture_or_promotion : P → Nat → Bool
  capture : P → Nat → Bool
  captured_piece : P → Nat
  checkers : P → Bool
  is_draw : P → Int → Bool
  has_game_cycle : P → Int → Bool
  rule50_count : P → Int
  key : P → Nat
  legal : P → Nat → Bool
  gives_check : P → Nat → Bool
  advanced_pawn_push : P → Nat → Bool
  see_ge : P → Nat → Int → Bool
  do_move : P → Nat → P
  evaluate : P → Int
  legal_moves : P → List Nat
  qs_moves : P → Nat → Int → Nat → List Nat

/-- Modelled from the spec: the history update `entry << bonus` of `movepick.h`
(`StatsEntry::operator<<`, defined outside `search.cpp`), by the spec's
gravity formula "bonus − existing*|bonus|/MAX": the entry `e` becomes
`e + bonus − e·|bonus|/HISTORY_MAX` with C++ integer division. -/
def history_update (K : Params) (entry bonus : Int) : Int :=
  entry + (bonus - Int.tdiv (entry * cabs bonus) K.HISTORY_MAX)

/-- Write `v` at index `i` of a one-dimensional table. -/
def setAt {α : Type} (t : Nat → α) (i : Nat) (v : α) : Nat → α :=
  fun j => if j = i then v else t j

/-- The statement `thisThread->mainHistory[c][ft] << bonus`. -/
def Thread.mainHistory_add (K : Params) (th : Thread) (c ft : Nat) (bonus : Int) : Thread :=
  let entry := history_update K (th.mainHistory c ft) bonus
  { th with mainHistory := setAt th.mainHistory c (setAt (th.mainHistory c) ft entry) }

/-- The statement `captureHistory[pc][sq][captured] << bonus`. -/
def Thread.captureHistory_add (K : Params) (th : Thread) (pc sq captured : Nat)
    (bonus : Int) : Thread :=
  let entry := history_update K (th.captureHistory pc sq captured) bonus
  let row := setAt (th.captureHistory pc sq) captured entry
  { th with captureHistory := setAt th.captureHistory pc (setAt (th.captureHistory pc) sq row) }

/-- The statement `(*plane)[pc][sq] << bonus` for the plane
`thisThread->continuationHistory[plane.1][plane.2]`. -/
def Thread.continuationHistory_add (K : Params) (th : Thread) (plane : Nat × Nat)
    (pc sq : Nat) (bonus : Int) : Thread :=
  let entry := history_update K (th.continuationHistory plane.1 plane.2 pc sq) bonus
  let row := setAt (th.continuationHistory plane.1 plane.2 pc) sq entry
  let pl := setAt (th.continuationHistory plane.1 plane.2) pc row
  let tab := setAt (th.continuationHistory plane.1) plane.2 pl
  { th with continuationHistory := setAt th.continuationHistory plane.1 tab }

/-- `update_continuation_histories` (search.cpp:2188).  The stack is the array of
frames, `ss` the index of the frame the pointer argument addresses. -/
def update_continuation_histories (K : Params) (th : Thread) (stack : Int → Stack)
    (ss : Int) (pc sq : Nat) (bonus : Int) : Thread :=
  [1, 2, 4, 6].foldl
    (fun (t : Thread) (i : Int) =>
      if K.is_ok (stack (ss - i)).currentMove
      then t.continuationHistory_add K (stack (ss - i)).continuationHistory pc sq bonus
      else t)
    th

/-- `update_capture_stats` (search.cpp:2198).  `captures` is the array
`capturesSearched`, read at indices below `captureCount`. -/
def update_capture_stats {P : Type} (X : PosOps P) (K : Params) (pos : P) (th : Thread)
    (move : Nat) (captures : Nat → Nat) (captureCount : Nat) (bonus : Int) : Thread :=
  let moved_piece := X.moved_piece pos move
  let captured := K.type_of (X.piece_on pos (K.to_sq move))
  let th1 :=
    if X.capture_or_promotion pos move
    then th.captureHistory_add K moved_piece (K.to_sq move) captured bonus
    else th
  (List.range captureCount).foldl
    (fun (t : Thread) (i : Nat) =>
      t.captureHistory_add K (X.moved_piece pos (captures i)) (K.to_sq (captures i))
        (K.type_of (X.piece_on pos (K.to_sq (captures i)))) (-bonus))
    th1

/-- `update_quiet_stats` (search.cpp:2220).  Returns the thread tables and the
stack, whose frame `ss` may have received a new killer. -/
def update_quiet_stats {P : Type} (X : PosOps P) (K : Params) (pos : P) (th : Thread)
    (stack : Int → Stack) (ss : Int) (move : Nat) (quiets : Nat → Nat) (quietCount : Nat)
    (bonus : Int) : Thread × (Int → Stack) :=
  let stack1 : Int → Stack :=
    if (stack ss).killers0 ≠ move
    then fun j => if j = ss
      then { (stack ss) with killers1 := (stack ss).killers0, killers0 := move }
      else stack j
    else stack
  let us := X.side_to_move pos
  let th1 := th.mainHistory_add K us (K.from_to move) bonus
  let th2 := update_continuation_histories K th1 stack1 ss (X.moved_piece pos move)
    (K.to_sq move) bonus
  let th3 :=
    if K.is_ok (stack1 (ss - 1)).currentMove
    then
      let prevSq := K.to_sq (stack1 (ss - 1)).currentMove
      let row := setAt (th2.counterMoves (X.piece_on pos prevSq)) prevSq move
      { th2 with counterMoves := setAt th2.counterMoves (X.piece_on pos prevSq) row }
    else th2
  let th4 := (List.range quietCount).foldl
    (fun (t : Thread) (i : Nat) =>
      update_continuation_histories K
        (t.mainHistory_add K us (K.from_to (quiets i)) (-bonus))
        stack1 ss (X.moved_piece pos (quiets i)) (K.to_sq (quiets i)) (-bonus))
    th3
  (th4, stack1)

/-- Killer deduplication of one stack frame: the two slots differ whenever both
hold a move. -/
def KillersDistinct (K : Params) (f : Stack) : Prop :=
  f.killers0 ≠ K.MOVE_NONE → f.killers1 ≠ K.MOVE_NONE → f.killers0 ≠ f.killers1

/-- One history update as the search issues it: a call of `update_quiet_stats`,
`update_capture_stats` or `update_continuation_histories` whose bonus is
`stat_bonus(depth)`, negated when `penalty` is set.  Each call carries the
position and stack it is made with. -/
inductive StatUpdate (P : Type) where
  | quiet (pos : P) (stack : Int → Stack) (ss : Int) (move : Nat) (quiets : Nat → Nat)
      (quietCount : Nat) (depth : Int) (penalty : Bool)
  | capture (pos : P) (move : Nat) (captures : Nat → Nat) (captureCount : Nat)
      (depth : Int) (penalty : Bool)
  | continuation (stack : Int → Stack) (ss : Int) (pc sq : Nat) (depth : Int)
      (penalty : Bool)

/-- The depth whose `stat_bonus` the update uses. -/
def StatUpdate.depth {P : Type} : StatUpdate P → Int
  | .quiet _ _ _ _ _ _ d _ => d
  | .capture _ _ _ _ d _ => d
  | .continuation _ _ _ _ d _ => d

/-- The bonus argument: `stat_bonus(depth)` or its negation. -/
def signed_bonus (K : Params) (depth : Int) (penalty : Bool) : Int :=
  if penalty then -stat_bonus K depth else stat_bonus K depth

/-- Effect of one history update on the thread tables. -/
def StatUpdate.apply {P : Type} (X : PosOps P) (K : Params) (th : Thread) :
    StatUpdate P → Thread
  | .quiet pos stack ss move quiets quietCount d pen =>
    (update_quiet_stats X K pos th stack ss move quiets quietCount (signed_bonus K d pen)).1
  | .capture pos move captures captureCount d pen =>
    update_capture_stats X K pos th move captures captureCount (signed_bonus K d pen)
  | .continuation stack ss pc sq d pen =>
    update_continuation_histories K th stack ss pc sq (signed_bonus K d pen)

/-- A sequence of history updates, applied in order. -/
def apply_updates {P : Type} (X : PosOps P) (K : Params) (th : Thread)
    (us : List (StatUpdate P)) : Thread :=
  us.foldl (fun t u => u.apply X K t) th

/-- The thread tables after `Search::clear`: every entry zero. -/
def zeroThread : Thread :=
  { mainHistory := fun _ _ => 0
    captureHistory := fun _ _ _ => 0
    continuationHistory := fun _ _ _ _ => 0
    counterMoves := fun _ _ => 0
    selDepth := 0
    nodes := 0
    visits := 0
    allScores := 0 }

/-- Every main-history, capture-history and continuation-history entry has
magnitude at most `D`. -/
def HistoryWithin (D : Int) (th : Thread) : Prop :=
  (∀ c ft, cabs (th.mainHistory c ft) ≤ D) ∧
  (∀ pc sq cap, cabs (th.captureHistory pc sq cap) ≤ D) ∧
  (∀ a b pc sq, cabs (th.continuationHistory a b pc sq) ≤ D)

/-- A stack frame as `std::memset` leaves it, pointing at the sentinel plane. -/
def zeroFrame : Stack :=
  { ply := 0, currentMove := 0, excludedMove := 0, killers0 := 0, killers1 := 0,
    staticEval := 0, statScore := 0, moveCount := 0, continuationHistory := (0, 0),
    pv := none }

/-- A zeroed stack. -/
def zeroStack : Int → Stack := fun _ => zeroFrame

/-- A position stub for evaluating the embedding at concrete inputs: over any
position type, with the given legal moves, move effect, static evaluation and
in-check flag; no piece information, every pseudo-legal move offered to the
quiescence search comes from `qs`. -/
def stubOps {P : Type} (moves : P → List Nat) (step : P → Nat → P) (ev : P → Int)
    (inCheck : P → Bool) (qs : P → List Nat) : PosOps P :=
  { side_to_move := fun _ => 0
    moved_piece := fun _ _ => 1
    piece_on := fun _ _ => 0
    capture_or_promotion := fun _ _ => false
    capture := fun _ _ => false
    captured_piece := fun _ => 0
    checkers := inCheck
    is_draw := fun _ _ => false
    has_game_cycle := fun _ _ => false
    rule50_count := fun _ => 0
    key := fun _ => 0
    legal := fun p m => decide (m ∈ moves p)
    gives_check := fun _ _ => false
    advanced_pawn_push := fun _ _ => false
    see_ge := fun _ _ _ => true
    do_move := step
    evaluate := ev
    legal_moves := moves
    qs_moves := fun p _ _ _ => qs p }

/-- A single position without legal moves, not in check, with static
evaluation `ev` (a stalemate as the search sees it). -/
def quietPos (ev : Int) : PosOps Unit :=
  stubOps (fun _ => []) (fun p _ => p) (fun _ => ev) (fun _ => false) (fun _ => [])

/-- A toy game on `Nat`: position `n > 0` has the two legal moves 1 and 2, each
leading to `n − 1`; position 0 has none. -/
def countdownGame : PosOps Nat :=
  stubOps (fun n => if n = 0 then [] else [1, 2]) (fun n _ => n - 1) (fun _ => 0)
    (fun _ => false) (fun _ => [])

/-- The quiet move e2e4 (`from = 12`, `to = 28`) rewarded at depth 17, the depth of
the largest `stat_bonus`. -/
def rewardE2E4 : StatUpdate Unit :=
  .quiet () zeroStack 7 796 (fun _ => 0) 0 17 false

/-- One iteration of the loop of `perft<Root>` (search.cpp:159-172) for the move `m`
with the running total `nodes`; `child` stands for the recursive instance
`perft<false>`.  The totals are `uint64_t`, hence the reduction modulo `2^64`;
`undo_move` restores `pos`, so the next iteration starts from `pos` again.  The
per-move line written to `sync_cout` at the root is output only and is left out. -/
def perft_move {P : Type} (X : PosOps P) (K : Params) (Root : Bool) (depth : Int) (pos : P)
    (child : P → Int → Option Nat) (nodes : Option Nat) (m : Nat) : Option Nat :=
  match nodes with
  | none => none
  | some n =>
    if Root && decide (depth ≤ K.ONE_PLY) then some ((n + 1) % 2 ^ 64)
    else
      let pos1 := X.do_move pos m
      let leaf := decide (depth = 2 * K.ONE_PLY)
      match (if leaf then some ((X.legal_moves pos1).length % 2 ^ 64)
             else child pos1 (depth - K.ONE_PLY)) with
      | none => none
      | some cnt => some ((n + cnt) % 2 ^ 64)

/-- `perft<Root>(pos, depth)` (search.cpp:152).  The C++ recursion has no depth
guard, so the embedding carries a recursion budget and yields `none` when it is
used up. -/
def perft {P : Type} (X : PosOps P) (K : Params) : Nat → Bool → P → Int → Option Nat
  | 0, _, _, _ => none
  | fuel + 1, Root, pos, depth =>
    (X.legal_moves pos).foldl (perft_move X K Root depth pos (perft X K fuel false)) (some 0)

/-- The spec's "legal-move tree to `depth`": all sequences of exactly `n` legal
moves playable from `pos`. -/
def legal_sequences {P : Type} (X : PosOps P) : Nat → P → List (List Nat)
  | 0, _ => [[]]
  | n + 1, pos =>
    (X.legal_moves pos).flatMap
      (fun m => (legal_sequences X n (X.do_move pos m)).map (fun rest => m :: rest))

/-- What the accessors of the `TTEntry` returned by `TT.probe` give (tt.h):
`value()`, `eval()`, `depth()`, `bound()`, `move()`, `is_pv()`. -/
structure TTData where
  value : Int
  eval : Int
  depth : Int
  bound : Nat
  move : Nat
  is_pv : Bool

/-- The arguments of one call `tte->save(key, value, pv, bound, depth, move, eval)`. -/
structure TTSave where
  key : Nat
  value : Int
  pv : Bool
  bound : Nat
  depth : Int
  move : Nat
  eval : Int

/-- The transposition table (tt.h, outside `search.cpp`) as an
abstract store `T`: `probe` is `TT.probe(key, ttHit)`, giving the entry's data and
the hit flag; `save` is `tte->save(…)` on the entry probed for `key`. -/
structure TTOps (T : Type) where
  probe : T → Nat → TTData × Bool
  save : T → TTSave → T

/-- Process-wide settings read inside the search (`perceptronSearch`,
`persistedSelfLearning`, `variety`, `lessPruningMode`) and the stream of values
the C library `rand()` returns, indexed by call number. -/
structure SearchEnv where
  perceptronSearch : Bool
  persistedSelfLearning : Bool
  variety : Int
  lessPruningMode : Int
  rand : Nat → Int

/-- The mutable state one quiescence search runs on: the transposition table,
the stack frames, and the number of `rand()` calls made so far. -/
structure QState (T : Type) where
  tt : T
  stack : Int → Stack
  randCalls : Nat

/-- Replace frame `i` of the stack. -/
def setFrame (stack : Int → Stack) (i : Int) (f : Stack) : Int → Stack :=
  fun j => if j = i then f else stack j

/-- `update_pv` (search.cpp:2177) on move lists without their `MOVE_NONE`
terminator: the new line is `move` followed by the child line (nothing for a null
child pointer). -/
def update_pv (move : Nat) (childPv : Option (List Nat)) : List Nat :=
  move :: childPv.getD []

/-- The test `tte->bound() & b` of a bound flag. -/
def bound_has (bound b : Nat) : Bool := decide (Nat.land bound b ≠ 0)

/-- The loop variables of the moves loop of `qsearch`; `done` records that the
loop was left by `break`. -/
structure QLoop (T : Type) where
  alpha : Int
  bestValue : Int
  bestMove : Nat
  moveCount : Int
  st : QState T
  done : Bool

/-- One iteration of the moves loop of `qsearch` (search.cpp:2049-2129) for the move
`move`; `child` stands for the recursive call `qsearch<NT>(pos, ss+1, …)` on the
position after the move.  `none` only when the recursion budget of `child` is
used up. -/
def qsearch_move {P T : Type} (X : PosOps P) (K : Params)
    (child : P → Int → Int → Int → Int → QState T → Option (Int × QState T))
    (PvNode inCheck : Bool) (pos : P) (ss : Int) (beta depth futilityBase : Int)
    (move : Nat) (l : QLoop T) : Option (QLoop T) :=
  let givesCheck := X.gives_check pos move
  let moveCount := l.moveCount + 1
  let futile := !inCheck && !givesCheck && decide (futilityBase > -K.VALUE_KNOWN_WIN)
    && !X.advanced_pawn_push pos move
  let futilityValue := futilityBase + K.PieceValueEg (X.piece_on pos (K.to_sq move))
  if futile && decide (futilityValue ≤ l.alpha) then
    some { l with moveCount := moveCount, bestValue := max l.bestValue futilityValue }
  else if futile && decide (futilityBase ≤ l.alpha) && !X.see_ge pos move (K.VALUE_ZERO + 1) then
    some { l with moveCount := moveCount, bestValue := max l.bestValue futilityBase }
  else
    let evasionPrunable := inCheck && (decide (depth ≠ K.DEPTH_ZERO) || decide (moveCount > 2))
      && decide (l.bestValue > K.VALUE_MATED_IN_MAX_PLY) && !X.capture pos move
    if (!inCheck || evasionPrunable) && !X.see_ge pos move K.VALUE_ZERO then
      some { l with moveCount := moveCount }
    else if !X.legal pos move then
      some { l with moveCount := moveCount - 1 }
    else
      let frame := { (l.st.stack ss) with
        currentMove := move
        continuationHistory := (X.moved_piece pos move, K.to_sq move) }
      let st1 : QState T := { l.st with stack := setFrame l.st.stack ss frame }
      match child (X.do_move pos move) (ss + 1) (-beta) (-l.alpha) (depth - K.ONE_PLY) st1 with
      | none => none
      | some (v, st2) =>
        let value := -v
        if value > l.bestValue then
          if value > l.alpha then
            let line := update_pv move (st2.stack (ss + 1)).pv
            let frame2 := { (st2.stack ss) with pv := some line }
            let st3 : QState T :=
              if PvNode then { st2 with stack := setFrame st2.stack ss frame2 } else st2
            if PvNode && decide (value < beta) then
              some { alpha := value, bestValue := value, bestMove := move,
                     moveCount := moveCount, st := st3, done := false }
            else
              some { alpha := l.alpha, bestValue := value, bestMove := move,
                     moveCount := moveCount, st := st3, done := true }
          else
            some { l with bestValue := value, moveCount := moveCount, st := st2 }
        else
          some { l with moveCount := moveCount, st := st2 }

/-- The moves loop of `qsearch` over the moves the picker yields, stopping at a
`break`. -/
def qsearch_loop {P T : Type} (X : PosOps P) (K : Params)
    (child : P → Int → Int → Int → Int → QState T → Option (Int × QState T))
    (PvNode inCheck : Bool) (pos : P) (ss : Int) (beta depth futilityBase : Int) :
    List Nat → QLoop T → Option (QLoop T)
  | [], l => some l
  | move :: rest, l =>
    if l.done then some l
    else
      match qsearch_move X K child PvNode inCheck pos ss beta depth futilityBase move l with
      | none => none
      | some l1 =>
        qsearch_loop X K child PvNode inCheck pos ss beta depth futilityBase rest l1

/-- `qsearch<NT>(pos, ss, alpha, beta, depth)` (search.cpp:1935).  `PvNode` is the
template parameter, `ss` the index of the current stack frame.  The C++ recursion
ends at `ss->ply >= MAX_PLY`; the embedding carries a recursion budget and yields
`none` when it is used up.  In a PV node `(ss+1)->pv` is pointed at a fresh local
buffer, embedded as the empty line. -/
def qsearch {P T : Type} (X : PosOps P) (TX : TTOps T) (K : Params) (E : SearchEnv) :
    Nat → Bool → P → Int → Int → Int → Int → QState T → Option (Int × QState T)
  | 0, _, _, _, _, _, _, _ => none
  | fuel + 1, PvNode, pos, ss, alpha, beta, depth, st =>
    let oldAlpha := alpha
    let childFrame := { (st.stack (ss + 1)) with pv := some [] }
    let ownFrame := { (st.stack ss) with pv := some [] }
    let stackA :=
      if PvNode then setFrame (setFrame st.stack (ss + 1) childFrame) ss ownFrame else st.stack
    let stackB := setFrame stackA (ss + 1) { (stackA (ss + 1)) with ply := (stackA ss).ply + 1 }
    let stackC := setFrame stackB ss
      { (stackB ss) with currentMove := K.MOVE_NONE, continuationHistory := (K.NO_PIECE, 0) }
    let inCheck := X.checkers pos
    let ply := (stackC ss).ply
    if X.is_draw pos ply || decide (ply ≥ K.MAX_PLY) then
      some (if decide (ply ≥ K.MAX_PLY) && !inCheck then X.evaluate pos else K.VALUE_DRAW,
            { st with stack := stackC })
    else
      let ttDepth :=
        if inCheck || decide (depth ≥ K.DEPTH_QS_CHECKS) then K.DEPTH_QS_CHECKS
        else K.DEPTH_QS_NO_CHECKS
      let posKey := X.key pos
      let tte := (TX.probe st.tt posKey).1
      let ttHit := (TX.probe st.tt posKey).2
      let ttValue := if ttHit then value_from_tt K tte.value ply else K.VALUE_NONE
      let ttMove := if ttHit then tte.move else K.MOVE_NONE
      let pvHit := ttHit && tte.is_pv
      if !PvNode && ttHit && decide (tte.depth ≥ ttDepth) && decide (ttValue ≠ K.VALUE_NONE)
          && (if ttValue ≥ beta then bound_has tte.bound K.BOUND_LOWER
              else bound_has tte.bound K.BOUND_UPPER) then
        some (ttValue, { st with stack := stackC })
      else
        let prev := stackC (ss - 1)
        let staticEval :=
          if inCheck then K.VALUE_NONE
          else if ttHit then (if tte.eval = K.VALUE_NONE then X.evaluate pos else tte.eval)
          else if prev.currentMove ≠ K.MOVE_NULL then X.evaluate pos
          else -prev.staticEval + 2 * K.Tempo
        let bestValue0 :=
          if inCheck then -K.VALUE_INFINITE
          else if ttHit && decide (ttValue ≠ K.VALUE_NONE)
              && bound_has tte.bound (if ttValue > staticEval then K.BOUND_LOWER else K.BOUND_UPPER)
          then ttValue
          else staticEval
        let stackD := setFrame stackC ss { (stackC ss) with staticEval := staticEval }
        if !inCheck && decide (bestValue0 ≥ beta) then
          let rec0 : TTSave :=
            { key := posKey, value := value_to_tt K bestValue0 ply, pv := pvHit,
              bound := K.BOUND_LOWER, depth := K.DEPTH_NONE, move := K.MOVE_NONE,
              eval := staticEval }
          some (bestValue0,
                { st with tt := if !ttHit then TX.save st.tt rec0 else st.tt, stack := stackD })
        else
          let alpha1 := if !inCheck && PvNode && decide (bestValue0 > alpha) then bestValue0 else alpha
          let futilityBase := if inCheck then -K.VALUE_INFINITE else bestValue0 + 128
          let moves := X.qs_moves pos ttMove depth (K.to_sq (stackD (ss - 1)).currentMove)
          let start : QLoop T :=
            { alpha := alpha1, bestValue := bestValue0, bestMove := K.MOVE_NONE, moveCount := 0,
              st := { st with stack := stackD }, done := false }
          match qsearch_loop X K (fun p s a b d q => qsearch X TX K E fuel PvNode p s a b d q)
              PvNode inCheck pos ss beta depth futilityBase moves start with
          | none => none
          | some l =>
            let jitter := decide (E.variety ≠ 0)
              && decide (l.bestValue + Int.tdiv (E.variety * K.PawnValueEg) 100 ≥ 0)
            let bestValue1 :=
              if jitter then l.bestValue + Int.tmod (E.rand l.st.randCalls) (E.variety + 1)
              else l.bestValue
            let st1 : QState T :=
              if jitter then { l.st with randCalls := l.st.randCalls + 1 } else l.st
            if inCheck && decide (bestValue1 = -K.VALUE_INFINITE) then
              some (mated_in K ply, st1)
            else
              let rec1 : TTSave :=
                { key := posKey, value := value_to_tt K bestValue1 ply, pv := pvHit,
                  bound := if bestValue1 ≥ beta then K.BOUND_LOWER
                           else if PvNode && decide (bestValue1 > oldAlpha) then K.BOUND_EXACT
                           else K.BOUND_UPPER,
                  depth := ttDepth, move := l.bestMove, eval := (st1.stack ss).staticEval }
              some (bestValue1, { st1 with tt := TX.save st1.tt rec1 })

/-- `value_draw` (search.cpp:120). -/
def value_draw (K : Params) (depth : Int) (th : Thread) : Int :=
  if depth < 4 then K.VALUE_DRAW
  else K.VALUE_DRAW + (2 * ((th.nodes % 2 : Nat) : Int) - 1)

/-- The playout bookkeeping repeated before most `return`s of `search`:
`if (perceptronSearch) { visits++; allScores += (ss->ply % 2 == 0) ? v : -v; }`. -/
def note_score (E : SearchEnv) (th : Thread) (ply v : Int) : Thread :=
  if E.perceptronSearch then
    { th with visits := th.visits + 1
              allScores := th.allScores + (if Int.tmod ply 2 = 0 then v else -v) }
  else th

/-- How a fragment of `search` ends: the function returns `value`, the moves loop
is left by `break`, or control goes on to the next statement. -/
inductive Flow (σ : Type) where
  | ret (value : Int) (s : σ)
  | brk (s : σ)
  | next (s : σ)

/-- State carried through the opening statements of `search`. -/
structure HeadState (T : Type) where
  alpha : Int
  th : Thread
  q : QState T

/-- The opening of `search<NT>` (search.cpp:926-963): the repetition-cycle
short-circuit and the dive into `qsearch` when `depth < ONE_PLY`.  `none` only
when the recursion budget `fuel` of `qsearch` is used up. -/
def search_head {P T : Type} (X : PosOps P) (TX : TTOps T) (K : Params) (E : SearchEnv)
    (fuel : Nat) (PvNode : Bool) (pos : P) (ss : Int) (alpha beta depth : Int)
    (th : Thread) (q : QState T) : Option (Flow (HeadState T)) :=
  let ply := (q.stack ss).ply
  let rootNode := PvNode && decide (ply = 0)
  let cycle := decide (X.rule50_count pos ≥ 3) && decide (alpha < K.VALUE_DRAW) && !rootNode
    && X.has_game_cycle pos ply
  let alpha1 := if cycle then value_draw K depth th else alpha
  if cycle && decide (alpha1 ≥ beta) then
    some (.ret alpha1 { alpha := alpha1, th := note_score E th ply alpha1, q := q })
  else if depth < K.ONE_PLY then
    match qsearch X TX K E fuel PvNode pos ss alpha1 beta K.DEPTH_ZERO q with
    | none => none
    | some (qs, q1) => some (.ret qs { alpha := alpha1, th := note_score E th ply qs, q := q1 })
  else
    some (.next { alpha := alpha1, th := th, q := q })

/-- The fields of `Search::RootMove` (search.h).  `pv` is never empty; a root move
compares equal to a move when `pv[0]` is that move. -/
structure RootMove where
  pv : List Nat
  score : Int
  previousScore : Int
  selDepth : Int
  tbRank : Int
  tbScore : Int
  visits : Int
  zScore : Int

/-- The local variables of one activation of `search` that the embedded steps
read or write.  `capturesSearched` and `quietsSearched` are the arrays of 32 and
64 moves, with their fill counts. -/
structure NodeLocals where
  alpha : Int
  beta : Int
  bestValue : Int
  maxValue : Int
  bestMove : Nat
  moveCount : Int
  captureCount : Nat
  quietCount : Nat
  capturesSearched : Nat → Nat
  quietsSearched : Nat → Nat
  inCheck : Bool

/-- Everything one activation of `search` can change: its locals, the thread's
tables and counters, the transposition table and stack (`q`), the thread's root
moves, and the main thread's `bestMoveChanges`. -/
structure SearchState (T : Type) where
  loc : NodeLocals
  th : Thread
  q : QState T
  rootMoves : List RootMove
  bestMoveChanges : Int

/-- Apply `f` to the first element satisfying `p` (the element `std::find` returns). -/
def updateFirst {α : Type} (p : α → Bool) (f : α → α) : List α → List α
  | [] => []
  | x :: xs => if p x then f x :: xs else x :: updateFirst p f xs

/-- Steps 1 to 3 of `search` (search.cpp:993-1035): initialisation of the node, the
main thread's `check_time`, the `selDepth` update, the abort / draw / max-ply
check and mate distance pruning.  `isMain` is `thisThread == Threads.main()`;
`mt` holds `Threads.stop` and the main thread's polling state; `raised` tells
whether another thread has raised `Threads.stop` by the time it is loaded.  The
second component of the result is the flag value that load observed. -/
def search_step1_3 {P T : Type} (X : PosOps P) (K : Params) (E : SearchEnv)
    (PvNode : Bool) (pos : P) (ss : Int) (alpha beta depth : Int)
    (isMain : Bool) (L : LimitsType) (clock : ClockEnv) (raised : Bool)
    (mt : MainThreadState) (s : SearchState T) :
    Flow (SearchState T) × Bool × MainThreadState :=
  let ply := (s.q.stack ss).ply
  let rootNode := PvNode && decide (ply = 0)
  let inCheck := X.checkers pos
  let stack1 := setFrame s.q.stack ss { (s.q.stack ss) with moveCount := 0 }
  let loc1 : NodeLocals :=
    { s.loc with alpha := alpha, beta := beta, inCheck := inCheck, moveCount := 0,
                 captureCount := 0, quietCount := 0,
                 bestValue := -K.VALUE_INFINITE, maxValue := K.VALUE_INFINITE }
  let mt1 := if isMain then (check_time L clock mt).1 else mt
  let th1 :=
    if PvNode && decide (s.th.selDepth < ply + 1) then { s.th with selDepth := ply + 1 } else s.th
  let stop := mt1.stop || raised
  let s1 : SearchState T := { s with loc := loc1, th := th1, q := { s.q with stack := stack1 } }
  let flow : Flow (SearchState T) :=
    if !rootNode then
      if stop || X.is_draw pos ply || decide (ply ≥ K.MAX_PLY) then
        let draw := value_draw K depth th1
        let th2 := note_score E th1 ply draw
        .ret (if decide (ply ≥ K.MAX_PLY) && !inCheck then X.evaluate pos else draw)
          { s1 with th := th2 }
      else
        let alpha2 := max (mated_in K ply) alpha
        let beta2 := min (mate_in K (ply + 1)) beta
        let s2 : SearchState T := { s1 with loc := { loc1 with alpha := alpha2, beta := beta2 } }
        if alpha2 ≥ beta2 then .ret alpha2 s2 else .next s2
    else
      .next s1
  (flow, stop, mt1)

/-- Step 19 and the bookkeeping that ends one iteration of the moves loop of
`search` (search.cpp:1791-1870), entered after `undo_move` with the `value` the
child search returned for `move`.  `stop` is the value the load of `Threads.stop`
observes.  At the root the move is looked up in the root-move list, which
contains it. -/
def search_step19 {T : Type} (K : Params) (E : SearchEnv) (PvNode : Bool) (ss : Int)
    (move : Nat) (value : Int) (captureOrPromotion isMain stop : Bool)
    (s : SearchState T) : Flow (SearchState T) :=
  let rootNode := PvNode && decide ((s.q.stack ss).ply = 0)
  if stop then .ret K.VALUE_ZERO s
  else
    let l := s.loc
    let childPv := ((s.q.stack (ss + 1)).pv).getD []
    let better := decide (l.moveCount = 1) || decide (value > l.alpha)
    let rootMoves1 :=
      if rootNode then
        updateFirst (fun rm => decide (rm.pv.head? = some move))
          (fun rm =>
            let rm1 : RootMove :=
              if E.perceptronSearch then
                { rm with visits := rm.visits + s.th.visits, zScore := rm.zScore + s.th.allScores }
              else rm
            if better then
              { rm1 with score := value, selDepth := s.th.selDepth, pv := rm1.pv.take 1 ++ childPv }
            else { rm1 with score := -K.VALUE_INFINITE })
          s.rootMoves
      else s.rootMoves
    let th1 :=
      if rootNode && E.perceptronSearch then { s.th with visits := 0, allScores := 0 } else s.th
    let changes1 :=
      if rootNode && better && decide (l.moveCount > 1) && isMain then s.bestMoveChanges + 1
      else s.bestMoveChanges
    let s1 : SearchState T := { s with rootMoves := rootMoves1, th := th1, bestMoveChanges := changes1 }
    let record (t : SearchState T) : SearchState T :=
      if move ≠ t.loc.bestMove then
        if captureOrPromotion && decide (t.loc.captureCount < 32) then
          { t with loc := { t.loc with
              capturesSearched := setAt t.loc.capturesSearched t.loc.captureCount move
              captureCount := t.loc.captureCount + 1 } }
        else if !captureOrPromotion && decide (t.loc.quietCount < 64) then
          { t with loc := { t.loc with
              quietsSearched := setAt t.loc.quietsSearched t.loc.quietCount move
              quietCount := t.loc.quietCount + 1 } }
        else t
      else t
    if value > l.bestValue then
      if value > l.alpha then
        let line := update_pv move (s1.q.stack (ss + 1)).pv
        let frame := { (s1.q.stack ss) with pv := some line }
        let q1 : QState T :=
          if PvNode && !rootNode then { s1.q with stack := setFrame s1.q.stack ss frame } else s1.q
        if PvNode && decide (value < l.beta) then
          .next (record { s1 with q := q1,
                                  loc := { l with bestValue := value, bestMove := move, alpha := value } })
        else
          let frame0 := { (q1.stack ss) with statScore := 0 }
          .brk { s1 with q := { q1 with stack := setFrame q1.stack ss frame0 },
                         loc := { l with bestValue := value, bestMove := move } }
      else
        .next (record { s1 with loc := { l with bestValue := value } })
    else
      .next (record s1)

/-- Step 20 of `search` and what follows the moves loop (search.cpp:1886-1928): the
mate / stalemate score, the history updates, the tablebase cap, the TT save and
the return.  `excludedMove`, `posKey`, `ttPv` and `pureStaticEval` are the locals
of those names; C++ truth tests of a move or counter are comparisons with 0. -/
def search_step20 {P T : Type} (X : PosOps P) (TX : TTOps T) (K : Params) (E : SearchEnv)
    (PvNode : Bool) (pos : P) (ss : Int) (depth : Int) (excludedMove posKey : Nat)
    (ttPv : Bool) (pureStaticEval : Int) (s : SearchState T) : Int × SearchState T :=
  let l := s.loc
  let ply := (s.q.stack ss).ply
  let prev := s.q.stack (ss - 1)
  let prevSq := K.to_sq prev.currentMove
  let refuted := (decide (prev.moveCount = 1) || decide (prev.currentMove = prev.killers0))
    && decide (X.captured_piece pos = 0)
  let bestValue1 :=
    if l.moveCount = 0 then
      (if excludedMove ≠ 0 then l.alpha
       else if l.inCheck then mated_in K ply else K.VALUE_DRAW)
    else l.bestValue
  let quietBonus :=
    stat_bonus K (depth + (if l.bestValue > l.beta + K.PawnValueMg then K.ONE_PLY else K.DEPTH_ZERO))
  let afterQuiet : Thread × (Int → Stack) :=
    if !X.capture_or_promotion pos l.bestMove then
      update_quiet_stats X K pos s.th s.q.stack ss l.bestMove l.quietsSearched l.quietCount
        quietBonus
    else (s.th, s.q.stack)
  let afterCapture := update_capture_stats X K pos afterQuiet.1 l.bestMove l.capturesSearched
    l.captureCount (stat_bonus K (depth + K.ONE_PLY))
  let afterPenalty :=
    if refuted then
      update_continuation_histories K afterCapture afterQuiet.2 (ss - 1) (X.piece_on pos prevSq)
        prevSq (-stat_bonus K (depth + K.ONE_PLY))
    else afterCapture
  let th1 : Thread :=
    if l.moveCount = 0 then s.th
    else if l.bestMove ≠ 0 then afterPenalty
    else if (decide (depth ≥ 3 * K.ONE_PLY) || PvNode) && decide (X.captured_piece pos = 0) then
      update_continuation_histories K s.th s.q.stack (ss - 1) (X.piece_on pos prevSq) prevSq
        (stat_bonus K depth)
    else s.th
  let stack1 : Int → Stack :=
    if l.moveCount = 0 then s.q.stack
    else if l.bestMove ≠ 0 then afterQuiet.2
    else s.q.stack
  let bestValue2 := if PvNode then min bestValue1 l.maxValue else bestValue1
  let rec0 : TTSave :=
    { key := posKey, value := value_to_tt K bestValue2 ply, pv := ttPv,
      bound := if bestValue2 ≥ l.beta then K.BOUND_LOWER
               else if PvNode && decide (l.bestMove ≠ 0) then K.BOUND_EXACT
               else K.BOUND_UPPER,
      depth := depth, move := l.bestMove, eval := pureStaticEval }
  let tt1 := if excludedMove = 0 then TX.save s.q.tt rec0 else s.q.tt
  (bestValue2,
   { s with loc := { l with bestValue := bestValue2 }
            th := note_score E th1 ply bestValue2
            q := { s.q with tt := tt1, stack := stack1 } })

/-- A transposition table that never hits and records every save, newest first. -/
def logTT : TTOps (List TTSave) :=
  { probe := fun _ _ =>
      ({ value := 0, eval := 0, depth := 0, bound := 0, move := 0, is_pv := false }, false)
    save := fun log r => r :: log }

/-- Default settings: no playout statistics, no experience store, `Variety = 0`,
`Less Pruning Mode = 0`. -/
def defaultEnv : SearchEnv :=
  { perceptronSearch := false, persistedSelfLearning := false, variety := 0,
    lessPruningMode := 0, rand := fun _ => 0 }

/-- A zeroed stack whose frame 8 is at ply `ply`. -/
def stackAtPly (ply : Int) : Int → Stack :=
  setFrame zeroStack 8 { zeroFrame with ply := ply }

/-- Locals of a node with window `(alpha, beta)` in which no move has been counted. -/
def freshLocals (alpha beta : Int) (inCheck : Bool) : NodeLocals :=
  { alpha := alpha, beta := beta, bestValue := -32001, maxValue := 32001, bestMove := 0,
    moveCount := 0, captureCount := 0, quietCount := 0, capturesSearched := fun _ => 0,
    quietsSearched := fun _ => 0, inCheck := inCheck }

/-- A search state at ply `ply` (frame 8) with an empty logging table. -/
def freshState (ply alpha beta : Int) (inCheck : Bool) : SearchState (List TTSave) :=
  { loc := freshLocals alpha beta inCheck
    th := zeroThread
    q := { tt := [], stack := stackAtPly ply, randCalls := 0 }
    rootMoves := []
    bestMoveChanges := 0 }

/-- The value a fragment returned, if it returned. -/
def Flow.returned {σ : Type} : Flow σ → Option Int
  | .ret v _ => some v
  | .brk _ => none
  | .next _ => none

/-- The state a fragment ends in. -/
def Flow.state {σ : Type} : Flow σ → σ
  | .ret _ s => s
  | .brk s => s
  | .next s => s

/-- Constants of the Shashin style code that `search.cpp` uses but does not define:
the score thresholds, the score scale, the LMR caps and the codes of the position
types.  They are parameters like the enumerators of `types.h`. -/
structure ShashinParams where
  SHASHIN_TAL_THRESHOLD : Int
  SHASHIN_CAPABLANCA_THRESHOLD : Int
  SHASHIN_MAX_SCORE : Int
  SHASHIN_MIDDLE_HIGH_SCORE : Int
  SHASHIN_MAX_LMR : Int
  SHASHIN_MIN_LMR : Int
  MLR2 : Int
  MLR3 : Int
  scoreScale : Int
  SHASHIN_POSITION_PETROSIAN : Nat
  SHASHIN_POSITION_CAPABLANCA_PETROSIAN : Nat
  SHASHIN_POSITION_CAPABLANCA : Nat
  SHASHIN_POSITION_TAL_CAPABLANCA : Nat
  SHASHIN_POSITION_TAL : Nat
  SHASHIN_POSITION_TAL_CAPABLANCA_PETROSIAN : Nat

/-- `getShashinValue` (search.cpp:442). -/
def getShashinValue (S : ShashinParams) (score : Int) : Nat :=
  if score < -S.SHASHIN_TAL_THRESHOLD then S.SHASHIN_POSITION_PETROSIAN
  else if score ≥ -S.SHASHIN_TAL_THRESHOLD ∧ score ≤ -S.SHASHIN_CAPABLANCA_THRESHOLD then
    S.SHASHIN_POSITION_CAPABLANCA_PETROSIAN
  else if score < S.SHASHIN_CAPABLANCA_THRESHOLD then S.SHASHIN_POSITION_CAPABLANCA
  else if score ≥ S.SHASHIN_CAPABLANCA_THRESHOLD ∧ score ≤ S.SHASHIN_TAL_THRESHOLD then
    S.SHASHIN_POSITION_TAL_CAPABLANCA
  else if score > S.SHASHIN_TAL_THRESHOLD then S.SHASHIN_POSITION_TAL
  else S.SHASHIN_POSITION_TAL_CAPABLANCA_PETROSIAN

/-- `getShashinQuiescentCapablanca` (search.cpp:463). -/
def getShashinQuiescentCapablanca (score refScore : Int) : Int :=
  if cabs score > refScore then 0 else 1

/-- `getShashinMaxLmr` (search.cpp:467). -/
def getShashinMaxLmr (S : ShashinParams) (K : Params) (score : Int) : Int :=
  if cabs score ≤ S.SHASHIN_MIDDLE_HIGH_SCORE then S.SHASHIN_MAX_LMR * K.ONE_PLY
  else if cabs score ≤ S.SHASHIN_MAX_SCORE then Int.tdiv (-cabs score + S.MLR2) S.MLR3
  else S.SHASHIN_MIN_LMR * K.ONE_PLY

/-- The members of `Thread` that `Thread::updateShashinValues` writes.  `contempt`
is a `Score`, kept as its middlegame / endgame pair. -/
structure ShashinState where
  contempt : Int × Int
  shashinValue : Nat
  shashinQuiescentCapablancaMaxScore : Int
  shashinMaxLmr : Int

/-- `Thread::updateShashinValues` (search.cpp:583).  `usWhite` is `us == WHITE`. -/
def updateShashinValues (S : ShashinParams) (K : Params) (score ct : Int) (usWhite : Bool)
    (value : Int) : ShashinState :=
  let dct := ct + Int.tdiv (88 * value) (cabs value + 200)
  let scoreCP := Int.tdiv (score * S.scoreScale) K.PawnValueEg
  { contempt := if usWhite then (dct, Int.tdiv dct 2) else (-dct, -(Int.tdiv dct 2))
    shashinValue := getShashinValue S scoreCP
    shashinQuiescentCapablancaMaxScore := getShashinQuiescentCapablanca scoreCP S.SHASHIN_MAX_SCORE
    shashinMaxLmr := getShashinMaxLmr S K scoreCP }

/-- The variables of `Thread::search` that the aspiration loop reads and writes:
the window, the window increments (`delta`, or `delta1` / `delta2` in Less Pruning
Mode), `failedHighCnt`, the main thread's `stopOnPonderhit`, and the thread's
Shashin members. -/
structure AspirationState where
  alpha : Int
  beta : Int
  delta : Int
  delta1 : Int
  delta2 : Int
  failedHighCnt : Int
  stopOnPonderhit : Bool
  shashin : ShashinState

/-- What one pass of the aspiration loop gets from its environment: the value
`search<PV>` returned, the value of `Threads.stop` tested after it, and the playout
statistics `rootMoves[0].zScore`, `rootMoves[0].visits` after the stable sort. -/
structure RootSearchResult where
  bestValue : Int
  stop : Bool
  zScore : Int
  visits : Int

/-- The arguments of one call `search<PV>(rootPos, ss, alpha, beta, adjustedDepth, false)`. -/
structure RootSearchCall where
  alpha : Int
  beta : Int
  depth : Int

/-- Reset of the aspiration window before the loop (search.cpp:699-718).  `lpDelta x`
stands for the floating-point expression `int(12.0 + 0.07 * abs(x))`. -/
def aspiration_init (S : ShashinParams) (K : Params) (E : SearchEnv) (ct : Int)
    (usWhite : Bool) (lpDelta : Int → Int) (rootDepth previousScore : Int)
    (s : AspirationState) : AspirationState :=
  if rootDepth ≥ 5 * K.ONE_PLY then
    let d1 := if previousScore < 0 then lpDelta previousScore else 16
    let d2 := if previousScore > 0 then lpDelta previousScore else 16
    let sh := updateShashinValues S K previousScore ct usWhite previousScore
    if E.lessPruningMode ≠ 0 then
      { s with delta1 := d1, delta2 := d2
               alpha := max (previousScore - d1) (-K.VALUE_INFINITE)
               beta := min (previousScore + d2) K.VALUE_INFINITE
               shashin := sh }
    else
      { s with delta := 20
               alpha := max (previousScore - 20) (-K.VALUE_INFINITE)
               beta := min (previousScore + 20) K.VALUE_INFINITE
               shashin := sh }
  else s

/-- Growth of the window increments at the end of a failed pass (search.cpp:793-801). -/
def aspiration_grow (E : SearchEnv) (s : AspirationState) : AspirationState :=
  if E.lessPruningMode ≠ 0 then
    { s with delta1 := s.delta1 + (Int.tdiv s.delta1 4 + 5)
             delta2 := s.delta2 + (Int.tdiv s.delta2 4 + 5) }
  else
    { s with delta := s.delta + (Int.tdiv s.delta 4 + 5) }

/-- One pass of the aspiration loop after `search<PV>` has returned
(search.cpp:728-803): `.brk` when the loop is left, `.next` when the window was
changed for a re-search.  `isMain` is `mainThread != nullptr`. -/
def aspiration_round (S : ShashinParams) (K : Params) (E : SearchEnv) (ct : Int)
    (usWhite isMain : Bool) (r : RootSearchResult) (s : AspirationState) :
    Flow AspirationState :=
  let sh := updateShashinValues S K r.bestValue ct usWhite r.bestValue
  let s0 := { s with shashin := sh }
  if r.stop then .brk s0
  else
    let playoutLow := decide (sh.shashinValue ≠ S.SHASHIN_POSITION_TAL)
      && decide (sh.shashinValue ≠ S.SHASHIN_POSITION_PETROSIAN) && E.perceptronSearch
      && decide (Int.tdiv r.zScore r.visits ≤ s.alpha - Int.tdiv K.PawnValueMg 2)
    if decide (r.bestValue ≤ s.alpha) || playoutLow then
      let inc := if E.lessPruningMode ≠ 0 then s.delta1 else s.delta
      .next (aspiration_grow E
        { s0 with beta := Int.tdiv (s.alpha + s.beta) 2
                  alpha := max (r.bestValue - inc) (-K.VALUE_INFINITE)
                  failedHighCnt := if isMain then 0 else s.failedHighCnt
                  stopOnPonderhit := if isMain then false else s.stopOnPonderhit })
    else if r.bestValue ≥ s.beta then
      let inc := if E.lessPruningMode ≠ 0 then s.delta2 else s.delta
      .next (aspiration_grow E
        { s0 with beta := min (r.bestValue + inc) K.VALUE_INFINITE
                  failedHighCnt := if isMain then s.failedHighCnt + 1 else s.failedHighCnt })
    else .brk s0

/-- The aspiration loop `while (true)` of `Thread::search` (search.cpp:724-804).
`results k` is what the `k`-th pass gets from `search<PV>` and its environment.  The
C++ loop has no bound of its own, so the embedding carries a budget of passes and
yields `none` when it is used up; otherwise it returns the final state and the
list of `search<PV>` calls made. -/
def aspiration_loop (S : ShashinParams) (K : Params) (E : SearchEnv) (ct : Int)
    (usWhite isMain : Bool) (rootDepth : Int) (results : Nat → RootSearchResult) :
    Nat → Nat → AspirationState → List RootSearchCall →
      Option (AspirationState × List RootSearchCall)
  | 0, _, _, _ => none
  | fuel + 1, k, s, calls =>
    let call : RootSearchCall :=
      { alpha := s.alpha, beta := s.beta
        depth := max K.ONE_PLY (rootDepth - s.failedHighCnt * K.ONE_PLY) }
    match aspiration_round S K E ct usWhite isMain (results k) s with
    | .brk s1 => some (s1, calls ++ [call])
    | .ret _ s1 => some (s1, calls ++ [call])
    | .next s1 =>
      aspiration_loop S K E ct usWhite isMain rootDepth results fuel (k + 1) s1 (calls ++ [call])

/-- The precondition `search` asserts on its window (search.cpp:966):
`-VALUE_INFINITE <= alpha && alpha < beta && beta <= VALUE_INFINITE`. -/
def window_ok (K : Params) (alpha beta : Int) : Prop :=
  -K.VALUE_INFINITE ≤ alpha ∧ alpha < beta ∧ beta ≤ K.VALUE_INFINITE

/-- Modelled from the spec: sample values of the Shashin constants, which
`search.cpp` uses but does not define and for which the spec gives no numbers
("style flags biasing contempt and LMR caps").  Positive thresholds and pairwise
distinct position codes are all the evaluations below rely on. -/
def shashinSample : ShashinParams :=
  { SHASHIN_TAL_THRESHOLD := 75
    SHASHIN_CAPABLANCA_THRESHOLD := 25
    SHASHIN_MAX_SCORE := 240
    SHASHIN_MIDDLE_HIGH_SCORE := 120
    SHASHIN_MAX_LMR := 63
    SHASHIN_MIN_LMR := 0
    MLR2 := 240
    MLR3 := 2
    scoreScale := 100
    SHASHIN_POSITION_PETROSIAN := 1
    SHASHIN_POSITION_CAPABLANCA_PETROSIAN := 3
    SHASHIN_POSITION_CAPABLANCA := 2
    SHASHIN_POSITION_TAL_CAPABLANCA := 6
    SHASHIN_POSITION_TAL := 4
    SHASHIN_POSITION_TAL_CAPABLANCA_PETROSIAN := 7 }

/-- The aspiration variables as `Thread::search` sets them before iterating
(search.cpp:620-628): `alpha` and the increment in use are `-VALUE_INFINITE`, `beta`
is `VALUE_INFINITE`; the increments not in use are uninitialised (taken as 0). -/
def aspirationStart (K : Params) (E : SearchEnv) (sh : ShashinState) : AspirationState :=
  { alpha := -K.VALUE_INFINITE
    beta := K.VALUE_INFINITE
    delta := if E.lessPruningMode ≠ 0 then 0 else -K.VALUE_INFINITE
    delta1 := if E.lessPruningMode ≠ 0 then -K.VALUE_INFINITE else 0
    delta2 := if E.lessPruningMode ≠ 0 then -K.VALUE_INFINITE else 0
    failedHighCnt := 0
    stopOnPonderhit := false
    shashin := sh }

/-- Shashin members of a thread before any score is known. -/
def shashinIdle : ShashinState :=
  { contempt := (0, 0), shashinValue := 0, shashinQuiescentCapablancaMaxScore := 1,
    shashinMaxLmr := 63 }

/-- `NN Perceptron Search` switched on, everything else default. -/
def perceptronEnv : SearchEnv :=
  { perceptronSearch := true, persistedSelfLearning := false, variety := 0,
    lessPruningMode := 0, rand := fun _ => 0 }

/-- A sequence of root results: `first` in the first pass, then always `later`, with
the stop flag never raised and a playout average of `zScore / visits`. -/
def rootResults (first later zScore visits : Int) : Nat → RootSearchResult :=
  fun k =>
    { bestValue := if k = 0 then first else later, stop := false, zScore := zScore,
      visits := visits }

/-- Root results with `NN Perceptron Search` on: every pass returns 0 while the playout
statistics of the first root move average `-12000 / 100 = -120`; the stop flag is
raised during the second pass. -/
def perceptronResults : Nat → RootSearchResult :=
  fun k => { bestValue := 0, stop := decide (1 ≤ k), zScore := -12000, visits := 100 }

/-- The windows of the `search<PV>` calls recorded by a run of the aspiration loop. -/
def callWindows (r : Option (AspirationState × List RootSearchCall)) :
    Option (List (Int × Int)) :=
  r.map (fun x => x.2.map (fun c => (c.alpha, c.beta)))

/-- What the vote reads of a thread: `rootMoves[0].pv[0]`, `rootMoves[0].score` and
`completedDepth`. -/
structure ThreadResult where
  move : Nat
  score : Int
  completedDepth : Int

/-- Minimum best score over all threads (search.cpp:359-363), starting from the main
thread's score. -/
def vote_minScore (main : ThreadResult) (threads : List ThreadResult) : Int :=
  threads.foldl (fun m th => min m th.score) main.score

/-- The map `votes` after the voting loop (search.cpp:366-370); a move never voted for
reads 0, as `std::map::operator[]` value-initialises it.  The products stay far below
`2^63` for scores within `±VALUE_INFINITE`, so `int64_t` is modelled by `Int`. -/
def vote_tally (minScore : Int) (threads : List ThreadResult) : Nat → Int :=
  threads.foldl
    (fun votes th =>
      let s := th.score - minScore + 1
      fun m => if m = th.move then votes m + (200 + s * s * th.completedDepth) else votes m)
    (fun _ => 0)

/-- Selection loop (search.cpp:373-378) over the remaining threads; `i` is the index of
the next thread in `Threads`, the accumulator is `(bestThread, bestVote)`. -/
def vote_select (votes : Nat → Int) : List ThreadResult → Nat → Nat × Int → Nat × Int
  | [], _, acc => acc
  | th :: rest, i, acc =>
    if votes th.move > acc.2 then vote_select votes rest (i + 1) (i, votes th.move)
    else vote_select votes rest (i + 1) acc

/-- Choice of `bestThread` in `MainThread::search` (search.cpp:349-379) as an index into
`Threads`, whose first element is the main thread. -/
def best_thread (K : Params) (multiPV : Nat) (limitsDepth : Int) (limitStrength : Bool)
    (main : ThreadResult) (helpers : List ThreadResult) : Nat :=
  if multiPV = 1 ∧ limitsDepth = 0 ∧ limitStrength = false ∧ main.move ≠ K.MOVE_NONE then
    let threads := main :: helpers
    let votes := vote_tally (vote_minScore main threads) threads
    (vote_select votes threads 0 (0, votes main.move)).1
  else 0

/-- The vote one thread casts. -/
def vote_weight (minScore : Int) (th : ThreadResult) : Int :=
  200 + (th.score - minScore + 1) ^ 2 * th.completedDepth

/-- Three threads: the main thread prefers move 1, two helpers agree on move 2. -/
def votingMain : ThreadResult := { move := 1, score := 30, completedDepth := 10 }

/-- Helper threads of the sample vote. -/
def votingHelpers : List ThreadResult :=
  [{ move := 2, score := 25, completedDepth := 9 }, { move := 2, score := 28, completedDepth := 11 }]

/-- The `Variety` step of `qsearch` on its own (search.cpp:2131-2132), as it stands in
`qsearch` above: from `bestValue` and the number of `rand()` calls made so far to the
new `bestValue` and call count. -/
def qsearch_variety (K : Params) (E : SearchEnv) (bestValue : Int) (randCalls : Nat) :
    Int × Nat :=
  let jitter := decide (E.variety ≠ 0)
    && decide (bestValue + Int.tdiv (E.variety * K.PawnValueEg) 100 ≥ 0)
  if jitter then (bestValue + Int.tmod (E.rand randCalls) (E.variety + 1), randCalls + 1)
  else (bestValue, randCalls)

/-- `Variety = 1` with a `rand()` that always returns 1. -/
def varietyEnv : SearchEnv :=
  { perceptronSearch := false, persistedSelfLearning := false, variety := 1,
    lessPruningMode := 0, rand := fun _ => 1 }

/-- The locals of the moves loop of `search` that Step 13 writes (`extension`,
`newDepth`, `value`) and the global flag `SE`, next to the state of the node. -/
structure MoveState (T : Type) where
  s : SearchState T
  SE : Bool
  extension : Int
  newDepth : Int
  value : Int

/-- The condition under which Step 13 runs the singular extension search
(search.cpp:1539-1547); `rootNode` is `PvNode && ss->ply == 0` and the truth test of
`excludedMove` a comparison with 0. -/
def singular_condition {P : Type} (X : PosOps P) (K : Params) (PvNode : Bool) (pos : P)
    (ply depth : Int) (move ttMove excludedMove : Nat) (ttValue : Int) (tte : TTData) : Bool :=
  decide (depth ≥ 8 * K.ONE_PLY) && decide (move = ttMove) && !(PvNode && decide (ply = 0))
    && decide (excludedMove = 0) && decide (cabs ttValue < K.VALUE_KNOWN_WIN)
    && bound_has tte.bound K.BOUND_LOWER && decide (tte.depth ≥ depth - 3 * K.ONE_PLY)
    && X.legal pos move

/-- The statement `ss->excludedMove = move`. -/
def set_excludedMove {T : Type} (s : SearchState T) (ss : Int) (move : Nat) : SearchState T :=
  let frame := { (s.q.stack ss) with excludedMove := move }
  { s with q := { s.q with stack := setFrame s.q.stack ss frame } }

/-- Step 13 of `search` for the move `move` (search.cpp:1517-1589): the experience
flag `SE`, the singular extension search with multi-cut, the check, shuffle and
castling extensions, and `newDepth`.  `child alpha beta depth cutNode` stands for the
recursive call `search<NonPV>(pos, ss, alpha, beta, depth, cutNode)`; `ttMove`,
`excludedMove`, `ttValue`, `minSons`, `expttMove`, `visits` are the locals of those
names and `tte` the accessors of the probed entry; `discoversCheck` is
`pos.blockers_for_king(~us) & from_sq(move)` and `isCastling` is
`type_of(move) == CASTLING`.  C++ truth tests of a move are comparisons with 0. -/
def search_step13 {P T : Type} (X : PosOps P) (K : Params) (E : SearchEnv)
    (child : Int → Int → Int → Bool → SearchState T → Int × SearchState T)
    (PvNode cutNode : Bool) (pos : P) (ss : Int) (depth : Int)
    (move ttMove excludedMove : Nat) (ttValue : Int) (tte : TTData)
    (minSons : Int) (expttMove : Nat) (visits : Int) (discoversCheck isCastling : Bool)
    (m : MoveState T) : Flow (MoveState T) :=
  let ply := (m.s.q.stack ss).ply
  let givesCheck := X.gives_check pos move
  let se1 := E.persistedSelfLearning && decide (minSons = 1) && decide (move = expttMove)
    && X.legal pos move && decide (visits > 6)
  let m0 : MoveState T :=
    { m with extension := K.DEPTH_ZERO, SE := if se1 then true else m.SE }
  let finish (x : MoveState T) (extension : Int) : Flow (MoveState T) :=
    .next { x with extension := extension, newDepth := depth - K.ONE_PLY + extension }
  if singular_condition X K PvNode pos ply depth move ttMove excludedMove ttValue tte then
    let singularBeta := ttValue - Int.tdiv (2 * depth) K.ONE_PLY
    let r := child (singularBeta - 1) singularBeta (Int.tdiv depth 2) cutNode
      (set_excludedMove m.s ss move)
    let sOut := set_excludedMove r.2 ss K.MOVE_NONE
    let m1 : MoveState T := { m0 with s := sOut, value := r.1 }
    if r.1 < singularBeta then finish m1 K.ONE_PLY
    else if cutNode && decide (singularBeta > m.s.loc.beta) then
      .ret m.s.loc.beta
        { m1 with s := { sOut with th := note_score E sOut.th ply m.s.loc.beta } }
    else finish m1 K.DEPTH_ZERO
  else if givesCheck && (discoversCheck || X.see_ge pos move K.VALUE_ZERO) then
    finish m0 K.ONE_PLY
  else if decide (X.rule50_count pos > 14) && decide (ply > 14)
      && decide (depth < 3 * K.ONE_PLY) && PvNode then
    finish m0 K.ONE_PLY
  else if isCastling then finish m0 K.ONE_PLY
  else finish m0 K.DEPTH_ZERO

/-- A position on which the move 796 (e2e4) is legal and nothing else is known. -/
def oneMovePos : PosOps Unit :=
  stubOps (fun _ => [796]) (fun p _ => p) (fun _ => 0) (fun _ => false) (fun _ => [])

/-- A TT entry for the move 796: lower bound 116 stored at depth 8. -/
def ttLower116 : TTData :=
  { value := 116, eval := 0, depth := 8, bound := 2, move := 796, is_pv := false }

/-- Locals before Step 13 in a non-root frame at ply 3 with window `(alpha, beta)`. -/
def moveStart (alpha beta : Int) : MoveState (List TTSave) :=
  { s := freshState 3 alpha beta false, SE := false, extension := 0, newDepth := 0, value := 0 }

/-- The Shashin cap on the reduction (search.cpp:1751-1753): `r` is limited to
`shashinMaxLmr` when the reduced depth would fall more than `8·ONE_PLY` short of the
thread's `rootDepth`. -/
def shashin_lmr_cap (K : Params) (r newDepth rootDepth shashinMaxLmr : Int) : Int :=
  if newDepth - r + 8 * K.ONE_PLY < rootDepth then min r shashinMaxLmr else r

/-- What Steps 16 and 17 leave behind: the local `value`, the reduced depth `d` (only
inside the LMR block), `doFullDepthSearch`, the `search<NonPV>` calls made, in order,
as `(alpha, beta, depth, cutNode)`, and the state after them. -/
structure LmrResult (σ : Type) where
  value : Int
  d : Option Int
  doFullDepthSearch : Bool
  calls : List (Int × Int × Int × Bool)
  s : σ

/-- The end of Step 16 and Step 17 of `search` (search.cpp:1751-1775).  `lmr` tells
whether the LMR condition of Step 16 held, in which case `r` is the reduction after all
its adjustments; `child alpha beta depth cutNode` stands for
`search<NonPV>(pos, ss+1, alpha, beta, depth, cutNode)`; `train` is the perceptron
update `train(features, 1e-2)`, `prediction` the local of that name.  The debug counter
`dbg_hit_on` is left out. -/
def search_step16_17 {σ : Type} (K : Params) (E : SearchEnv)
    (child : Int → Int → Int → Bool → σ → Int × σ) (train : σ → σ)
    (PvNode cutNode lmr : Bool) (r newDepth alpha rootDepth shashinMaxLmr moveCount : Int)
    (trainPerc : Bool) (prediction : Int) (value : Int) (s : σ) : LmrResult σ :=
  let step17 (full : Bool) (d : Option Int) (v : Int) (calls : List (Int × Int × Int × Bool))
      (t : σ) : LmrResult σ :=
    if full then
      let c := child (-(alpha + 1)) (-alpha) newDepth (!cutNode) t
      { value := -c.1, d := d, doFullDepthSearch := full,
        calls := calls ++ [(-(alpha + 1), -alpha, newDepth, !cutNode)], s := c.2 }
    else { value := v, d := d, doFullDepthSearch := full, calls := calls, s := t }
  if lmr then
    let r1 := shashin_lmr_cap K r newDepth rootDepth shashinMaxLmr
    let d := max (newDepth - max r1 K.DEPTH_ZERO) K.ONE_PLY
    let c := child (-(alpha + 1)) (-alpha) d true s
    let v := -c.1
    let result : Int := if v > alpha then 1 else 0
    let t := if trainPerc && E.perceptronSearch && decide (prediction ≠ result) then train c.2
      else c.2
    step17 (decide (v > alpha) && decide (d ≠ newDepth)) (some d) v
      [(-(alpha + 1), -alpha, d, true)] t
  else
    step17 (!PvNode || decide (moveCount > 1)) none value [] s

/-- The state of a node next to the thread's null-move verification members
`nmpMinPly` and `nmpColor` (thread.h). -/
structure NullMoveState (T : Type) where
  s : SearchState T
  nmpMinPly : Int
  nmpColor : Nat

/-- What the end of Step 9 leaves behind: the control flow, and the verification
searches made, each as `(alpha, beta, depth, cutNode)` with the values of `nmpMinPly`
and `nmpColor` in force during the call. -/
structure NullMoveResult (T : Type) where
  flow : Flow (NullMoveState T)
  calls : List (Int × Int × Int × Bool × Int × Nat)

/-- The state in which a verification search is started (search.cpp:1398-1399). -/
def verification_state {T : Type} (n : NullMoveState T) (ss : Int) (us : Nat)
    (depth R : Int) : NullMoveState T :=
  { n with nmpMinPly := (n.s.q.stack ss).ply + Int.tdiv (3 * (depth - R)) 4, nmpColor := us }

/-- Step 9 of `search` after the null-move search has returned `nullValue`
(search.cpp:1376-1413).  `child alpha beta depth cutNode` stands for the verification
call `search<NonPV>(pos, ss, alpha, beta, depth, cutNode)`; `R` is the reduction and
`us` the side to move.  `.next` goes on to Step 10. -/
def search_step9_tail {T : Type} (K : Params) (E : SearchEnv)
    (child : Int → Int → Int → Bool → NullMoveState T → Int × NullMoveState T)
    (ss : Int) (us : Nat) (depth R beta nullValue : Int) (n : NullMoveState T) :
    NullMoveResult T :=
  let noted (x : NullMoveState T) (v : Int) : NullMoveState T :=
    { x with s := { x.s with th := note_score E x.s.th (x.s.q.stack ss).ply v } }
  if nullValue ≥ beta then
    let nullValue1 := if nullValue ≥ K.VALUE_MATE_IN_MAX_PLY then beta else nullValue
    if decide (n.nmpMinPly ≠ 0)
        || (decide (cabs beta < K.VALUE_KNOWN_WIN) && decide (depth < 12 * K.ONE_PLY)) then
      { flow := .ret nullValue1 (noted n nullValue1), calls := [] }
    else
      let n1 := verification_state n ss us depth R
      let c := child (beta - 1) beta (depth - R) false n1
      let n2 : NullMoveState T := { c.2 with nmpMinPly := 0 }
      let calls := [(beta - 1, beta, depth - R, false, n1.nmpMinPly, n1.nmpColor)]
      if c.1 ≥ beta then { flow := .ret nullValue1 (noted n2 nullValue1), calls := calls }
      else { flow := .next n2, calls := calls }
  else { flow := .next n, calls := [] }

/-- A node at ply 3 with window `(alpha, beta)` and the given `nmpMinPly`. -/
def nullMoveStart (alpha beta nmpMinPly : Int) : NullMoveState (List TTSave) :=
  { s := freshState 3 alpha beta false, nmpMinPly := nmpMinPly, nmpColor := 0 }

/-- The score Step 5 derives from a tablebase result `wdl` (search.cpp:1230-1232). -/
def tb_value (K : Params) (ply wdl drawScore : Int) : Int :=
  if wdl < -drawScore then -K.VALUE_MATE + K.MAX_PLY + ply + 1
  else if wdl > drawScore then K.VALUE_MATE - K.MAX_PLY - ply - 1
  else K.VALUE_DRAW + 2 * wdl * drawScore

/-- The bound type Step 5 derives from a tablebase result (search.cpp:1234-1235). -/
def tb_bound (K : Params) (wdl drawScore : Int) : Nat :=
  if wdl < -drawScore then K.BOUND_UPPER
  else if wdl > drawScore then K.BOUND_LOWER
  else K.BOUND_EXACT

/-- The state of a node next to the local `value`, the main thread's `callsCnt` and
the thread's `tbHits` counter. -/
structure TbState (T : Type) where
  s : SearchState T
  value : Int
  callsCnt : Int
  tbHits : Nat

/-- Step 5 of `search`, the tablebase probe (search.cpp:1207-1262).  `Cardinality`,
`ProbeDepth` and `UseRule50` are the `TB::` settings, `piecesCount` is
`pos.count<ALL_PIECES>()`, `canCastle` is `pos.can_castle(ANY_CASTLING)`; `wdl` and
`failed` are the result of `Tablebases::probe_wdl` (`failed` is
`err == TB::ProbeState::FAIL`); `posKey` and `ttPv` are the locals of those names and
`isMain` is `thisThread == Threads.main()`. -/
def search_step5 {P T : Type} (X : PosOps P) (TX : TTOps T) (K : Params) (E : SearchEnv)
    (PvNode : Bool) (pos : P) (ss depth : Int) (posKey : Nat) (ttPv isMain : Bool)
    (Cardinality ProbeDepth : Int) (UseRule50 : Bool) (piecesCount : Int)
    (canCastle : Bool) (wdl : Int) (failed : Bool) (t : TbState T) : Flow (TbState T) :=
  let ply := (t.s.q.stack ss).ply
  let rootNode := PvNode && decide (ply = 0)
  if !rootNode && decide (Cardinality ≠ 0) then
    if decide (piecesCount ≤ Cardinality)
        && (decide (piecesCount < Cardinality) || decide (depth ≥ ProbeDepth))
        && decide (X.rule50_count pos = 0) && !canCastle then
      let t1 : TbState T := if isMain then { t with callsCnt := 0 } else t
      if !failed then
        let drawScore : Int := if UseRule50 then 1 else 0
        let value := tb_value K ply wdl drawScore
        let b := tb_bound K wdl drawScore
        let t2 : TbState T := { t1 with tbHits := t1.tbHits + 1, value := value }
        let l := t2.s.loc
        if decide (b = K.BOUND_EXACT)
            || (if b = K.BOUND_LOWER then decide (value ≥ l.beta) else decide (value ≤ l.alpha)) then
          let rec5 : TTSave :=
            { key := posKey, value := value_to_tt K value ply, pv := ttPv, bound := b,
              depth := min (K.DEPTH_MAX - K.ONE_PLY) (depth + 6 * K.ONE_PLY),
              move := K.MOVE_NONE, eval := K.VALUE_NONE }
          let q1 : QState T := { t2.s.q with tt := TX.save t2.s.q.tt rec5 }
          .ret value { t2 with s := { t2.s with q := q1, th := note_score E t2.s.th ply value } }
        else if PvNode then
          if b = K.BOUND_LOWER then
            let l1 : NodeLocals := { l with bestValue := value, alpha := max l.alpha value }
            .next { t2 with s := { t2.s with loc := l1 } }
          else
            .next { t2 with s := { t2.s with loc := { l with maxValue := value } } }
        else .next t2
      else .next t1
    else .next t
  else .next t

/-- Locals before Step 5 in a non-root frame at ply `ply` with window `(alpha, beta)`. -/
def tbStart (ply alpha beta : Int) : TbState (List TTSave) :=
  { s := freshState ply alpha beta false, value := 0, callsCnt := 7, tbHits := 0 }

/-- A transposition table that keeps every `save` in a log, newest first; what a probe
answers is an arbitrary function `probe` of the saves made so far and the key. -/
def recordingTT (probe : List TTSave → Nat → TTData × Bool) : TTOps (List TTSave) :=
  { probe := probe, save := fun log r => r :: log }

/-- The static evaluation `qsearch` records in `ss->staticEval` when the side to move
is not in check (search.cpp:2003-2016); `q` is the state at entry. -/
def qsearch_staticEval {P T : Type} (X : PosOps P) (TX : TTOps T) (K : Params) (pos : P)
    (ss : Int) (q : QState T) : Int :=
  let tte := (TX.probe q.tt (X.key pos)).1
  let ttHit := (TX.probe q.tt (X.key pos)).2
  if ttHit then (if tte.eval = K.VALUE_NONE then X.evaluate pos else tte.eval)
  else if (q.stack (ss - 1)).currentMove ≠ K.MOVE_NULL then X.evaluate pos
  else -(q.stack (ss - 1)).staticEval + 2 * K.Tempo

/-- The initial `bestValue` of `qsearch` when the side to move is not in check
(search.cpp:2003-2016): the static evaluation, or the TT value when the entry's bound
allows it. -/
def qsearch_standPat {P T : Type} (X : PosOps P) (TX : TTOps T) (K : Params) (pos : P)
    (ss : Int) (q : QState T) : Int :=
  let tte := (TX.probe q.tt (X.key pos)).1
  let ttHit := (TX.probe q.tt (X.key pos)).2
  let ttValue := if ttHit then value_from_tt K tte.value (q.stack ss).ply else K.VALUE_NONE
  let staticEval := qsearch_staticEval X TX K pos ss q
  if ttHit && decide (ttValue ≠ K.VALUE_NONE)
      && bound_has tte.bound (if ttValue > staticEval then K.BOUND_LOWER else K.BOUND_UPPER)
  then ttValue
  else staticEval

/-- The early TT cutoff of `qsearch` (search.cpp:1986-1992). -/
def qsearch_ttCutoff {P T : Type} (X : PosOps P) (TX : TTOps T) (K : Params)
    (PvNode : Bool) (pos : P) (ss beta depth : Int) (q : QState T) : Bool :=
  let tte := (TX.probe q.tt (X.key pos)).1
  let ttHit := (TX.probe q.tt (X.key pos)).2
  let ttValue := if ttHit then value_from_tt K tte.value (q.stack ss).ply else K.VALUE_NONE
  let ttDepth :=
    if X.checkers pos || decide (depth ≥ K.DEPTH_QS_CHECKS) then K.DEPTH_QS_CHECKS
    else K.DEPTH_QS_NO_CHECKS
  !PvNode && ttHit && decide (tte.depth ≥ ttDepth) && decide (ttValue ≠ K.VALUE_NONE)
    && (if ttValue ≥ beta then bound_has tte.bound K.BOUND_LOWER
        else bound_has tte.bound K.BOUND_UPPER)

/-- `ttDepth` of a `qsearch` node (search.cpp:1977-1978). -/
def qsearch_ttDepth (K : Params) (inCheck : Bool) (depth : Int) : Int :=
  if inCheck || decide (depth ≥ K.DEPTH_QS_CHECKS) then K.DEPTH_QS_CHECKS
  else K.DEPTH_QS_NO_CHECKS

/-- The depth codes found in the saves of `qsearch`: `DEPTH_NONE`, `DEPTH_QS_CHECKS`
or `DEPTH_QS_NO_CHECKS`. -/
def qs_depth_code (K : Params) (r : TTSave) : Bool :=
  decide (r.depth = K.DEPTH_NONE) || decide (r.depth = K.DEPTH_QS_CHECKS)
    || decide (r.depth = K.DEPTH_QS_NO_CHECKS)

/-- The log `new` extends `old` by saves that all carry one of the three depth codes. -/
def SavesSince (K : Params) (old new : List TTSave) : Prop :=
  ∃ added, new = added ++ old ∧ ∀ r ∈ added, qs_depth_code K r = true

/-- A table that answers every probe with a hit on a lower-bound entry of value 500
and static evaluation 10, stored at depth `DEPTH_NONE`. -/
def hitTT : TTOps (List TTSave) :=
  recordingTT (fun _ _ =>
    ({ value := 500, eval := 10, depth := -6, bound := 2, move := 0, is_pv := false }, true))

/-- A toy game on `Nat` for the quiescence search: position `n > 0` has the single
capture 1, leading to `n − 1`; every position evaluates to 0 and nobody is in check. -/
def captureChain : PosOps Nat :=
  stubOps (fun n => if n = 0 then [] else [1]) (fun n _ => n - 1) (fun _ => 0)
    (fun _ => false) (fun n => if n = 0 then [] else [1])

/-- What the moves loop of `search` hands to Step 19 for one move that was searched:
the move, the `value` of its search, whether it is a capture or promotion, the value
`Threads.stop` has when it is loaded, the running `moveCount`, and the thread data,
transposition table and stack as the child searches left them. -/
structure MoveOutcome (T : Type) where
  move : Nat
  value : Int
  captureOrPromotion : Bool
  stop : Bool
  moveCount : Int
  th : Thread
  q : QState T

/-- The moves loop of `search` as far as the locals of Step 19 go (search.cpp:1482-1871):
for each searched move the state is what the earlier steps of the iteration left, then
Step 19 and the recording of the move run; the loop ends at a `return` or `break`.
Moves skipped by `continue` do not reach Step 19 and are not in the list. -/
def search_moves_loop {T : Type} (K : Params) (E : SearchEnv) (PvNode : Bool) (ss : Int)
    (isMain : Bool) : List (MoveOutcome T) → SearchState T → Flow (SearchState T)
  | [], s => .next s
  | o :: rest, s =>
    let s0 : SearchState T :=
      { s with loc := { s.loc with moveCount := o.moveCount }, th := o.th, q := o.q }
    match search_step19 K E PvNode ss o.move o.value o.captureOrPromotion isMain o.stop s0 with
    | .next s1 => search_moves_loop K E PvNode ss isMain rest s1
    | .brk s1 => .brk s1
    | .ret v s1 => .ret v s1

/-- The quiet moves 100, 101, …, `100 + n − 1`, each searched with value −50 (a fail
low), with the thread data and stack of an idle thread. -/
def quietOutcomes (n : Nat) : List (MoveOutcome (List TTSave)) :=
  (List.range n).map (fun i =>
    { move := 100 + i, value := -50, captureOrPromotion := false, stop := false,
      moveCount := i + 1, th := zeroThread,
      q := { tt := [], stack := stackAtPly 3, randCalls := 0 } })

/-- Conversion of an integer to `unsigned` (32 bits). -/
def toUInt32 (x : Int) : Int := x % 2 ^ 32

/-- The "magic formula" of `Skill::pick_best` (search.cpp:2268-2269),
`int push = (weakness * int(topScore - score) + delta * (rng.rand<unsigned>() % weakness)) / 128`,
with the C++ conversions spelled out: the first product is an `int` (wrapping at 32
bits), `rand<unsigned>()` is the low half of the 64-bit `rnd`, and the remainder, the
second product, the sum and the quotient are `unsigned` before the result is
converted back to `int`. -/
def pick_best_push (weakness topScore score delta : Int) (rnd : Nat) : Int :=
  let r : Int := Int.ofNat (rnd % 2 ^ 32)
  let term1 := toInt32 (weakness * toInt32 (topScore - score))
  let term2 := toUInt32 (toUInt32 delta * (r % toUInt32 weakness))
  toInt32 (toUInt32 (term1 + term2) / 128)

/-- The selection loop of `Skill::pick_best` (search.cpp:2264-2276) over the root moves
still to visit; `i` is the loop index, used to number the calls of the generator, and
the accumulator is `(maxScore, best)`. -/
def pick_best_loop (weakness topScore delta : Int) (rand : Nat → Nat) :
    List RootMove → Nat → Int × Nat → Int × Nat
  | [], _, acc => acc
  | rm :: rest, i, acc =>
    let push := pick_best_push weakness topScore rm.score delta (rand i)
    if rm.score + push ≥ acc.1 then
      pick_best_loop weakness topScore delta rand rest (i + 1) (rm.score + push, rm.pv.headD 0)
    else pick_best_loop weakness topScore delta rand rest (i + 1) acc

/-- `Skill::pick_best(multiPV)` (search.cpp:2250): the move returned, which is also
stored in the member `best`.  `rand i` is the `i`-th output of the generator and `best`
the member before the call.  Indexing `rootMoves` out of range is undefined in C++; the
embedding answers `none` there. -/
def pick_best (K : Params) (level : Int) (best : Nat) (rootMoves : List RootMove)
    (multiPV : Nat) (rand : Nat → Nat) : Option Nat :=
  if 1 ≤ multiPV ∧ multiPV ≤ rootMoves.length then
    match rootMoves[0]?, rootMoves[multiPV - 1]? with
    | some top, some last =>
      let topScore := top.score
      let delta := min (topScore - last.score) K.PawnValueMg
      let weakness := 120 - 2 * level
      some (pick_best_loop weakness topScore delta rand (rootMoves.take multiPV) 0
        (-K.VALUE_INFINITE, best)).2
    | _, _ => none
  else none

/-- A root move with first PV move `m` and score `v`. -/
def rootMoveOf (m : Nat) (v : Int) : RootMove :=
  { pv := [m], score := v, previousScore := v, selDepth := 0, tbRank := 0, tbScore := 0,
    visits := 0, zScore := 0 }

/-- What `Thread::playout` works on: the root position, the transposition table and
stack, and the moves made on the root position and not yet taken back (`do_move`
pushes, `undo_move` pops). -/
structure PlayoutState (P T : Type) where
  pos : P
  q : QState T
  made : List Nat

/-- `Thread::playout(playMove, ss, playoutValue)` (search.cpp:882-918).  `pseudo_legal`
and `undo_move` are the `Position` members of those names; `search pos ss alpha beta
depth cutNode q` stands for `::search<NonPV>(rootPos, ss, alpha, beta, depth, cutNode)`
and returns the value, the position as the search leaves it and the new table and
stack; `stop ss` is the value of `Threads.stop` when the call on frame `ss` loads it.
The C++ recursion is cut by `ss->ply < MAX_PLY - 2`; the embedding carries a recursion
budget and yields `none` when it is used up. -/
def playout {P T : Type} (X : PosOps P) (TX : TTOps T) (K : Params)
    (pseudo_legal : P → Nat → Bool) (undo_move : P → Nat → P)
    (search : P → Int → Int → Int → Int → Bool → QState T → Int × P × QState T)
    (stop : Int → Bool) (rootDepth : Int) :
    Nat → Nat → Int → Int → PlayoutState P T → Option (Int × PlayoutState P T)
  | 0, _, _, _, _ => none
  | fuel + 1, playMove, ss, playoutValue, st =>
    if stop ss || !pseudo_legal st.pos playMove || !X.legal st.pos playMove then
      some (K.VALUE_NONE, st)
    else if X.is_draw st.pos (st.q.stack ss).ply then some (K.VALUE_DRAW, st)
    else
      let frame := { (st.q.stack ss) with
        currentMove := playMove
        continuationHistory := (X.moved_piece st.pos playMove, K.to_sq playMove) }
      let stack1 := setFrame st.q.stack ss frame
      let pos1 := X.do_move st.pos playMove
      let stack2 := setFrame stack1 (ss + 1) { (stack1 (ss + 1)) with ply := (stack1 ss).ply + 1 }
      let q2 : QState T := { st.q with stack := stack2 }
      let d := Int.tdiv (rootDepth * rootDepth) (rootDepth + 4 * K.ONE_PLY) - 2
      let newDepth := d * K.ONE_PLY
      let hit0 := (TX.probe q2.tt (X.key pos1)).2
      let searched := !hit0 && decide ((X.legal_moves pos1).length ≠ 0)
      let r := search pos1 (ss + 1) (-playoutValue) (-playoutValue + 1) newDepth true q2
      let value3 := if searched then r.1 else playoutValue
      let pos3 := if searched then r.2.1 else pos1
      let q3 := if searched then r.2.2 else q2
      let tte := (TX.probe q3.tt (X.key pos3)).1
      let ttHit := (TX.probe q3.tt (X.key pos3)).2
      let ttMove := if ttHit then tte.move else K.MOVE_NONE
      let st3 : PlayoutState P T := { pos := pos3, q := q3, made := playMove :: st.made }
      let finish (v : Int) (x : PlayoutState P T) : Option (Int × PlayoutState P T) :=
        some (v, { x with pos := undo_move x.pos playMove, made := x.made.tail })
      if ttHit && decide (ttMove ≠ K.MOVE_NONE) && decide ((q3.stack ss).ply < K.MAX_PLY - 2)
          && decide (cabs value3 < K.VALUE_KNOWN_WIN) then
        match playout X TX K pseudo_legal undo_move search stop rootDepth fuel ttMove (ss + 1)
            (-value3) st3 with
        | none => none
        | some (v, st4) => finish (-v) st4
      else finish value3 st3

/-- Modelled from the spec: `RootMove::operator<` of `search.h` (not under `src/`),
which sorts root moves "by score in descending order", ties by the previous score:
`rootMove_less a b` tells that `a` sorts before `b`. -/
def rootMove_less (a b : RootMove) : Bool :=
  if b.score ≠ a.score then decide (b.score < a.score)
  else decide (b.previousScore < a.previousScore)

/-- `std::stable_sort(rootMoves.begin() + lo, rootMoves.begin() + hi)`: the elements of
`[lo, hi)` in sorted order, equal elements keeping their order, the rest untouched. -/
def stable_sort_range (l : List RootMove) (lo hi : Nat) : List RootMove :=
  l.take lo
    ++ List.insertionSort (fun a b => rootMove_less b a = false) ((l.drop lo).take (hi - lo))
    ++ l.drop hi

/-- The variables of the MultiPV loop of `Thread::search`: the root moves and the
bounds `pvFirst`, `pvLast` of the current tablebase-rank group. -/
structure PvGroup where
  rootMoves : List RootMove
  pvFirst : Nat
  pvLast : Nat

/-- `rootMoves[i].tbRank`, `none` outside the vector. -/
def tbRankAt (l : List RootMove) (i : Nat) : Option Int := (l[i]?).map (fun rm => rm.tbRank)

/-- The scan `for (pvLast++; pvLast < rootMoves.size(); pvLast++) if (rootMoves[pvLast].tbRank
!= rootMoves[pvFirst].tbRank) break;` after its `pvLast++` (search.cpp:688-690); the
first argument bounds the number of iterations. -/
def pvLast_scan (l : List RootMove) (pvFirst : Nat) : Nat → Nat → Nat
  | 0, pvLast => pvLast
  | fuel + 1, pvLast =>
    if pvLast < l.length then
      if tbRankAt l pvLast ≠ tbRankAt l pvFirst then pvLast
      else pvLast_scan l pvFirst fuel (pvLast + 1)
    else pvLast

/-- The update at the top of each pass of the MultiPV loop (search.cpp:685-691). -/
def multipv_group (s : PvGroup) (pvIdx : Nat) : PvGroup :=
  if pvIdx = s.pvLast then
    { s with pvFirst := s.pvLast
             pvLast := pvLast_scan s.rootMoves s.pvLast s.rootMoves.length (s.pvLast + 1) }
  else s

/-- The rest of one pass of the MultiPV loop (search.cpp:693-812): `n` passes of the
aspiration loop, each a root search followed by
`stable_sort(begin + pvIdx, begin + pvLast)`, then
`stable_sort(begin + pvFirst, begin + pvIdx + 1)`.  `search k l` stands for the effect
of the `k`-th root search on the root moves. -/
def multipv_pass (search : Nat → List RootMove → List RootMove) (pvIdx : Nat) :
    Nat → PvGroup → PvGroup
  | 0, s => { s with rootMoves := stable_sort_range s.rootMoves s.pvFirst (pvIdx + 1) }
  | n + 1, s =>
    multipv_pass search pvIdx n
      { s with rootMoves := stable_sort_range (search n s.rootMoves) pvIdx s.pvLast }

/-- The MultiPV loop `for (pvIdx = 0; pvIdx < multiPV && !Threads.stop; ++pvIdx)`
(search.cpp:683): the first argument is `multiPV - pvIdx`; the result lists, for each
pass entered, `pvIdx` and the variables right after the update at its top.
`passes pvIdx` is the number of aspiration passes made for that line and `stop pvIdx`
the value of `Threads.stop` at the loop test. -/
def multipv_loop (search : Nat → List RootMove → List RootMove) (passes : Nat → Nat)
    (stop : Nat → Bool) : Nat → Nat → PvGroup → List (Nat × PvGroup)
  | 0, _, _ => []
  | remaining + 1, pvIdx, s =>
    if stop pvIdx then []
    else
      let s1 := multipv_group s pvIdx
      (pvIdx, s1) ::
        multipv_loop search passes stop remaining (pvIdx + 1)
          (multipv_pass search pvIdx (passes pvIdx) s1)

/-- A root move with first PV move `m`, score `v` and tablebase rank `rank`. -/
def rankedMove (m : Nat) (v rank : Int) : RootMove :=
  { pv := [m], score := v, previousScore := v, selDepth := 0, tbRank := rank, tbScore := 0,
    visits := 0, zScore := 0 }

/-- A position that is the list of moves played so far: the moves 796 and 797 are
always legal, `do_move` prepends the move. -/
def historyGame : PosOps (List Nat) :=
  stubOps (fun _ => [796, 797]) (fun p m => m :: p) (fun _ => 0) (fun _ => false) (fun _ => [])

/-- A table that answers every probe with a hit whose move is 796. -/
def tt796 : TTOps (List TTSave) :=
  recordingTT (fun _ _ =>
    ({ value := 0, eval := 0, depth := 0, bound := 3, move := 796, is_pv := false }, true))

/-- The conversion `int(x)` of a floating-point value, truncation toward zero.  A
finite `double` is a rational number and is embedded as one. -/
def truncToInt (y : ℚ) : Int := Int.tdiv y.num y.den

/-- The double-precision operations `Search::init` applies (search.cpp:218), which
come from `<cmath>` and the C++ language and enter as parameters: the conversion of a
decimal literal, `std::log`, `std::sqrt`, and the operators `*` and `/` on `double`.
A finite `double` is a rational number and is embedded as one; the conversions of the
`int` values `i` and 1024 to `double` are exact. -/
structure DoubleOps where
  lit : ℚ → ℚ
  log : ℚ → ℚ
  sqrt : ℚ → ℚ
  mul : ℚ → ℚ → ℚ
  div : ℚ → ℚ → ℚ

/-- The table `Reductions` after `Search::init` (search.cpp:217-218):
`Reductions[i] = int(1024 * std::log(i) / std::sqrt(1.95))` for `1 ≤ i < 64`; entry 0 is
not written and keeps the zero of static storage. -/
def Reductions (F : DoubleOps) (i : Nat) : Int :=
  if 1 ≤ i ∧ i < 64
  then truncToInt (F.div (F.mul 1024 (F.log i)) (F.sqrt (F.lit (195 / 100))))
  else 0

/-- Each of the five floating-point results in `1024 * std::log(i) / std::sqrt(1.95)`
is within relative error `u` of the exact result of its operation on the operands it
is given. -/
def DoubleOps.accurateAt (F : DoubleOps) (u : ℝ) (i : Nat) : Prop :=
  |((F.lit (195 / 100) : ℚ) : ℝ) - 195 / 100| ≤ u * (195 / 100) ∧
  |((F.sqrt (F.lit (195 / 100)) : ℚ) : ℝ) - Real.sqrt ((F.lit (195 / 100) : ℚ) : ℝ)|
    ≤ u * Real.sqrt ((F.lit (195 / 100) : ℚ) : ℝ) ∧
  |((F.log i : ℚ) : ℝ) - Real.log i| ≤ u * Real.log i ∧
  |((F.mul 1024 (F.log i) : ℚ) : ℝ) - 1024 * ((F.log i : ℚ) : ℝ)|
    ≤ u * |1024 * ((F.log i : ℚ) : ℝ)| ∧
  |((F.div (F.mul 1024 (F.log i)) (F.sqrt (F.lit (195 / 100))) : ℚ) : ℝ)
      - ((F.mul 1024 (F.log i) : ℚ) : ℝ) / ((F.sqrt (F.lit (195 / 100)) : ℚ) : ℝ)|
    ≤ u * |((F.mul 1024 (F.log i) : ℚ) : ℝ) / ((F.sqrt (F.lit (195 / 100)) : ℚ) : ℝ)|

/-- A sample of the double-precision operations: literals, products and quotients are
exact, `sqrt` returns 1.3964240 (the square root of 1.95 to eight digits), and `log`
returns 1.0986123 at 3 and 0.6931472 elsewhere (the logarithms of 3 and 2 to eight
digits). -/
def sampleDouble : DoubleOps :=
  { lit := fun x => x
    log := fun x => if x = 3 then 10986123 / 10 ^ 7 else 6931472 / 10 ^ 7
    sqrt := fun _ => 13964240 / 10 ^ 7
    mul := fun x y => x * y
    div := fun x y => x / y }

/-- A stack whose frames all hold the killer moves `k0` and `k1`. -/
def killerStack (k0 k1 : Nat) : Int → Stack :=
  fun _ => { zeroFrame with killers0 := k0, killers1 := k1 }

/-- The stack after the entry statements of `qsearch` (search.cpp:1954-1964): in a PV
node `(ss+1)->pv` points at the local buffer and `ss->pv` is emptied; then
`(ss+1)->ply`, `ss->currentMove` and `ss->continuationHistory` are set. -/
def qsearch_entryStack (K : Params) (PvNode : Bool) (ss : Int) (stack : Int → Stack) :
    Int → Stack :=
  let childFrame := { (stack (ss + 1)) with pv := some [] }
  let ownFrame := { (stack ss) with pv := some [] }
  let stackA :=
    if PvNode then setFrame (setFrame stack (ss + 1) childFrame) ss ownFrame else stack
  let stackB := setFrame stackA (ss + 1) { (stackA (ss + 1)) with ply := (stackA ss).ply + 1 }
  setFrame stackB ss
    { (stackB ss) with currentMove := K.MOVE_NONE, continuationHistory := (K.NO_PIECE, 0) }

/-- The variables of `qsearch` when its moves loop starts (search.cpp:1995-2047), at a
node that got past the draw test, the TT cutoff and the stand-pat return: `bestValue`
is `-VALUE_INFINITE` in check and the stand-pat value otherwise, `alpha` is raised to
it in a PV node, and `ss->staticEval` has been written.  `q` is the state at entry. -/
def qsearch_loopStart {P T : Type} (X : PosOps P) (TX : TTOps T) (K : Params)
    (PvNode : Bool) (pos : P) (ss alpha : Int) (q : QState T) : QLoop T :=
  let inCheck := X.checkers pos
  let stackC := qsearch_entryStack K PvNode ss q.stack
  let staticEval := if inCheck then K.VALUE_NONE else qsearch_staticEval X TX K pos ss q
  let bestValue := if inCheck then -K.VALUE_INFINITE else qsearch_standPat X TX K pos ss q
  { alpha := if !inCheck && PvNode && decide (bestValue > alpha) then bestValue else alpha
    bestValue := bestValue
    bestMove := K.MOVE_NONE
    moveCount := 0
    st := { q with stack := setFrame stackC ss { (stackC ss) with staticEval := staticEval } }
    done := false }

/-- `futilityBase` of a `qsearch` node (search.cpp:1999, 2032). -/
def qsearch_futilityBase {P T : Type} (X : PosOps P) (TX : TTOps T) (K : Params) (pos : P)
    (ss : Int) (q : QState T) : Int :=
  if X.checkers pos then -K.VALUE_INFINITE else qsearch_standPat X TX K pos ss q + 128

/-- The moves the `MovePicker` of a `qsearch` node yields (search.cpp:2043-2046). -/
def qsearch_moves {P T : Type} (X : PosOps P) (TX : TTOps T) (K : Params) (pos : P)
    (ss depth : Int) (q : QState T) : List Nat :=
  let tte := (TX.probe q.tt (X.key pos)).1
  let ttHit := (TX.probe q.tt (X.key pos)).2
  X.qs_moves pos (if ttHit then tte.move else K.MOVE_NONE) depth
    (K.to_sq (q.stack (ss - 1)).currentMove)

/-- What `qsearch` does after its moves loop (search.cpp:2130-2146) with the loop
variables `l`: the Variety step, the checkmate test and the TT save.  `q` is the state
at entry and `oldAlpha` the `alpha` at entry. -/
def qsearch_finish {P T : Type} (X : PosOps P) (TX : TTOps T) (K : Params) (E : SearchEnv)
    (PvNode : Bool) (pos : P) (ss oldAlpha beta depth : Int) (q : QState T) (l : QLoop T) :
    Int × QState T :=
  let inCheck := X.checkers pos
  let ply := (q.stack ss).ply
  let tte := (TX.probe q.tt (X.key pos)).1
  let ttHit := (TX.probe q.tt (X.key pos)).2
  let v := qsearch_variety K E l.bestValue l.st.randCalls
  let st1 : QState T := { l.st with randCalls := v.2 }
  if inCheck && decide (v.1 = -K.VALUE_INFINITE) then (mated_in K ply, st1)
  else
    let rec1 : TTSave :=
      { key := X.key pos, value := value_to_tt K v.1 ply, pv := ttHit && tte.is_pv,
        bound := if v.1 ≥ beta then K.BOUND_LOWER
                 else if PvNode && decide (v.1 > oldAlpha) then K.BOUND_EXACT
                 else K.BOUND_UPPER,
        depth := qsearch_ttDepth K inCheck depth, move := l.bestMove,
        eval := (st1.stack ss).staticEval }
    (v.1, { st1 with tt := TX.save st1.tt rec1 })

-- ===== theorems =====

/-- C1 (as stated, refuted): with the upstream enumerators, storing `VALUE_MATE`
at ply 2 yields `VALUE_NONE`, which `value_from_tt` maps to `VALUE_NONE`, not back
to `VALUE_MATE`; and at a negative ply the mate boundary is crossed. -/
theorem value_tt_roundtrip_fails :
    value_to_tt upstream 32000 2 = upstream.VALUE_NONE ∧
    value_from_tt upstream (value_to_tt upstream 32000 2) 2 ≠ 32000 ∧
    value_from_tt upstream (value_to_tt upstream 31744 (-1)) (-1) ≠ 31744 := by
  decide

/-- C1 (amended): for every ply `p ≥ 0` and every value `v` whose stored form
`value_to_tt(v, p)` is not the sentinel `VALUE_NONE`,
`value_from_tt(value_to_tt(v, p), p) = v`. -/
theorem value_tt_roundtrip (K : Params)
    (v : Int) (p : Int) (hp : 0 ≤ p) (hne : value_to_tt K v p ≠ K.VALUE_NONE) :
    value_from_tt K (value_to_tt K v p) p = v := by
  unfold value_from_tt
  rw [if_neg hne]
  unfold value_to_tt
  split_ifs <;> omega

/-- Instance of the round trip at the mate value 31900, ply 3. -/
theorem value_tt_roundtrip_witness :
    (0 : Int) ≤ 3 ∧ value_to_tt upstream 31900 3 ≠ upstream.VALUE_NONE ∧
    value_from_tt upstream (value_to_tt upstream 31900 3) 3 = 31900 :=
  ⟨by decide, by decide, value_tt_roundtrip upstream 31900 3 (by decide) (by decide)⟩

/-- Truncating division agrees with floor division on non-negative operands. -/
theorem tdiv_of_nonneg (a b : Int) (ha : 0 ≤ a) (hb : 0 ≤ b) : Int.tdiv a b = a / b :=
  Int.tdiv_eq_ediv ha hb

/-- Truncating division of a non-positive dividend rounds toward zero. -/
theorem tdiv_of_nonpos (a b : Int) (ha : a ≤ 0) (hb : 0 ≤ b) :
    Int.tdiv a b = -((-a) / b) := by
  have h := Int.tdiv_eq_ediv (a := -a) (b := b) (by omega) hb
  rw [Int.neg_tdiv] at h
  omega

/-- C8: with `d = depth / ONE_PLY` (C++ division), `stat_bonus(depth)` is
`29·d² + 138·d − 134` when `d ≤ 17` and `0` when `d > 17`. -/
theorem stat_bonus_formula (K : Params) (depth : Int) :
    stat_bonus K depth
      = if Int.tdiv depth K.ONE_PLY ≤ 17
        then 29 * (Int.tdiv depth K.ONE_PLY) ^ 2 + 138 * Int.tdiv depth K.ONE_PLY - 134
        else 0 := by
  unfold stat_bonus
  by_cases h : Int.tdiv depth K.ONE_PLY > 17
  · have h2 : ¬ Int.tdiv depth K.ONE_PLY ≤ 17 := by omega
    simp only [if_pos h, if_neg h2]
  · have h2 : Int.tdiv depth K.ONE_PLY ≤ 17 := by omega
    simp only [if_neg h, if_pos h2]
    ring

/-- C9 (as stated, refuted): `UCI_Elo = 1350` gives skill level `-2`, and every
Elo up to 1435 gives a negative level. -/
theorem skillLevel_1350_negative :
    skillLevel 1350 = -2 ∧ skillLevel 1435 = -1 ∧ ¬ (0 ≤ skillLevel 1350) := by
  decide

/-- C9 (amended): for every `UCI_Elo` in `[1350, 2850]` the skill level
`(uciElo − 1500) / 65` lies in `[−2, 20]`, and it is non-negative exactly when
`UCI_Elo ≥ 1436`. -/
theorem skillLevel_range (uciElo : Int) (hlo : 1350 ≤ uciElo) (hhi : uciElo ≤ 2850) :
    -2 ≤ skillLevel uciElo ∧ skillLevel uciElo ≤ 20 ∧
    (0 ≤ skillLevel uciElo ↔ 1436 ≤ uciElo) := by
  unfold skillLevel
  by_cases h : 0 ≤ uciElo - 1500
  · rw [tdiv_of_nonneg _ _ h (by decide)]
    omega
  · rw [tdiv_of_nonpos _ _ (by omega) (by decide)]
    omega

/-- Instance of the skill-level range at `UCI_Elo = 2000` (level 7). -/
theorem skillLevel_range_witness :
    (1350 : Int) ≤ 2000 ∧ (2000 : Int) ≤ 2850 ∧
    (-2 ≤ skillLevel 2000 ∧ skillLevel 2000 ≤ 20 ∧ (0 ≤ skillLevel 2000 ↔ (1436 : Int) ≤ 2000)) :=
  ⟨by decide, by decide, skillLevel_range 2000 (by decide) (by decide)⟩

/-- C2: `update_quiet_stats` keeps the killer slots of every frame deduplicated.
From a frame whose slots are both `MOVE_NONE` (as `search` resets frame `ss+2`),
or from any frame whose slots differ unless one is `MOVE_NONE`, the frame after
`update_quiet_stats` with any move again has `killers[0] ≠ killers[1]` whenever
both are non-`MOVE_NONE`; and when the move equals `killers[0]` the stack is left
unchanged. -/
theorem update_quiet_stats_killers {P : Type} (X : PosOps P) (K : Params) (pos : P)
    (th : Thread) (stack : Int → Stack) (ss : Int) (move : Nat) (quiets : Nat → Nat)
    (quietCount : Nat) (bonus : Int) (i : Int)
    (h : ((stack i).killers0 = K.MOVE_NONE ∧ (stack i).killers1 = K.MOVE_NONE) ∨
         KillersDistinct K (stack i)) :
    KillersDistinct K
      ((update_quiet_stats X K pos th stack ss move quiets quietCount bonus).2 i) ∧
    (move = (stack ss).killers0 →
      (update_quiet_stats X K pos th stack ss move quiets quietCount bonus).2 = stack) := by
  have hinv : KillersDistinct K (stack i) := by
    rcases h with ⟨h0, _⟩ | h
    · intro hne
      exact absurd h0 hne
    · exact h
  unfold update_quiet_stats
  simp only
  by_cases hk : (stack ss).killers0 ≠ move
  · rw [if_pos hk]
    refine ⟨?_, fun hm => absurd hm.symm hk⟩
    by_cases hi : i = ss
    · subst hi
      simp only [if_true]
      intro _ _ heq
      exact hk heq.symm
    · simp only [if_neg hi]
      exact hinv
  · rw [if_neg hk]
    exact ⟨hinv, fun _ => rfl⟩

/-- Instances of killer deduplication.  A frame holding the killers 500 and 600 receives
move 796: the old first killer is shifted to the second slot and the frame holds 796
and 500.  A frame holding 796 and 500 receives move 796 again: the stack is left as it
was. -/
theorem update_quiet_stats_killers_witness :
    (((killerStack 500 600 7).killers0 = upstream.MOVE_NONE ∧
      (killerStack 500 600 7).killers1 = upstream.MOVE_NONE) ∨
      KillersDistinct upstream (killerStack 500 600 7)) ∧
    KillersDistinct upstream
      ((update_quiet_stats (quietPos 0) upstream () zeroThread (killerStack 500 600) 7 796
        (fun _ => 0) 0 33).2 7) ∧
    ((update_quiet_stats (quietPos 0) upstream () zeroThread (killerStack 500 600) 7 796
        (fun _ => 0) 0 33).2 7).killers0 = 796 ∧
    ((update_quiet_stats (quietPos 0) upstream () zeroThread (killerStack 500 600) 7 796
        (fun _ => 0) 0 33).2 7).killers1 = 500 ∧
    (796 : Nat) = (killerStack 796 500 7).killers0 ∧
    (update_quiet_stats (quietPos 0) upstream () zeroThread (killerStack 796 500) 7 796
        (fun _ => 0) 0 33).2 = killerStack 796 500 :=
  ⟨Or.inr (fun _ _ => by decide),
   (update_quiet_stats_killers (quietPos 0) upstream () zeroThread (killerStack 500 600) 7 796
      (fun _ => 0) 0 33 7 (Or.inr (fun _ _ => by decide))).1,
   by decide, by decide, rfl,
   (update_quiet_stats_killers (quietPos 0) upstream () zeroThread (killerStack 796 500) 7 796
      (fun _ => 0) 0 33 7 (Or.inr (fun _ _ => by decide))).2 rfl⟩

theorem cabs_neg (x : Int) : cabs (-x) = cabs x := by
  unfold cabs
  split_ifs <;> omega

theorem cabs_nonneg (x : Int) : 0 ≤ cabs x := by
  unfold cabs
  split_ifs <;> omega

theorem cabs_le_iff (x D : Int) : cabs x ≤ D ↔ -D ≤ x ∧ x ≤ D := by
  unfold cabs
  split_ifs <;> omega

/-- The gravity update commutes with negating entry and bonus. -/
theorem history_update_neg (K : Params) (e b : Int) :
    history_update K (-e) (-b) = -(history_update K e b) := by
  unfold history_update
  rw [cabs_neg, Int.neg_mul, Int.neg_tdiv]
  ring

/-- Gravity bound for a non-negative entry. -/
theorem history_update_bound_nonneg (K : Params) (e b : Int) (hD : 0 < K.HISTORY_MAX)
    (he0 : 0 ≤ e) (he : e ≤ K.HISTORY_MAX) (hb : cabs b ≤ K.HISTORY_MAX) :
    -K.HISTORY_MAX ≤ history_update K e b ∧ history_update K e b ≤ K.HISTORY_MAX := by
  have hc0 := cabs_nonneg b
  have hq : Int.tdiv (e * cabs b) K.HISTORY_MAX = e * cabs b / K.HISTORY_MAX :=
    Int.tdiv_eq_ediv (Int.mul_nonneg he0 hc0) (le_of_lt hD)
  have h1 : e * cabs b / K.HISTORY_MAX * K.HISTORY_MAX ≤ e * cabs b :=
    Int.ediv_mul_le _ (ne_of_gt hD)
  have h2 : e * cabs b < (e * cabs b / K.HISTORY_MAX + 1) * K.HISTORY_MAX :=
    Int.lt_ediv_add_one_mul_self _ hD
  have hq0 : 0 ≤ e * cabs b / K.HISTORY_MAX :=
    Int.ediv_nonneg (Int.mul_nonneg he0 hc0) (le_of_lt hD)
  unfold history_update
  rw [hq]
  generalize K.HISTORY_MAX = D at *
  generalize e * cabs b / D = q at *
  have hcb : cabs b = b ∨ cabs b = -b := by
    unfold cabs
    split_ifs <;> omega
  have hqc : q ≤ cabs b := by
    by_contra hcon
    have : (cabs b + 1) * D ≤ q * D := Int.mul_le_mul_of_nonneg_right (by omega) (le_of_lt hD)
    nlinarith
  rcases hcb with h | h
  · rw [h] at hqc hc0 hb h1 h2
    constructor
    · omega
    · by_contra hcon
      have h3 : (q + 1) * D ≤ (e + b - D) * D :=
        Int.mul_le_mul_of_nonneg_right (by omega) (le_of_lt hD)
      nlinarith [mul_nonneg (sub_nonneg.mpr he) (sub_nonneg.mpr hb)]
  · have hb2 : b = -cabs b := by omega
    generalize cabs b = c at *
    subst hb2
    constructor
    · by_contra hcon
      have h3 : (e - c + D + 1) * D ≤ q * D :=
        Int.mul_le_mul_of_nonneg_right (by omega) (le_of_lt hD)
      nlinarith [mul_nonneg (sub_nonneg.mpr hb) (add_nonneg (le_of_lt hD) he0)]
    · omega

/-- One gravity update keeps an entry within `[-HISTORY_MAX, HISTORY_MAX]` when
the bonus is within that range. -/
theorem history_update_bound (K : Params) (e b : Int) (hD : 0 < K.HISTORY_MAX)
    (he : cabs e ≤ K.HISTORY_MAX) (hb : cabs b ≤ K.HISTORY_MAX) :
    cabs (history_update K e b) ≤ K.HISTORY_MAX := by
  rw [cabs_le_iff] at he ⊢
  by_cases h0 : 0 ≤ e
  · exact history_update_bound_nonneg K e b hD h0 he.2 hb
  · have h := history_update_bound_nonneg K (-e) (-b) hD (by omega) (by omega)
      (by rw [cabs_neg]; exact hb)
    rw [history_update_neg] at h
    omega

/-- For a non-negative depth the bonus lies in `[-134, 10593]`. -/
theorem stat_bonus_range (K : Params) (depth : Int) (h1 : 0 < K.ONE_PLY) (hd : 0 ≤ depth) :
    -134 ≤ stat_bonus K depth ∧ stat_bonus K depth ≤ 10593 := by
  unfold stat_bonus
  have hq : Int.tdiv depth K.ONE_PLY = depth / K.ONE_PLY :=
    Int.tdiv_eq_ediv hd (le_of_lt h1)
  have hq0 : 0 ≤ depth / K.ONE_PLY := Int.ediv_nonneg hd (le_of_lt h1)
  rw [hq]
  generalize depth / K.ONE_PLY = d at *
  simp only
  split_ifs with h
  · omega
  · have hle : d ≤ 17 := by omega
    interval_cases d <;> omega

theorem signed_bonus_bound (K : Params) (depth : Int) (pen : Bool) (h1 : 0 < K.ONE_PLY)
    (hd : 0 ≤ depth) (hD : 10593 ≤ K.HISTORY_MAX) :
    cabs (signed_bonus K depth pen) ≤ K.HISTORY_MAX := by
  have h := stat_bonus_range K depth h1 hd
  rw [cabs_le_iff]
  unfold signed_bonus
  split_ifs <;> omega

theorem setAt_eq {α : Type} (t : Nat → α) (i : Nat) (v : α) : setAt t i v i = v := by
  simp [setAt]

theorem setAt_ne {α : Type} (t : Nat → α) (i j : Nat) (v : α) (h : j ≠ i) :
    setAt t i v j = t j := by
  simp [setAt, h]

theorem mainHistory_add_within (K : Params) (th : Thread) (c ft : Nat) (b : Int)
    (hD : 0 < K.HISTORY_MAX) (hb : cabs b ≤ K.HISTORY_MAX)
    (h : HistoryWithin K.HISTORY_MAX th) :
    HistoryWithin K.HISTORY_MAX (th.mainHistory_add K c ft b) := by
  refine ⟨?_, h.2.1, h.2.2⟩
  intro c2 ft2
  show cabs (setAt th.mainHistory c (setAt (th.mainHistory c) ft
    (history_update K (th.mainHistory c ft) b)) c2 ft2) ≤ K.HISTORY_MAX
  by_cases h1 : c2 = c
  · rw [h1, setAt_eq]
    by_cases h2 : ft2 = ft
    · rw [h2, setAt_eq]
      exact history_update_bound K _ _ hD (h.1 _ _) hb
    · rw [setAt_ne _ _ _ _ h2]
      exact h.1 _ _
  · rw [setAt_ne _ _ _ _ h1]
    exact h.1 _ _

theorem captureHistory_add_within (K : Params) (th : Thread) (pc sq cap : Nat) (b : Int)
    (hD : 0 < K.HISTORY_MAX) (hb : cabs b ≤ K.HISTORY_MAX)
    (h : HistoryWithin K.HISTORY_MAX th) :
    HistoryWithin K.HISTORY_MAX (th.captureHistory_add K pc sq cap b) := by
  refine ⟨h.1, ?_, h.2.2⟩
  intro pc2 sq2 cap2
  show cabs (setAt th.captureHistory pc (setAt (th.captureHistory pc) sq
    (setAt (th.captureHistory pc sq) cap
      (history_update K (th.captureHistory pc sq cap) b))) pc2 sq2 cap2) ≤ K.HISTORY_MAX
  by_cases h1 : pc2 = pc
  · subst h1
    rw [setAt_eq]
    by_cases h2 : sq2 = sq
    · subst h2
      rw [setAt_eq]
      by_cases h3 : cap2 = cap
      · subst h3
        rw [setAt_eq]
        exact history_update_bound K _ _ hD (h.2.1 _ _ _) hb
      · rw [setAt_ne _ _ _ _ h3]
        exact h.2.1 _ _ _
    · rw [setAt_ne _ _ _ _ h2]
      exact h.2.1 _ _ _
  · rw [setAt_ne _ _ _ _ h1]
    exact h.2.1 _ _ _

theorem continuationHistory_add_within (K : Params) (th : Thread) (plane : Nat × Nat)
    (pc sq : Nat) (b : Int)
    (hD : 0 < K.HISTORY_MAX) (hb : cabs b ≤ K.HISTORY_MAX)
    (h : HistoryWithin K.HISTORY_MAX th) :
    HistoryWithin K.HISTORY_MAX (th.continuationHistory_add K plane pc sq b) := by
  refine ⟨h.1, h.2.1, ?_⟩
  intro a2 b2 pc2 sq2
  show cabs (setAt th.continuationHistory plane.1
    (setAt (th.continuationHistory plane.1) plane.2
      (setAt (th.continuationHistory plane.1 plane.2) pc
        (setAt (th.continuationHistory plane.1 plane.2 pc) sq
          (history_update K (th.continuationHistory plane.1 plane.2 pc sq) b))))
    a2 b2 pc2 sq2) ≤ K.HISTORY_MAX
  by_cases h1 : a2 = plane.1
  · rw [h1, setAt_eq]
    by_cases h2 : b2 = plane.2
    · rw [h2, setAt_eq]
      by_cases h3 : pc2 = pc
      · rw [h3, setAt_eq]
        by_cases h4 : sq2 = sq
        · rw [h4, setAt_eq]
          exact history_update_bound K _ _ hD (h.2.2 _ _ _ _) hb
        · rw [setAt_ne _ _ _ _ h4]
          exact h.2.2 _ _ _ _
      · rw [setAt_ne _ _ _ _ h3]
        exact h.2.2 _ _ _ _
    · rw [setAt_ne _ _ _ _ h2]
      exact h.2.2 _ _ _ _
  · rw [setAt_ne _ _ _ _ h1]
    exact h.2.2 _ _ _ _

/-- A left fold preserves a property that every step preserves. -/
theorem foldl_preserves {α β : Type} (Q : α → Prop) (f : α → β → α)
    (hf : ∀ a b, Q a → Q (f a b)) (l : List β) : ∀ a, Q a → Q (l.foldl f a) := by
  induction l with
  | nil => intro a ha; exact ha
  | cons x xs ih => intro a ha; exact ih _ (hf a x ha)

theorem update_continuation_histories_within (K : Params) (th : Thread)
    (stack : Int → Stack) (ss : Int) (pc sq : Nat) (b : Int)
    (hD : 0 < K.HISTORY_MAX) (hb : cabs b ≤ K.HISTORY_MAX)
    (h : HistoryWithin K.HISTORY_MAX th) :
    HistoryWithin K.HISTORY_MAX (update_continuation_histories K th stack ss pc sq b) := by
  unfold update_continuation_histories
  apply foldl_preserves (HistoryWithin K.HISTORY_MAX) _ _ _ _ h
  intro t i ht
  split_ifs
  · exact continuationHistory_add_within K t _ pc sq b hD hb ht
  · exact ht

theorem update_capture_stats_within {P : Type} (X : PosOps P) (K : Params) (pos : P)
    (th : Thread) (move : Nat) (captures : Nat → Nat) (captureCount : Nat) (b : Int)
    (hD : 0 < K.HISTORY_MAX) (hb : cabs b ≤ K.HISTORY_MAX)
    (h : HistoryWithin K.HISTORY_MAX th) :
    HistoryWithin K.HISTORY_MAX
      (update_capture_stats X K pos th move captures captureCount b) := by
  unfold update_capture_stats
  simp only
  apply foldl_preserves (HistoryWithin K.HISTORY_MAX)
  · intro t i ht
    exact captureHistory_add_within K t _ _ _ _ hD (by rw [cabs_neg]; exact hb) ht
  · split_ifs
    · exact captureHistory_add_within K th _ _ _ _ hD hb h
    · exact h

theorem update_quiet_stats_within {P : Type} (X : PosOps P) (K : Params) (pos : P)
    (th : Thread) (stack : Int → Stack) (ss : Int) (move : Nat) (quiets : Nat → Nat)
    (quietCount : Nat) (b : Int)
    (hD : 0 < K.HISTORY_MAX) (hb : cabs b ≤ K.HISTORY_MAX)
    (h : HistoryWithin K.HISTORY_MAX th) :
    HistoryWithin K.HISTORY_MAX
      (update_quiet_stats X K pos th stack ss move quiets quietCount b).1 := by
  unfold update_quiet_stats
  dsimp only
  generalize (if (stack ss).killers0 ≠ move then _ else stack) = stack1
  apply foldl_preserves (HistoryWithin K.HISTORY_MAX)
  · intro t i ht
    exact update_continuation_histories_within K _ _ _ _ _ _ hD (by rw [cabs_neg]; exact hb)
      (mainHistory_add_within K t _ _ _ hD (by rw [cabs_neg]; exact hb) ht)
  · have h2 := update_continuation_histories_within K
      (th.mainHistory_add K (X.side_to_move pos) (K.from_to move) b) stack1
      ss (X.moved_piece pos move) (K.to_sq move) b hD hb
      (mainHistory_add_within K th _ _ _ hD hb h)
    split_ifs
    · exact ⟨h2.1, h2.2.1, h2.2.2⟩
    · exact h2

theorem StatUpdate_apply_within {P : Type} (X : PosOps P) (K : Params)
    (h1 : 0 < K.ONE_PLY) (hD : 10593 ≤ K.HISTORY_MAX) (u : StatUpdate P)
    (hd : 0 ≤ u.depth) (th : Thread) (h : HistoryWithin K.HISTORY_MAX th) :
    HistoryWithin K.HISTORY_MAX (u.apply X K th) := by
  have hpos : 0 < K.HISTORY_MAX := by omega
  cases u with
  | quiet pos stack ss move quiets quietCount d pen =>
    exact update_quiet_stats_within X K pos th stack ss move quiets quietCount _ hpos
      (signed_bonus_bound K d pen h1 hd hD) h
  | capture pos move captures captureCount d pen =>
    exact update_capture_stats_within X K pos th move captures captureCount _ hpos
      (signed_bonus_bound K d pen h1 hd hD) h
  | continuation stack ss pc sq d pen =>
    exact update_continuation_histories_within K th stack ss pc sq _ hpos
      (signed_bonus_bound K d pen h1 hd hD) h

theorem apply_updates_within {P : Type} (X : PosOps P) (K : Params)
    (h1 : 0 < K.ONE_PLY) (hD : 10593 ≤ K.HISTORY_MAX) (us : List (StatUpdate P)) :
    ∀ th : Thread, (∀ u ∈ us, 0 ≤ u.depth) → HistoryWithin K.HISTORY_MAX th →
      HistoryWithin K.HISTORY_MAX (apply_updates X K th us) := by
  induction us with
  | nil => intro th _ h; exact h
  | cons u rest ih =>
    intro th hd h
    exact ih (u.apply X K th) (fun v hv => hd v (List.mem_cons_of_mem u hv))
      (StatUpdate_apply_within X K h1 hD u (hd u (List.mem_cons_self u rest)) th h)

theorem zeroThread_within (D : Int) (hD : 0 ≤ D) : HistoryWithin D zeroThread := by
  refine ⟨?_, ?_, ?_⟩ <;> intros <;> simpa [zeroThread, cabs] using hD

theorem update_continuation_histories_mainHistory (K : Params) (th : Thread)
    (stack : Int → Stack) (ss : Int) (pc sq : Nat) (b : Int) :
    (update_continuation_histories K th stack ss pc sq b).mainHistory = th.mainHistory := by
  unfold update_continuation_histories
  apply foldl_preserves (fun t : Thread => t.mainHistory = th.mainHistory) _ _ _ _ rfl
  intro t i ht
  split_ifs
  · exact ht
  · exact ht

/-- With no other quiet move recorded, `update_quiet_stats` changes the main-history
entry of the rewarded move by exactly one gravity update. -/
theorem update_quiet_stats_mainHistory_entry {P : Type} (X : PosOps P) (K : Params)
    (pos : P) (th : Thread) (stack : Int → Stack) (ss : Int) (move : Nat)
    (quiets : Nat → Nat) (b : Int) :
    (update_quiet_stats X K pos th stack ss move quiets 0 b).1.mainHistory
        (X.side_to_move pos) (K.from_to move)
      = history_update K (th.mainHistory (X.side_to_move pos) (K.from_to move)) b := by
  unfold update_quiet_stats
  dsimp only
  generalize (if (stack ss).killers0 ≠ move then _ else stack) = stack1
  simp only [List.range_zero, List.foldl_nil]
  have h := update_continuation_histories_mainHistory K
    (th.mainHistory_add K (X.side_to_move pos) (K.from_to move) b) stack1 ss
    (X.moved_piece pos move) (K.to_sq move) b
  have h2 : (th.mainHistory_add K (X.side_to_move pos) (K.from_to move) b).mainHistory
      (X.side_to_move pos) (K.from_to move)
      = history_update K (th.mainHistory (X.side_to_move pos) (K.from_to move)) b := by
    show setAt th.mainHistory _ (setAt _ _ _) _ _ = _
    rw [setAt_eq, setAt_eq]
  split_ifs
  · show (update_continuation_histories K _ stack1 ss _ _ b).mainHistory _ _ = _
    rw [h, h2]
  · rw [h, h2]

/-- The smallest bonus, `stat_bonus(ONE_PLY) = 33`, moves an entry below the limit up
by at least one and never past the limit; at the limit it leaves it there. -/
theorem history_update_climbs (K : Params) (e : Int) (hD : 33 ≤ K.HISTORY_MAX)
    (he0 : 0 ≤ e) (he : e ≤ K.HISTORY_MAX) :
    history_update K e 33 ≤ K.HISTORY_MAX ∧
    (e < K.HISTORY_MAX → e < history_update K e 33) ∧
    (e = K.HISTORY_MAX → history_update K e 33 = K.HISTORY_MAX) := by
  have hpos : 0 < K.HISTORY_MAX := by omega
  have hc : cabs 33 = 33 := by decide
  have hb := history_update_bound_nonneg K e 33 hpos he0 he (by rw [hc]; exact hD)
  refine ⟨hb.2, ?_, ?_⟩
  · intro hlt
    unfold history_update
    rw [hc, Int.tdiv_eq_ediv (by omega) (le_of_lt hpos)]
    have hq : e * 33 / K.HISTORY_MAX < 33 := by
      apply Int.ediv_lt_of_lt_mul hpos
      omega
    omega
  · intro heq
    unfold history_update
    rw [hc, Int.tdiv_eq_ediv (by omega) (le_of_lt hpos), heq,
      Int.mul_ediv_cancel_left _ (ne_of_gt hpos)]
    omega

theorem stat_bonus_one_ply (K : Params) (h1 : 0 < K.ONE_PLY) : stat_bonus K K.ONE_PLY = 33 := by
  unfold stat_bonus
  rw [Int.tdiv_eq_ediv (le_of_lt h1) (le_of_lt h1), Int.ediv_self (ne_of_gt h1)]
  decide

/-- Repeating the smallest reward drives an entry up to the limit. -/
theorem repeated_reward_reaches_max {P : Type} (X : PosOps P) (K : Params) (pos : P)
    (move : Nat) (h1 : 0 < K.ONE_PLY) (hD : 33 ≤ K.HISTORY_MAX) (n : Nat) :
    ∀ th : Thread,
      0 ≤ th.mainHistory (X.side_to_move pos) (K.from_to move) →
      th.mainHistory (X.side_to_move pos) (K.from_to move) ≤ K.HISTORY_MAX →
      (apply_updates X K th
        (List.replicate n (.quiet pos zeroStack 7 move (fun _ => 0) 0 K.ONE_PLY false))).mainHistory
          (X.side_to_move pos) (K.from_to move) ≤ K.HISTORY_MAX ∧
      min (th.mainHistory (X.side_to_move pos) (K.from_to move) + n) K.HISTORY_MAX
        ≤ (apply_updates X K th
            (List.replicate n
              (.quiet pos zeroStack 7 move (fun _ => 0) 0 K.ONE_PLY false))).mainHistory
            (X.side_to_move pos) (K.from_to move) := by
  induction n with
  | zero =>
    intro th h0 hle
    simp only [List.replicate_zero, apply_updates, List.foldl_nil, Nat.cast_zero, add_zero]
    exact ⟨hle, by omega⟩
  | succ k ih =>
    intro th h0 hle
    have hstep : ((StatUpdate.quiet pos zeroStack 7 move (fun _ => 0) 0 K.ONE_PLY false).apply
        X K th).mainHistory (X.side_to_move pos) (K.from_to move)
        = history_update K (th.mainHistory (X.side_to_move pos) (K.from_to move)) 33 := by
      simp only [StatUpdate.apply, signed_bonus, Bool.false_eq_true, if_false,
        stat_bonus_one_ply K h1]
      exact update_quiet_stats_mainHistory_entry X K pos th zeroStack 7 move _ 33
    have hc := history_update_climbs K _ hD h0 hle
    have hup : th.mainHistory (X.side_to_move pos) (K.from_to move) + 1
        ≤ history_update K (th.mainHistory (X.side_to_move pos) (K.from_to move)) 33
        ∨ (th.mainHistory (X.side_to_move pos) (K.from_to move) = K.HISTORY_MAX ∧
           history_update K (th.mainHistory (X.side_to_move pos) (K.from_to move)) 33
             = K.HISTORY_MAX) := by
      rcases lt_or_eq_of_le hle with h | h
      · left
        have := hc.2.1 h
        omega
      · right
        exact ⟨h, hc.2.2 h⟩
    have hnn : 0 ≤ history_update K (th.mainHistory (X.side_to_move pos) (K.from_to move)) 33 := by
      rcases hup with h | h
      · omega
      · omega
    have hrec := ih ((StatUpdate.quiet pos zeroStack 7 move (fun _ => 0) 0 K.ONE_PLY
      false).apply X K th) (by rw [hstep]; exact hnn) (by rw [hstep]; exact hc.1)
    rw [hstep] at hrec
    simp only [List.replicate_succ, apply_updates, List.foldl_cons] at hrec ⊢
    refine ⟨hrec.1, ?_⟩
    have h2 := hrec.2
    push_cast
    rcases hup with h | h
    · omega
    · omega

/-- Whatever the limit `HISTORY_MAX ≥ 33`, rewarding one quiet move `HISTORY_MAX` times
at depth `ONE_PLY` from zeroed tables makes its main-history entry equal to
`HISTORY_MAX`: the bound of the gravity update is attained. -/
theorem history_bound_attained {P : Type} (X : PosOps P) (K : Params) (pos : P) (move : Nat)
    (h1 : 0 < K.ONE_PLY) (hD : 33 ≤ K.HISTORY_MAX) :
    (apply_updates X K zeroThread
      (List.replicate K.HISTORY_MAX.toNat
        (.quiet pos zeroStack 7 move (fun _ => 0) 0 K.ONE_PLY false))).mainHistory
        (X.side_to_move pos) (K.from_to move) = K.HISTORY_MAX := by
  have h := repeated_reward_reaches_max X K pos move h1 hD K.HISTORY_MAX.toNat zeroThread
    (by simp [zeroThread]) (by simp only [zeroThread]; omega)
  have hz : zeroThread.mainHistory (X.side_to_move pos) (K.from_to move) = 0 := rfl
  rw [hz] at h
  have hcast : ((K.HISTORY_MAX.toNat : Nat) : Int) = K.HISTORY_MAX := Int.toNat_of_nonneg (by omega)
  rw [hcast] at h
  have h2 := h.2
  have h3 := h.1
  simp only [zero_add, min_self] at h2
  omega

/-- C3 (as stated, refuted): with the history limit 10692, two rewards of the same
quiet move at depth 17 (bonus 10593 each) bring its main-history entry from 0 to
10593 and then to exactly `HISTORY_MAX`, so the strict bound fails. -/
theorem history_entry_reaches_max :
    stat_bonus upstream 17 = 10593 ∧
    (apply_updates (quietPos 0) upstream zeroThread [rewardE2E4]).mainHistory 0 796 = 10593 ∧
    (apply_updates (quietPos 0) upstream zeroThread
      [rewardE2E4, rewardE2E4]).mainHistory 0 796 = upstream.HISTORY_MAX ∧
    ¬ (cabs ((apply_updates (quietPos 0) upstream zeroThread
      [rewardE2E4, rewardE2E4]).mainHistory 0 796) < upstream.HISTORY_MAX) := by
  decide

/-- C3 (amended): starting from zeroed history tables, after any sequence of
updates issued by `update_quiet_stats`, `update_capture_stats` and
`update_continuation_histories` with bonuses `stat_bonus(d)` or `-stat_bonus(d)`,
`d ≥ 0`, every main-history, capture-history and continuation-history entry `e`
satisfies `|e| ≤ HISTORY_MAX` (the limit being at least the largest bonus, 10593). -/
theorem history_within_max {P : Type} (X : PosOps P) (K : Params)
    (h1 : 0 < K.ONE_PLY) (hD : 10593 ≤ K.HISTORY_MAX) (us : List (StatUpdate P))
    (hd : ∀ u ∈ us, 0 ≤ u.depth) :
    HistoryWithin K.HISTORY_MAX (apply_updates X K zeroThread us) :=
  apply_updates_within X K h1 hD us zeroThread hd (zeroThread_within _ (by omega))

/-- Instance of the history bound after two rewards at depth 17. -/
theorem history_within_max_witness :
    0 < upstream.ONE_PLY ∧ 10593 ≤ upstream.HISTORY_MAX ∧
    (∀ u ∈ [rewardE2E4, rewardE2E4], 0 ≤ u.depth) ∧
    HistoryWithin upstream.HISTORY_MAX
      (apply_updates (quietPos 0) upstream zeroThread [rewardE2E4, rewardE2E4]) :=
  have hd : ∀ u ∈ [rewardE2E4, rewardE2E4], 0 ≤ u.depth := by
    intro u hu
    simp only [List.mem_cons, List.mem_singleton, List.not_mem_nil, or_false, or_self] at hu
    rw [hu]
    decide
  ⟨by decide, by decide, hd,
   history_within_max (quietPos 0) upstream (by decide) (by decide)
     [rewardE2E4, rewardE2E4] hd⟩

/-- Number of sequences of `n + 1` legal moves: the sum over the legal moves of the
numbers of sequences of `n` moves from the positions they lead to. -/
theorem legal_sequences_length_succ {P : Type} (X : PosOps P) (n : Nat) (pos : P) :
    (legal_sequences X (n + 1) pos).length
      = ((X.legal_moves pos).map
          (fun m => (legal_sequences X n (X.do_move pos m)).length)).sum := by
  simp only [legal_sequences]
  induction X.legal_moves pos with
  | nil => rfl
  | cons m ms ih =>
    simp only [List.flatMap_cons, List.length_append, List.length_map, List.map_cons,
      List.sum_cons, ih]

theorem legal_sequences_length_one {P : Type} (X : PosOps P) (pos : P) :
    (legal_sequences X 1 pos).length = (X.legal_moves pos).length := by
  rw [legal_sequences_length_succ]
  simp only [legal_sequences, List.length_singleton]
  induction X.legal_moves pos with
  | nil => rfl
  | cons m ms ih => simp only [List.map_cons, List.sum_cons, List.length_cons, ih]; omega

/-- The `perft` loop adds up the per-move counts modulo `2^64`. -/
theorem perft_loop_sum (step : Option Nat → Nat → Option Nat) (c : Nat → Nat)
    (l : List Nat)
    (hstep : ∀ m ∈ l, ∀ n, step (some n) m = some ((n + c m) % 2 ^ 64)) :
    ∀ a, a < 2 ^ 64 → l.foldl step (some a) = some ((a + (l.map c).sum) % 2 ^ 64) := by
  induction l with
  | nil =>
    intro a ha
    simp only [List.foldl_nil, List.map_nil, List.sum_nil, Nat.add_zero]
    rw [Nat.mod_eq_of_lt ha]
  | cons m ms ih =>
    intro a _
    simp only [List.foldl_cons, List.map_cons, List.sum_cons]
    rw [hstep m (List.mem_cons_self m ms) a]
    rw [ih (fun x hx => hstep x (List.mem_cons_of_mem m hx)) _ (Nat.mod_lt _ (by norm_num))]
    congr 1
    rw [Nat.add_mod, Nat.mod_mod, ← Nat.add_mod]
    congr 1
    omega

/-- Below the root, at a depth of `i + 2` plies, `perft` returns the number of
move sequences of that length modulo `2^64` (bulk counting at two plies). -/
theorem perft_inner {P : Type} (X : PosOps P) (K : Params) (h1 : 0 < K.ONE_PLY) (i : Nat) :
    ∀ (fuel : Nat) (pos : P), i + 1 ≤ fuel →
      perft X K fuel false pos (((i + 2 : Nat) : Int) * K.ONE_PLY)
        = some ((legal_sequences X (i + 2) pos).length % 2 ^ 64) := by
  induction i with
  | zero =>
    intro fuel pos hf
    obtain ⟨f, rfl⟩ : ∃ f, fuel = f + 1 := ⟨fuel - 1, by omega⟩
    simp only [perft]
    rw [perft_loop_sum _ (fun m => (X.legal_moves (X.do_move pos m)).length) _ _ 0 (by norm_num)]
    · rw [legal_sequences_length_succ]
      simp only [legal_sequences_length_one, Nat.zero_add]
    · intro m _ n
      simp only [perft_move, Bool.false_and, Nat.zero_add, Nat.cast_ofNat,
        decide_True, if_true, Bool.false_eq_true, if_false, Nat.add_mod_mod]
  | succ j ih =>
    intro fuel pos hf
    obtain ⟨f, rfl⟩ : ∃ f, fuel = f + 1 := ⟨fuel - 1, by omega⟩
    simp only [perft]
    rw [perft_loop_sum _ (fun m => (legal_sequences X (j + 2) (X.do_move pos m)).length)
      _ _ 0 (by norm_num)]
    · rw [legal_sequences_length_succ X (j + 2)]
      simp only [Nat.zero_add]
    · intro m _ n
      have hne : ¬ (((j + 1 + 2 : Nat) : Int) * K.ONE_PLY = 2 * K.ONE_PLY) := by
        intro h
        have : ((j + 1 + 2 : Nat) : Int) = 2 := by
          apply Int.eq_of_mul_eq_mul_right (ne_of_gt h1) h
        omega
      have hdep : ((j + 1 + 2 : Nat) : Int) * K.ONE_PLY - K.ONE_PLY
          = ((j + 2 : Nat) : Int) * K.ONE_PLY := by
        push_cast
        ring
      simp only [perft_move, Bool.false_and, hne, decide_False, if_false, hdep,
        Bool.false_eq_true]
      rw [ih f (X.do_move pos m) (by omega)]
      simp only [Nat.add_mod_mod]

/-- At the root, for every depth of `k ≥ 1` plies, `perft<true>` returns the number
of sequences of `k` legal moves modulo `2^64`. -/
theorem perft_root_mod {P : Type} (X : PosOps P) (K : Params) (h1 : 0 < K.ONE_PLY)
    (pos : P) (k : Nat) (hk : 1 ≤ k) (fuel : Nat) (hf : k ≤ fuel) :
    perft X K fuel true pos ((k : Int) * K.ONE_PLY)
      = some ((legal_sequences X k pos).length % 2 ^ 64) := by
  obtain ⟨f, rfl⟩ : ∃ f, fuel = f + 1 := ⟨fuel - 1, by omega⟩
  simp only [perft]
  rcases Nat.lt_or_ge k 2 with hk2 | hk2
  · have hk1 : k = 1 := by omega
    subst hk1
    rw [perft_loop_sum _ (fun _ => 1) _ _ 0 (by norm_num)]
    · rw [legal_sequences_length_one]
      congr 2
      induction X.legal_moves pos with
      | nil => rfl
      | cons m ms ih =>
        simp only [List.map_cons, List.sum_cons, List.length_cons]
        omega
    · intro m _ n
      simp [perft_move]
  · rcases Nat.lt_or_ge k 3 with hk3 | hk3
    · have hk2e : k = 2 := by omega
      subst hk2e
      rw [perft_loop_sum _ (fun m => (X.legal_moves (X.do_move pos m)).length) _ _ 0
        (by norm_num)]
      · rw [legal_sequences_length_succ]
        simp only [legal_sequences_length_one, Nat.zero_add]
      · intro m _ n
        have hgt : ¬ (2 : Int) * K.ONE_PLY ≤ K.ONE_PLY := by omega
        simp only [perft_move, Nat.cast_ofNat, hgt, decide_False, Bool.and_false,
          Bool.false_eq_true, if_false, decide_True, if_true, Nat.add_mod_mod]
    · obtain ⟨j, rfl⟩ : ∃ j, k = j + 1 + 2 := ⟨k - 3, by omega⟩
      rw [perft_loop_sum _ (fun m => (legal_sequences X (j + 2) (X.do_move pos m)).length)
        _ _ 0 (by norm_num)]
      · rw [legal_sequences_length_succ X (j + 2)]
        simp only [Nat.zero_add]
      · intro m _ n
        have hne : ¬ (((j + 1 + 2 : Nat) : Int) * K.ONE_PLY = 2 * K.ONE_PLY) := by
          intro h
          have : ((j + 1 + 2 : Nat) : Int) = 2 := by
            apply Int.eq_of_mul_eq_mul_right (ne_of_gt h1) h
          omega
        have hgt : ¬ ((j + 1 + 2 : Nat) : Int) * K.ONE_PLY ≤ K.ONE_PLY := by
          intro h
          have h3 : ((j + 1 + 2 : Nat) : Int) * K.ONE_PLY
              = K.ONE_PLY + ((j + 2 : Nat) : Int) * K.ONE_PLY := by
            push_cast
            ring
          have h4 : 0 < ((j + 2 : Nat) : Int) * K.ONE_PLY :=
            Int.mul_pos (by omega) h1
          omega
        have hdep : ((j + 1 + 2 : Nat) : Int) * K.ONE_PLY - K.ONE_PLY
            = ((j + 2 : Nat) : Int) * K.ONE_PLY := by
          push_cast
          ring
        simp only [perft_move, hgt, hne, decide_False, Bool.and_false, Bool.false_eq_true,
          if_false, hdep]
        rw [perft_inner X K h1 j f (X.do_move pos m) (by omega)]
        simp only [Nat.add_mod_mod]

/-- C7: for every position and every depth of `k ≥ 1` plies, `perft<true>(pos, depth)`
returns (given recursion budget for its `k` levels) the number of sequences of
exactly `k` legal moves playable from `pos`: the root shortcut at one ply and the
bulk counting at two plies agree with the plain count, and nothing but the position
and the depth enters the result.  The count is returned as a `uint64_t`, so the
equality is for counts below `2^64`. -/
theorem perft_counts_legal_sequences {P : Type} (X : PosOps P) (K : Params)
    (h1 : 0 < K.ONE_PLY) (pos : P) (k : Nat) (hk : 1 ≤ k) (fuel : Nat) (hf : k ≤ fuel)
    (hfit : (legal_sequences X k pos).length < 2 ^ 64) :
    perft X K fuel true pos ((k : Int) * K.ONE_PLY) = some (legal_sequences X k pos).length := by
  rw [perft_root_mod X K h1 pos k hk fuel hf, Nat.mod_eq_of_lt hfit]

/-- Instance of the count on the toy game: eight sequences of three moves. -/
theorem perft_counts_legal_sequences_witness :
    0 < upstream.ONE_PLY ∧ 1 ≤ 3 ∧ 3 ≤ 3 ∧
    (legal_sequences countdownGame 3 5).length < 2 ^ 64 ∧
    (legal_sequences countdownGame 3 5).length = 8 ∧
    perft countdownGame upstream 3 true 5 (((3 : Nat) : Int) * upstream.ONE_PLY)
      = some (legal_sequences countdownGame 3 5).length :=
  ⟨by decide, by decide, by decide, by decide, by decide,
   perft_counts_legal_sequences countdownGame upstream (by decide) 5 3 (by decide) 3
     (by decide) (by decide)⟩

/-- C4 (as stated, refuted): a non-root frame at ply 1 that observes the stop flag at
its entry check with depth 4 returns `value_draw`, here `VALUE_DRAW − 1 = −1` for an
even node counter, not `VALUE_ZERO`. -/
theorem search_entry_abort_returns_value_draw :
    (search_step1_3 (quietPos 0) upstream defaultEnv false () 8 (-1) 0 4 false
      limitsNoNodes clockEarly true mainThreadDue (freshState 1 (-1) 0 false)).2.1 = true ∧
    (search_step1_3 (quietPos 0) upstream defaultEnv false () 8 (-1) 0 4 false
      limitsNoNodes clockEarly true mainThreadDue (freshState 1 (-1) 0 false)).1.returned
      = some (-1) ∧
    upstream.VALUE_ZERO = 0 := by
  decide

/-- C4 (amended): a frame that observes the stop flag after a child search returns
(Step 19) returns `VALUE_ZERO` with its whole state untouched: no TT save, no
change of `bestValue`, `bestMove` or the PV.  A non-root frame that observes it at
the entry check (Step 2) returns `value_draw(depth)`, or the static evaluation when
`ply ≥ MAX_PLY` and the side to move is not in check, also without a TT save,
without a best move and without touching any PV or root move; `bestValue` holds
its initial `−VALUE_INFINITE`. -/
theorem search_stop_abort {P T : Type} (X : PosOps P) (K : Params) (E : SearchEnv)
    (PvNode : Bool) (pos : P) (ss : Int) (alpha beta depth : Int) (isMain : Bool)
    (L : LimitsType) (clock : ClockEnv) (raised : Bool) (mt : MainThreadState)
    (s : SearchState T) (move : Nat) (value : Int) (captureOrPromotion : Bool)
    (hroot : (PvNode && decide ((s.q.stack ss).ply = 0)) = false)
    (hstop : (search_step1_3 X K E PvNode pos ss alpha beta depth isMain L clock raised
      mt s).2.1 = true) :
    search_step19 K E PvNode ss move value captureOrPromotion isMain true s
      = .ret K.VALUE_ZERO s ∧
    (search_step1_3 X K E PvNode pos ss alpha beta depth isMain L clock raised mt s).1.returned
      = some (if decide ((s.q.stack ss).ply ≥ K.MAX_PLY) && !X.checkers pos
              then X.evaluate pos else value_draw K depth s.th) ∧
    (search_step1_3 X K E PvNode pos ss alpha beta depth isMain L clock raised
      mt s).1.state.q.tt = s.q.tt ∧
    (search_step1_3 X K E PvNode pos ss alpha beta depth isMain L clock raised
      mt s).1.state.loc.bestValue = -K.VALUE_INFINITE ∧
    (search_step1_3 X K E PvNode pos ss alpha beta depth isMain L clock raised
      mt s).1.state.loc.bestMove = s.loc.bestMove ∧
    (∀ i, ((search_step1_3 X K E PvNode pos ss alpha beta depth isMain L clock raised
      mt s).1.state.q.stack i).pv = (s.q.stack i).pv) ∧
    (search_step1_3 X K E PvNode pos ss alpha beta depth isMain L clock raised
      mt s).1.state.rootMoves = s.rootMoves := by
  refine ⟨?_, ?_⟩
  · simp [search_step19]
  · have hs : ((if isMain then (check_time L clock mt).1 else mt).stop || raised) = true :=
      hstop
    simp only [search_step1_3, hroot, hs, Bool.not_false, Bool.true_or, if_true]
    refine ⟨?_, rfl, rfl, rfl, ?_, rfl⟩
    · simp only [Flow.returned]
      congr 1
      split_ifs <;> rfl
    · intro i
      simp only [Flow.state, setFrame]
      split_ifs with h
      · rw [h]
      · rfl

/-- Instance of the abort at the entry check of a non-root frame at ply 1. -/
theorem search_stop_abort_witness :
    ((false && decide (((freshState 1 (-1) 0 false).q.stack 8).ply = 0)) = false) ∧
    (search_step1_3 (quietPos 0) upstream defaultEnv false () 8 (-1) 0 4 false
      limitsNoNodes clockEarly true mainThreadDue (freshState 1 (-1) 0 false)).2.1 = true ∧
    (search_step1_3 (quietPos 0) upstream defaultEnv false () 8 (-1) 0 4 false
      limitsNoNodes clockEarly true mainThreadDue (freshState 1 (-1) 0 false)).1.state.q.tt
      = (freshState 1 (-1) 0 false).q.tt :=
  ⟨by decide, by decide,
   (search_stop_abort (quietPos 0) upstream defaultEnv false () 8 (-1) 0 4 false
      limitsNoNodes clockEarly true mainThreadDue (freshState 1 (-1) 0 false) 796 25 false
      (by decide) (by decide)).2.2.1⟩

/-- C5 (as stated, refuted): with an excluded move set and no move counted, `search`
returns `alpha` and stores nothing in the TT; and a node in check at ply 3 with no
move returns `mated_in(3) = −31997` while the TT save holds `−VALUE_MATE = −32000`. -/
theorem search_terminal_store_differs :
    (search_step20 (quietPos 0) logTT upstream defaultEnv false () 8 5 796 0 false 0
      (freshState 3 10 11 false)).1 = 10 ∧
    (search_step20 (quietPos 0) logTT upstream defaultEnv false () 8 5 796 0 false 0
      (freshState 3 10 11 false)).2.q.tt.map (fun r => r.value) = [] ∧
    (search_step20 (quietPos 0) logTT upstream defaultEnv false () 8 5 0 0 false 0
      (freshState 3 10 11 true)).1 = mated_in upstream 3 ∧
    mated_in upstream 3 = -31997 ∧
    (search_step20 (quietPos 0) logTT upstream defaultEnv false () 8 5 0 0 false 0
      (freshState 3 10 11 true)).2.q.tt.map (fun r => r.value) = [-32000] := by
  decide

/-- C5 (amended): a node that reaches the end of the moves loop with `moveCount = 0`
returns `alpha` if an excluded move is set, otherwise `mated_in(ply)` when the side
to move is in check, otherwise `VALUE_DRAW`, in a PV node capped by the tablebase
bound `maxValue`.  With an excluded move nothing is stored; otherwise the TT save
holds `value_to_tt` of the returned value at the node's ply, with the node's depth
and no move.  No history table is touched. -/
theorem search_terminal_value {P T : Type} (X : PosOps P) (TX : TTOps T) (K : Params)
    (E : SearchEnv) (PvNode : Bool) (pos : P) (ss : Int) (depth : Int)
    (excludedMove posKey : Nat) (ttPv : Bool) (pureStaticEval : Int) (s : SearchState T)
    (hmc : s.loc.moveCount = 0) :
    (search_step20 X TX K E PvNode pos ss depth excludedMove posKey ttPv pureStaticEval s).1
      = (if PvNode then
          min (if excludedMove ≠ 0 then s.loc.alpha
               else if s.loc.inCheck then mated_in K (s.q.stack ss).ply else K.VALUE_DRAW)
            s.loc.maxValue
         else (if excludedMove ≠ 0 then s.loc.alpha
               else if s.loc.inCheck then mated_in K (s.q.stack ss).ply else K.VALUE_DRAW)) ∧
    (excludedMove ≠ 0 →
      (search_step20 X TX K E PvNode pos ss depth excludedMove posKey ttPv pureStaticEval
        s).2.q.tt = s.q.tt) ∧
    (excludedMove = 0 →
      ∃ r : TTSave,
        (search_step20 X TX K E PvNode pos ss depth excludedMove posKey ttPv pureStaticEval
          s).2.q.tt = TX.save s.q.tt r ∧
        r.value = value_to_tt K
          (search_step20 X TX K E PvNode pos ss depth excludedMove posKey ttPv pureStaticEval
            s).1 (s.q.stack ss).ply ∧
        r.key = posKey ∧ r.depth = depth ∧ r.move = s.loc.bestMove ∧
        r.eval = pureStaticEval) ∧
    (search_step20 X TX K E PvNode pos ss depth excludedMove posKey ttPv pureStaticEval
      s).2.th.mainHistory = s.th.mainHistory ∧
    (search_step20 X TX K E PvNode pos ss depth excludedMove posKey ttPv pureStaticEval
      s).2.th.captureHistory = s.th.captureHistory ∧
    (search_step20 X TX K E PvNode pos ss depth excludedMove posKey ttPv pureStaticEval
      s).2.th.continuationHistory = s.th.continuationHistory := by
  have hth : ∀ v, (note_score E s.th (s.q.stack ss).ply v).mainHistory = s.th.mainHistory ∧
      (note_score E s.th (s.q.stack ss).ply v).captureHistory = s.th.captureHistory ∧
      (note_score E s.th (s.q.stack ss).ply v).continuationHistory
        = s.th.continuationHistory := by
    intro v
    unfold note_score
    split_ifs <;> exact ⟨rfl, rfl, rfl⟩
  refine ⟨?_, ?_, ?_, ?_, ?_, ?_⟩
  · simp only [search_step20, hmc, if_true]
  · intro hex
    simp only [search_step20, hex, if_false]
  · intro hex
    simp only [search_step20, hmc, hex, if_true]
    exact ⟨_, rfl, rfl, rfl, rfl, rfl, rfl⟩
  · simp only [search_step20, hmc, if_true]
    exact (hth _).1
  · simp only [search_step20, hmc, if_true]
    exact (hth _).2.1
  · simp only [search_step20, hmc, if_true]
    exact (hth _).2.2

/-- Instance of the terminal score for a node in check at ply 3 without moves. -/
theorem search_terminal_value_witness :
    (freshState 3 10 11 true).loc.moveCount = 0 ∧
    (search_step20 (quietPos 0) logTT upstream defaultEnv false () 8 5 0 0 false 0
      (freshState 3 10 11 true)).1
      = (if false then
          min (if 0 ≠ 0 then (freshState 3 10 11 true).loc.alpha
               else if (freshState 3 10 11 true).loc.inCheck
                 then mated_in upstream ((freshState 3 10 11 true).q.stack 8).ply
                 else upstream.VALUE_DRAW)
            (freshState 3 10 11 true).loc.maxValue
         else (if 0 ≠ 0 then (freshState 3 10 11 true).loc.alpha
               else if (freshState 3 10 11 true).loc.inCheck
                 then mated_in upstream ((freshState 3 10 11 true).q.stack 8).ply
                 else upstream.VALUE_DRAW)) :=
  ⟨rfl,
   (search_terminal_value (quietPos 0) logTT upstream defaultEnv false () 8 5 0 0 false 0
      (freshState 3 10 11 true) rfl).1⟩

theorem setFrame_same (stack : Int → Stack) (i : Int) (f : Stack) :
    setFrame stack i f i = f := by
  simp [setFrame]

theorem setFrame_other (stack : Int → Stack) (i j : Int) (f : Stack) (h : j ≠ i) :
    setFrame stack i f j = stack j := by
  simp [setFrame, h]

/-- C6 (as stated, refuted): in a position without legal moves and not in check whose
static evaluation is −2500, `search` called with depth 0 on a non-root PV frame
returns −2500 (the stand-pat value of `qsearch`), not `VALUE_DRAW`. -/
theorem search_depth0_stalemate_not_draw :
    (quietPos (-2500)).checkers () = false ∧
    (quietPos (-2500)).legal_moves () = [] ∧
    upstream.VALUE_DRAW = 0 ∧
    (search_head (quietPos (-2500)) logTT upstream defaultEnv 1 true () 8 (-32001) 32001 0
      zeroThread { tt := [], stack := stackAtPly 1, randCalls := 0 }).bind
        (fun f => f.returned) = some (-2500) := by
  decide

/-- With no move from the picker, not in check, no rule draw, no TT hit and
`Variety` off, `qsearch` returns the static evaluation it stands pat on. -/
theorem qsearch_no_moves {P T : Type} (X : PosOps P) (TX : TTOps T) (K : Params)
    (E : SearchEnv) (fuel : Nat) (PvNode : Bool) (pos : P) (ss : Int) (alpha beta depth : Int)
    (q : QState T)
    (hcheck : X.checkers pos = false)
    (hmoves : ∀ ttMove d sq, X.qs_moves pos ttMove d sq = [])
    (hdraw : X.is_draw pos (q.stack ss).ply = false)
    (hply : (q.stack ss).ply < K.MAX_PLY)
    (hmiss : (TX.probe q.tt (X.key pos)).2 = false)
    (hvar : E.variety = 0) :
    (qsearch X TX K E (fuel + 1) PvNode pos ss alpha beta depth q).map (fun r => r.1)
      = some (if (q.stack (ss - 1)).currentMove ≠ K.MOVE_NULL then X.evaluate pos
              else -(q.stack (ss - 1)).staticEval + 2 * K.Tempo) := by
  have hne1 : ss - 1 ≠ ss := by omega
  have hne2 : ss - 1 ≠ ss + 1 := by omega
  have hne3 : ss ≠ ss + 1 := by omega
  have hply2 : ¬ (q.stack ss).ply ≥ K.MAX_PLY := by omega
  cases PvNode <;>
    simp only [qsearch, hcheck, hmoves, hdraw, hmiss, hvar, hply2, qsearch_loop,
      setFrame_same, setFrame_other _ _ _ _ hne1, setFrame_other _ _ _ _ hne2,
      setFrame_other _ _ _ _ hne3, Bool.false_eq_true, if_false, if_true, decide_False,
      Bool.or_false, Bool.false_and, Bool.and_false, Bool.not_false, Bool.true_and,
      Bool.false_or, Bool.not_true, ne_eq, not_true_eq_false, decide_True, decide_eq_true_eq,
      Bool.and_true, Bool.decide_eq_true] <;>
    split_ifs <;> simp

/-- C6 (amended): for a position in which the side to move is not in check and the
quiescence move picker yields no move (as in the stalemate of the witness FEN), that
is not drawn by rule and has no upcoming repetition, at `ply < MAX_PLY`, with no TT
hit and `Variety` off, `search` called with a depth below `ONE_PLY` runs `qsearch`
and returns the static evaluation of the position (`evaluate(pos)`, or
`−(ss−1)->staticEval + 2·Tempo` directly after a null move); it is `VALUE_DRAW`
only when that evaluation is. -/
theorem search_depth0_no_moves {P T : Type} (X : PosOps P) (TX : TTOps T) (K : Params)
    (E : SearchEnv) (fuel : Nat) (PvNode : Bool) (pos : P) (ss : Int) (alpha beta depth : Int)
    (th : Thread) (q : QState T)
    (hdepth : depth < K.ONE_PLY)
    (hcheck : X.checkers pos = false)
    (hmoves : ∀ ttMove d sq, X.qs_moves pos ttMove d sq = [])
    (hcycle : X.has_game_cycle pos (q.stack ss).ply = false)
    (hdraw : X.is_draw pos (q.stack ss).ply = false)
    (hply : (q.stack ss).ply < K.MAX_PLY)
    (hmiss : (TX.probe q.tt (X.key pos)).2 = false)
    (hvar : E.variety = 0) :
    (search_head X TX K E (fuel + 1) PvNode pos ss alpha beta depth th q).bind
        (fun f => f.returned)
      = some (if (q.stack (ss - 1)).currentMove ≠ K.MOVE_NULL then X.evaluate pos
              else -(q.stack (ss - 1)).staticEval + 2 * K.Tempo) := by
  have hq := qsearch_no_moves X TX K E fuel PvNode pos ss alpha beta K.DEPTH_ZERO q hcheck
    hmoves hdraw hply hmiss hvar
  simp only [search_head, hcycle, Bool.and_false, Bool.false_eq_true, if_false, hdepth,
    if_true, Bool.false_and]
  cases hres : qsearch X TX K E (fuel + 1) PvNode pos ss alpha beta K.DEPTH_ZERO q with
  | none =>
    rw [hres] at hq
    simp at hq
  | some r =>
    rw [hres] at hq
    simp only [Option.map_some'] at hq
    simp only [Option.bind, Flow.returned]
    exact hq

/-- Instance of the depth-0 search on a stalemate with static evaluation −2500. -/
theorem search_depth0_no_moves_witness :
    (0 : Int) < upstream.ONE_PLY ∧
    (quietPos (-2500)).checkers () = false ∧
    (search_head (quietPos (-2500)) logTT upstream defaultEnv (0 + 1) true () 8 (-32001) 32001 0
      zeroThread { tt := [], stack := stackAtPly 1, randCalls := 0 }).bind
        (fun f => f.returned)
      = some (if ((stackAtPly 1) (8 - 1)).currentMove ≠ upstream.MOVE_NULL
              then (quietPos (-2500)).evaluate ()
              else -((stackAtPly 1) (8 - 1)).staticEval + 2 * upstream.Tempo) :=
  ⟨by decide, by decide,
   search_depth0_no_moves (quietPos (-2500)) logTT upstream defaultEnv 0 true () 8 (-32001)
     32001 0 zeroThread { tt := [], stack := stackAtPly 1, randCalls := 0 }
     (by decide) (by decide) (fun _ _ _ => rfl) (by decide) (by decide) (by decide)
     (by decide) (by decide)⟩

/-- C14: for every ply `p ≥ 0` and every value `v` with
`mated_in(p) ≤ v ≤ mate_in(p)`, `value_to_tt(v, p)` differs from `VALUE_NONE` (the
sentinel lying above `VALUE_MATE`) and `value_from_tt(value_to_tt(v, p), p) = v`;
values strictly between `VALUE_MATED_IN_MAX_PLY` and `VALUE_MATE_IN_MAX_PLY` are
stored unchanged. -/
theorem value_tt_roundtrip_in_range (K : Params) (hnone : K.VALUE_MATE < K.VALUE_NONE)
    (p v : Int) (hp : 0 ≤ p) (hlo : mated_in K p ≤ v) (hhi : v ≤ mate_in K p) :
    -K.VALUE_MATE ≤ value_to_tt K v p ∧
    value_to_tt K v p ≠ K.VALUE_NONE ∧
    value_from_tt K (value_to_tt K v p) p = v ∧
    (K.VALUE_MATED_IN_MAX_PLY < v → v < K.VALUE_MATE_IN_MAX_PLY → value_to_tt K v p = v) := by
  unfold mated_in at hlo
  unfold mate_in at hhi
  have hne : value_to_tt K v p ≠ K.VALUE_NONE := by
    unfold value_to_tt
    split_ifs <;> omega
  refine ⟨?_, hne, ?_, ?_⟩
  · unfold value_to_tt
    split_ifs <;> omega
  · unfold value_from_tt
    rw [if_neg hne]
    unfold value_to_tt
    split_ifs <;> omega
  · intro h1 h2
    unfold value_to_tt
    split_ifs <;> omega

/-- Instance of C14 at the mated score of ply 5 and at a quiet score. -/
theorem value_tt_roundtrip_in_range_witness :
    upstream.VALUE_MATE < upstream.VALUE_NONE ∧ (0 : Int) ≤ 5 ∧
    mated_in upstream 5 ≤ -31995 ∧ -31995 ≤ mate_in upstream 5 ∧
    value_to_tt upstream (-31995) 5 = -32000 ∧
    value_from_tt upstream (value_to_tt upstream (-31995) 5) 5 = -31995 :=
  ⟨by decide, by decide, by decide, by decide, by decide,
   (value_tt_roundtrip_in_range upstream (by decide) 5 (-31995) (by decide) (by decide)
      (by decide)).2.2.1⟩

/-- In the default configuration a pass that is not stopped and fails low halves
the window from above, lowers `alpha` below the result and grows `delta`. -/
theorem aspiration_round_low (S : ShashinParams) (K : Params) (E : SearchEnv) (ct : Int)
    (usWhite isMain : Bool) (r : RootSearchResult) (s : AspirationState)
    (hlpm : E.lessPruningMode = 0) (hstop : r.stop = false) (hlow : r.bestValue ≤ s.alpha) :
    ∃ s1, aspiration_round S K E ct usWhite isMain r s = .next s1 ∧
      s1.alpha = max (r.bestValue - s.delta) (-K.VALUE_INFINITE) ∧
      s1.beta = Int.tdiv (s.alpha + s.beta) 2 ∧
      s1.delta = s.delta + (Int.tdiv s.delta 4 + 5) := by
  cases hr : aspiration_round S K E ct usWhite isMain r s with
  | ret v s1 =>
    simp [aspiration_round, hstop, hlow] at hr
  | brk s1 =>
    simp [aspiration_round, hstop, hlow] at hr
  | next s1 =>
    simp only [aspiration_round, hstop, Bool.false_eq_true, if_false, hlow, decide_True,
      Bool.true_or, if_true, Flow.next.injEq] at hr
    subst hr
    refine ⟨_, rfl, ?_, ?_, ?_⟩ <;> simp [aspiration_grow, hlpm]

/-- In the default configuration a pass that is not stopped and fails high (and not
low) raises `beta` above the result, keeps `alpha` and grows `delta`. -/
theorem aspiration_round_high (S : ShashinParams) (K : Params) (E : SearchEnv) (ct : Int)
    (usWhite isMain : Bool) (r : RootSearchResult) (s : AspirationState)
    (hlpm : E.lessPruningMode = 0) (hperc : E.perceptronSearch = false)
    (hstop : r.stop = false) (hnlow : ¬ r.bestValue ≤ s.alpha) (hhigh : r.bestValue ≥ s.beta) :
    ∃ s1, aspiration_round S K E ct usWhite isMain r s = .next s1 ∧
      s1.alpha = s.alpha ∧
      s1.beta = min (r.bestValue + s.delta) K.VALUE_INFINITE ∧
      s1.delta = s.delta + (Int.tdiv s.delta 4 + 5) := by
  cases hr : aspiration_round S K E ct usWhite isMain r s with
  | ret v s1 =>
    simp [aspiration_round, hstop, hnlow, hperc, hhigh] at hr
  | brk s1 =>
    simp [aspiration_round, hstop, hnlow, hperc, hhigh] at hr
  | next s1 =>
    simp only [aspiration_round, hstop, Bool.false_eq_true, if_false, hnlow, decide_False,
      hperc, Bool.and_false, Bool.false_and, Bool.or_false, hhigh, if_true,
      Flow.next.injEq] at hr
    subst hr
    refine ⟨_, rfl, ?_, ?_, ?_⟩ <;> simp [aspiration_grow, hlpm]

/-- Without the playout test, a pass whose result is strictly inside the window, or
that sees the stop flag, leaves the loop. -/
theorem aspiration_round_exit (S : ShashinParams) (K : Params) (E : SearchEnv) (ct : Int)
    (usWhite isMain : Bool) (r : RootSearchResult) (s : AspirationState)
    (hperc : E.perceptronSearch = false)
    (h : r.stop = true ∨ (s.alpha < r.bestValue ∧ r.bestValue < s.beta)) :
    aspiration_round S K E ct usWhite isMain r s
      = .brk { s with shashin := updateShashinValues S K r.bestValue ct usWhite r.bestValue } := by
  rcases h with h | ⟨h1, h2⟩
  · simp only [aspiration_round, h, if_true]
  · have hnlow : ¬ r.bestValue ≤ s.alpha := by omega
    have hnhigh : ¬ r.bestValue ≥ s.beta := by omega
    cases hs : r.stop
    · simp only [aspiration_round, hs, Bool.false_eq_true, if_false, hnlow,
        decide_False, hperc, Bool.and_false, Bool.false_and, Bool.or_false, hnhigh]
    · simp only [aspiration_round, hs, if_true]

/-- The truncated midpoint of `a < b` lies between them. -/
theorem tdiv_two_between (a b : Int) (h : a < b) :
    a ≤ Int.tdiv (a + b) 2 ∧ Int.tdiv (a + b) 2 ≤ b := by
  by_cases h0 : 0 ≤ a + b
  · rw [tdiv_of_nonneg _ _ h0 (by decide)]
    omega
  · rw [tdiv_of_nonpos _ _ (by omega) (by decide)]
    omega

/-- In the default configuration every pass either leaves the loop or changes the
window by the fail-low or the fail-high rule, growing `delta`. -/
theorem aspiration_round_cases (S : ShashinParams) (K : Params) (E : SearchEnv) (ct : Int)
    (usWhite isMain : Bool) (r : RootSearchResult) (s : AspirationState)
    (hlpm : E.lessPruningMode = 0) (hperc : E.perceptronSearch = false) :
    ((r.stop = true ∨ (s.alpha < r.bestValue ∧ r.bestValue < s.beta)) ∧
      ∃ s1, aspiration_round S K E ct usWhite isMain r s = .brk s1) ∨
    (∃ s1, aspiration_round S K E ct usWhite isMain r s = .next s1 ∧
      s1.delta = s.delta + (Int.tdiv s.delta 4 + 5) ∧
      ((r.bestValue ≤ s.alpha ∧ s1.alpha = max (r.bestValue - s.delta) (-K.VALUE_INFINITE) ∧
          s1.beta = Int.tdiv (s.alpha + s.beta) 2) ∨
       (¬ r.bestValue ≤ s.alpha ∧ r.bestValue ≥ s.beta ∧ s1.alpha = s.alpha ∧
          s1.beta = min (r.bestValue + s.delta) K.VALUE_INFINITE))) := by
  cases hs : r.stop
  · by_cases hlow : r.bestValue ≤ s.alpha
    · right
      obtain ⟨s1, h1, h2, h3, h4⟩ := aspiration_round_low S K E ct usWhite isMain r s hlpm hs hlow
      exact ⟨s1, h1, h4, Or.inl ⟨hlow, h2, h3⟩⟩
    · by_cases hhigh : r.bestValue ≥ s.beta
      · right
        obtain ⟨s1, h1, h2, h3, h4⟩ :=
          aspiration_round_high S K E ct usWhite isMain r s hlpm hperc hs hlow hhigh
        exact ⟨s1, h1, h4, Or.inr ⟨hlow, hhigh, h2, h3⟩⟩
      · left
        have hin : s.alpha < r.bestValue ∧ r.bestValue < s.beta := by omega
        exact ⟨Or.inr hin, _, aspiration_round_exit S K E ct usWhite isMain r s hperc (Or.inr hin)⟩
  · left
    exact ⟨Or.inl rfl, _, aspiration_round_exit S K E ct usWhite isMain r s hperc (Or.inl hs)⟩

/-- C19: in the default configuration (Less Pruning Mode 0, NN Perceptron Search
off), for every window with `−VALUE_INFINITE ≤ alpha < beta ≤ VALUE_INFINITE`, every
`delta ≥ 1` and every result with `|bestValue| < VALUE_INFINITE`, the fail-low
update (`beta' = (alpha+beta)/2` truncating, `alpha' = max(bestValue − delta,
−VALUE_INFINITE)`) and the fail-high update (`beta' = min(bestValue + delta,
VALUE_INFINITE)`) of a pass that is not stopped give a window that again satisfies
`−VALUE_INFINITE ≤ alpha' < beta' ≤ VALUE_INFINITE`. -/
theorem aspiration_update_keeps_window (S : ShashinParams) (K : Params) (E : SearchEnv)
    (ct : Int) (usWhite isMain : Bool) (r : RootSearchResult) (s : AspirationState)
    (hlpm : E.lessPruningMode = 0) (hperc : E.perceptronSearch = false)
    (hstop : r.stop = false) (hw : window_ok K s.alpha s.beta) (hdelta : 1 ≤ s.delta)
    (hbv : cabs r.bestValue < K.VALUE_INFINITE) :
    (r.bestValue ≤ s.alpha →
      ∃ s1, aspiration_round S K E ct usWhite isMain r s = .next s1 ∧
        s1.beta = Int.tdiv (s.alpha + s.beta) 2 ∧
        s1.alpha = max (r.bestValue - s.delta) (-K.VALUE_INFINITE) ∧
        window_ok K s1.alpha s1.beta) ∧
    (r.bestValue ≥ s.beta →
      ∃ s1, aspiration_round S K E ct usWhite isMain r s = .next s1 ∧
        s1.alpha = s.alpha ∧
        s1.beta = min (r.bestValue + s.delta) K.VALUE_INFINITE ∧
        window_ok K s1.alpha s1.beta) := by
  obtain ⟨hw1, hw2, hw3⟩ := hw
  have hb := (cabs_le_iff r.bestValue (K.VALUE_INFINITE - 1)).mp (by omega)
  have hmid := tdiv_two_between s.alpha s.beta hw2
  constructor
  · intro hlow
    obtain ⟨s1, h1, h2, h3, _⟩ := aspiration_round_low S K E ct usWhite isMain r s hlpm hstop hlow
    refine ⟨s1, h1, h3, h2, ?_⟩
    rw [h2, h3]
    refine ⟨le_max_right _ _, ?_, by omega⟩
    apply max_lt <;> omega
  · intro hhigh
    have hnlow : ¬ r.bestValue ≤ s.alpha := by omega
    obtain ⟨s1, h1, h2, h3, _⟩ :=
      aspiration_round_high S K E ct usWhite isMain r s hlpm hperc hstop hnlow hhigh
    refine ⟨s1, h1, h2, h3, ?_⟩
    rw [h2, h3]
    refine ⟨hw1, ?_, min_le_right _ _⟩
    apply lt_min <;> omega

/-- Instance of C19: the window `[30, 70]` with `delta = 20` after a fail high at 100. -/
theorem aspiration_update_keeps_window_witness :
    defaultEnv.lessPruningMode = 0 ∧ defaultEnv.perceptronSearch = false ∧
    window_ok upstream 30 70 ∧ cabs 100 < upstream.VALUE_INFINITE ∧
    (∃ s1, aspiration_round shashinSample upstream defaultEnv 0 true true
        { bestValue := 100, stop := false, zScore := 0, visits := 1 }
        { alpha := 30, beta := 70, delta := 20, delta1 := 0, delta2 := 0, failedHighCnt := 0,
          stopOnPonderhit := false, shashin := shashinIdle } = .next s1 ∧
      s1.alpha = 30 ∧ s1.beta = min (100 + 20) upstream.VALUE_INFINITE ∧
      window_ok upstream s1.alpha s1.beta) :=
  ⟨rfl, rfl, by unfold window_ok; decide, by decide,
   (aspiration_update_keeps_window shashinSample upstream defaultEnv 0 true true
      { bestValue := 100, stop := false, zScore := 0, visits := 1 }
      { alpha := 30, beta := 70, delta := 20, delta1 := 0, delta2 := 0, failedHighCnt := 0,
        stopOnPonderhit := false, shashin := shashinIdle }
      rfl rfl rfl (by unfold window_ok; decide) (by decide) (by decide)).2 (by decide)⟩

/-- One pass of the loop that leaves it. -/
theorem aspiration_loop_brk (S : ShashinParams) (K : Params) (E : SearchEnv) (ct : Int)
    (usWhite isMain : Bool) (rootDepth : Int) (results : Nat → RootSearchResult)
    (fuel k : Nat) (s s1 : AspirationState) (calls : List RootSearchCall)
    (h : aspiration_round S K E ct usWhite isMain (results k) s = .brk s1) :
    aspiration_loop S K E ct usWhite isMain rootDepth results (fuel + 1) k s calls
      = some (s1, calls ++ [(⟨s.alpha, s.beta,
          max K.ONE_PLY (rootDepth - s.failedHighCnt * K.ONE_PLY)⟩ : RootSearchCall)]) := by
  simp only [aspiration_loop, h]

/-- One pass of the loop that goes on to a re-search. -/
theorem aspiration_loop_next (S : ShashinParams) (K : Params) (E : SearchEnv) (ct : Int)
    (usWhite isMain : Bool) (rootDepth : Int) (results : Nat → RootSearchResult)
    (fuel k : Nat) (s s1 : AspirationState) (calls : List RootSearchCall)
    (h : aspiration_round S K E ct usWhite isMain (results k) s = .next s1) :
    aspiration_loop S K E ct usWhite isMain rootDepth results (fuel + 1) k s calls
      = aspiration_loop S K E ct usWhite isMain rootDepth results fuel (k + 1) s1
          (calls ++ [(⟨s.alpha, s.beta,
            max K.ONE_PLY (rootDepth - s.failedHighCnt * K.ONE_PLY)⟩ : RootSearchCall)]) := by
  simp only [aspiration_loop, h]

/-- With the full window the next pass leaves the loop. -/
theorem aspiration_exit_full_window (S : ShashinParams) (K : Params) (E : SearchEnv)
    (ct : Int) (usWhite isMain : Bool) (rootDepth : Int) (results : Nat → RootSearchResult)
    (hperc : E.perceptronSearch = false)
    (hres : ∀ k, cabs (results k).bestValue < K.VALUE_INFINITE)
    (f k : Nat) (s : AspirationState) (calls : List RootSearchCall)
    (ha : s.alpha = -K.VALUE_INFINITE) (hb : s.beta = K.VALUE_INFINITE) :
    ∃ res, aspiration_loop S K E ct usWhite isMain rootDepth results (f + 1) k s calls
      = some res := by
  have hr := (cabs_le_iff (results k).bestValue (K.VALUE_INFINITE - 1)).mp
    (by have := hres k; omega)
  have hx := aspiration_round_exit S K E ct usWhite isMain (results k) s hperc
    (Or.inr ⟨by omega, by omega⟩)
  exact ⟨_, aspiration_loop_brk S K E ct usWhite isMain rootDepth results f k s _ calls hx⟩

/-- With `alpha` at `−VALUE_INFINITE` and `delta` above `2·VALUE_INFINITE`, at most
two more passes are made. -/
theorem aspiration_exit_alpha_open (S : ShashinParams) (K : Params) (E : SearchEnv)
    (ct : Int) (usWhite isMain : Bool) (rootDepth : Int) (results : Nat → RootSearchResult)
    (hlpm : E.lessPruningMode = 0) (hperc : E.perceptronSearch = false)
    (hres : ∀ k, cabs (results k).bestValue < K.VALUE_INFINITE)
    (f k : Nat) (s : AspirationState) (calls : List RootSearchCall)
    (ha : s.alpha = -K.VALUE_INFINITE) (hbig : 2 * K.VALUE_INFINITE < s.delta) :
    ∃ res, aspiration_loop S K E ct usWhite isMain rootDepth results (f + 2) k s calls
      = some res := by
  have hr := (cabs_le_iff (results k).bestValue (K.VALUE_INFINITE - 1)).mp
    (by have := hres k; omega)
  rcases aspiration_round_cases S K E ct usWhite isMain (results k) s hlpm hperc with
    ⟨_, s1, h1⟩ | ⟨s1, h1, _, hcase⟩
  · exact ⟨_, aspiration_loop_brk S K E ct usWhite isMain rootDepth results (f + 1) k s _ calls h1⟩
  · rw [aspiration_loop_next S K E ct usWhite isMain rootDepth results (f + 1) k s s1 calls h1]
    rcases hcase with ⟨hlow, _, _⟩ | ⟨_, _, h2, h3⟩
    · omega
    · apply aspiration_exit_full_window S K E ct usWhite isMain rootDepth results hperc hres
      · rw [h2, ha]
      · rw [h3]
        apply min_eq_right
        omega

/-- With `beta` at `VALUE_INFINITE` and `delta` above `2·VALUE_INFINITE`, at most three
more passes are made. -/
theorem aspiration_exit_beta_open (S : ShashinParams) (K : Params) (E : SearchEnv)
    (ct : Int) (usWhite isMain : Bool) (rootDepth : Int) (results : Nat → RootSearchResult)
    (hlpm : E.lessPruningMode = 0) (hperc : E.perceptronSearch = false)
    (hres : ∀ k, cabs (results k).bestValue < K.VALUE_INFINITE)
    (f k : Nat) (s : AspirationState) (calls : List RootSearchCall)
    (hb : s.beta = K.VALUE_INFINITE) (hbig : 2 * K.VALUE_INFINITE < s.delta) :
    ∃ res, aspiration_loop S K E ct usWhite isMain rootDepth results (f + 3) k s calls
      = some res := by
  have hr := (cabs_le_iff (results k).bestValue (K.VALUE_INFINITE - 1)).mp
    (by have := hres k; omega)
  have hpos : 0 < K.VALUE_INFINITE := by
    have := hres 0
    have := cabs_nonneg (results 0).bestValue
    omega
  rcases aspiration_round_cases S K E ct usWhite isMain (results k) s hlpm hperc with
    ⟨_, s1, h1⟩ | ⟨s1, h1, hd, hcase⟩
  · exact ⟨_, aspiration_loop_brk S K E ct usWhite isMain rootDepth results (f + 2) k s _ calls h1⟩
  · rw [aspiration_loop_next S K E ct usWhite isMain rootDepth results (f + 2) k s s1 calls h1]
    have hq : 0 ≤ Int.tdiv s.delta 4 := by
      rw [tdiv_of_nonneg _ _ (by omega) (by decide)]
      omega
    rcases hcase with ⟨_, h2, _⟩ | ⟨_, hhigh, _, _⟩
    · apply aspiration_exit_alpha_open S K E ct usWhite isMain rootDepth results hlpm hperc hres
      · rw [h2]
        apply max_eq_right
        omega
      · omega
    · omega

/-- Once `delta` exceeds `2·VALUE_INFINITE`, at most four more passes are made. -/
theorem aspiration_exit_big_delta (S : ShashinParams) (K : Params) (E : SearchEnv)
    (ct : Int) (usWhite isMain : Bool) (rootDepth : Int) (results : Nat → RootSearchResult)
    (hlpm : E.lessPruningMode = 0) (hperc : E.perceptronSearch = false)
    (hres : ∀ k, cabs (results k).bestValue < K.VALUE_INFINITE)
    (f k : Nat) (s : AspirationState) (calls : List RootSearchCall)
    (hbig : 2 * K.VALUE_INFINITE < s.delta) :
    ∃ res, aspiration_loop S K E ct usWhite isMain rootDepth results (f + 4) k s calls
      = some res := by
  have hr := (cabs_le_iff (results k).bestValue (K.VALUE_INFINITE - 1)).mp
    (by have := hres k; omega)
  have hpos : 0 < K.VALUE_INFINITE := by
    have := hres 0
    have := cabs_nonneg (results 0).bestValue
    omega
  have hq : 0 ≤ Int.tdiv s.delta 4 := by
    rw [tdiv_of_nonneg _ _ (by omega) (by decide)]
    omega
  rcases aspiration_round_cases S K E ct usWhite isMain (results k) s hlpm hperc with
    ⟨_, s1, h1⟩ | ⟨s1, h1, hd, hcase⟩
  · exact ⟨_, aspiration_loop_brk S K E ct usWhite isMain rootDepth results (f + 3) k s _ calls h1⟩
  · rw [aspiration_loop_next S K E ct usWhite isMain rootDepth results (f + 3) k s s1 calls h1]
    rcases hcase with ⟨_, h2, _⟩ | ⟨_, _, _, h3⟩
    · apply aspiration_exit_alpha_open S K E ct usWhite isMain rootDepth results hlpm hperc hres
        (f + 1)
      · rw [h2]
        apply max_eq_right
        omega
      · omega
    · apply aspiration_exit_beta_open S K E ct usWhite isMain rootDepth results hlpm hperc hres
      · rw [h3]
        apply min_eq_right
        omega
      · omega

/-- Every failed pass adds at least 5 to `delta`, so a budget of `n + 4` passes is
enough when `delta + 5·n` exceeds `2·VALUE_INFINITE`. -/
theorem aspiration_exit_within (S : ShashinParams) (K : Params) (E : SearchEnv)
    (ct : Int) (usWhite isMain : Bool) (rootDepth : Int) (results : Nat → RootSearchResult)
    (hlpm : E.lessPruningMode = 0) (hperc : E.perceptronSearch = false)
    (hres : ∀ k, cabs (results k).bestValue < K.VALUE_INFINITE) (n : Nat) :
    ∀ (k : Nat) (s : AspirationState) (calls : List RootSearchCall),
      0 ≤ s.delta → 2 * K.VALUE_INFINITE < s.delta + 5 * n →
      ∃ res, aspiration_loop S K E ct usWhite isMain rootDepth results (n + 4) k s calls
        = some res := by
  induction n with
  | zero =>
    intro k s calls _ hbig
    have h := aspiration_exit_big_delta S K E ct usWhite isMain rootDepth results hlpm hperc
      hres 0 k s calls (by simpa using hbig)
    simpa using h
  | succ m ih =>
    intro k s calls h0 hbig
    have hq : 0 ≤ Int.tdiv s.delta 4 := by
      rw [tdiv_of_nonneg _ _ h0 (by decide)]
      omega
    rcases aspiration_round_cases S K E ct usWhite isMain (results k) s hlpm hperc with
      ⟨_, s1, h1⟩ | ⟨s1, h1, hd, _⟩
    · exact ⟨_, aspiration_loop_brk S K E ct usWhite isMain rootDepth results (m + 4) k s _
        calls h1⟩
    · have e : m + 1 + 4 = (m + 4) + 1 := by omega
      rw [e, aspiration_loop_next S K E ct usWhite isMain rootDepth results (m + 4) k s s1
        calls h1]
      apply ih
      · omega
      · push_cast at hbig
        omega

/-- When the loop returns, its last `search<PV>` call was made with a window that
strictly contains the value returned, unless the stop flag was raised. -/
theorem aspiration_loop_exit (S : ShashinParams) (K : Params) (E : SearchEnv)
    (ct : Int) (usWhite isMain : Bool) (rootDepth : Int) (results : Nat → RootSearchResult)
    (hlpm : E.lessPruningMode = 0) (hperc : E.perceptronSearch = false) (fuel : Nat) :
    ∀ (k : Nat) (s : AspirationState) (calls : List RootSearchCall)
      (res : AspirationState × List RootSearchCall),
      aspiration_loop S K E ct usWhite isMain rootDepth results fuel k s calls = some res →
      ∃ mid c, res.2 = calls ++ (mid ++ [c]) ∧
        ((results (k + mid.length)).stop = true ∨
          (c.alpha < (results (k + mid.length)).bestValue ∧
            (results (k + mid.length)).bestValue < c.beta)) := by
  induction fuel with
  | zero =>
    intro k s calls res h
    simp [aspiration_loop] at h
  | succ f ih =>
    intro k s calls res h
    rcases aspiration_round_cases S K E ct usWhite isMain (results k) s hlpm hperc with
      ⟨hin, s1, h1⟩ | ⟨s1, h1, _, _⟩
    · rw [aspiration_loop_brk S K E ct usWhite isMain rootDepth results f k s s1 calls h1] at h
      refine ⟨[], ⟨s.alpha, s.beta, max K.ONE_PLY (rootDepth - s.failedHighCnt * K.ONE_PLY)⟩,
        ?_, ?_⟩
      · rw [← Option.some.inj h]
        rfl
      · simpa using hin
    · rw [aspiration_loop_next S K E ct usWhite isMain rootDepth results f k s s1 calls h1] at h
      obtain ⟨mid, c, h2, h3⟩ := ih (k + 1) s1 _ res h
      refine ⟨⟨s.alpha, s.beta, max K.ONE_PLY (rootDepth - s.failedHighCnt * K.ONE_PLY)⟩ :: mid,
        c, ?_, ?_⟩
      · rw [h2]
        simp
      · have e : k + (List.length
            ((⟨s.alpha, s.beta, max K.ONE_PLY (rootDepth - s.failedHighCnt * K.ONE_PLY)⟩
              : RootSearchCall) :: mid)) = k + 1 + mid.length := by
          simp only [List.length_cons]
          omega
        rw [e]
        exact h3

/-- The window the default configuration starts the loop with. -/
theorem aspiration_init_default (S : ShashinParams) (K : Params) (E : SearchEnv) (ct : Int)
    (usWhite : Bool) (lpDelta : Int → Int) (rootDepth previousScore : Int)
    (s : AspirationState) (hlpm : E.lessPruningMode = 0)
    (hdepth : 5 * K.ONE_PLY ≤ rootDepth) :
    (aspiration_init S K E ct usWhite lpDelta rootDepth previousScore s).alpha
        = max (previousScore - 20) (-K.VALUE_INFINITE) ∧
    (aspiration_init S K E ct usWhite lpDelta rootDepth previousScore s).beta
        = min (previousScore + 20) K.VALUE_INFINITE ∧
    (aspiration_init S K E ct usWhite lpDelta rootDepth previousScore s).delta = 20 := by
  simp [aspiration_init, hlpm, hdepth]

/-- C20: in the default configuration (Less Pruning Mode 0, NN Perceptron Search off)
the aspiration loop of `Thread::search`, started at `rootDepth ≥ 5·ONE_PLY` from the
window `[max(prev − 20, −VALUE_INFINITE), min(prev + 20, VALUE_INFINITE)]` with
`delta = 20` growing by `delta/4 + 5` per failed pass, returns for every sequence of
search results with `|r| < VALUE_INFINITE`: `2·VALUE_INFINITE + 4` passes are enough,
and the last pass was stopped or returned a value strictly inside its window. -/
theorem aspiration_loop_terminates (S : ShashinParams) (K : Params) (E : SearchEnv)
    (ct : Int) (usWhite isMain : Bool) (lpDelta : Int → Int) (rootDepth previousScore : Int)
    (results : Nat → RootSearchResult) (s0 : AspirationState)
    (hlpm : E.lessPruningMode = 0) (hperc : E.perceptronSearch = false)
    (hdepth : 5 * K.ONE_PLY ≤ rootDepth)
    (hres : ∀ k, cabs (results k).bestValue < K.VALUE_INFINITE) :
    (aspiration_init S K E ct usWhite lpDelta rootDepth previousScore s0).alpha
        = max (previousScore - 20) (-K.VALUE_INFINITE) ∧
    (aspiration_init S K E ct usWhite lpDelta rootDepth previousScore s0).beta
        = min (previousScore + 20) K.VALUE_INFINITE ∧
    (aspiration_init S K E ct usWhite lpDelta rootDepth previousScore s0).delta = 20 ∧
    ∃ sEnd mid c,
      aspiration_loop S K E ct usWhite isMain rootDepth results
        ((2 * K.VALUE_INFINITE).toNat + 4) 0
        (aspiration_init S K E ct usWhite lpDelta rootDepth previousScore s0) []
        = some (sEnd, mid ++ [c]) ∧
      ((results mid.length).stop = true ∨
        (c.alpha < (results mid.length).bestValue ∧ (results mid.length).bestValue < c.beta)) := by
  obtain ⟨ha, hb, hd⟩ := aspiration_init_default S K E ct usWhite lpDelta rootDepth
    previousScore s0 hlpm hdepth
  refine ⟨ha, hb, hd, ?_⟩
  have hpos : 0 < K.VALUE_INFINITE := by
    have := hres 0
    have := cabs_nonneg (results 0).bestValue
    omega
  obtain ⟨res, hres1⟩ := aspiration_exit_within S K E ct usWhite isMain rootDepth results hlpm
    hperc hres (2 * K.VALUE_INFINITE).toNat 0
    (aspiration_init S K E ct usWhite lpDelta rootDepth previousScore s0) []
    (by rw [hd]; decide)
    (by rw [hd, Int.toNat_of_nonneg (by omega)]; omega)
  obtain ⟨mid, c, h2, h3⟩ := aspiration_loop_exit S K E ct usWhite isMain rootDepth results
    hlpm hperc _ 0 _ [] res hres1
  refine ⟨res.1, mid, c, ?_, ?_⟩
  · rw [hres1]
    congr 1
    exact Prod.ext rfl (by simpa using h2)
  · simpa using h3

/-- Instance of C20: previous score 50 gives the first window `[30, 70]`; a fail high
at 100 widens it and the second pass, returning 60, ends the loop. -/
theorem aspiration_loop_terminates_witness :
    defaultEnv.lessPruningMode = 0 ∧ defaultEnv.perceptronSearch = false ∧
    5 * upstream.ONE_PLY ≤ 5 ∧
    (∀ k, cabs (rootResults 100 60 0 1 k).bestValue < upstream.VALUE_INFINITE) ∧
    (aspiration_init shashinSample upstream defaultEnv 0 true (fun _ => 16) 5 50
      (aspirationStart upstream defaultEnv shashinIdle)).alpha = 30 ∧
    (aspiration_init shashinSample upstream defaultEnv 0 true (fun _ => 16) 5 50
      (aspirationStart upstream defaultEnv shashinIdle)).beta = 70 ∧
    (∃ sEnd mid c,
      aspiration_loop shashinSample upstream defaultEnv 0 true true 5 (rootResults 100 60 0 1)
        ((2 * upstream.VALUE_INFINITE).toNat + 4) 0
        (aspiration_init shashinSample upstream defaultEnv 0 true (fun _ => 16) 5 50
          (aspirationStart upstream defaultEnv shashinIdle)) []
        = some (sEnd, mid ++ [c]) ∧
      ((rootResults 100 60 0 1 mid.length).stop = true ∨
        (c.alpha < (rootResults 100 60 0 1 mid.length).bestValue ∧
          (rootResults 100 60 0 1 mid.length).bestValue < c.beta))) :=
  have hres : ∀ k, cabs (rootResults 100 60 0 1 k).bestValue < upstream.VALUE_INFINITE := by
    intro k
    by_cases hk : k = 0
    · subst hk
      decide
    · simp only [rootResults, hk, if_false]
      decide
  ⟨rfl, rfl, by decide, hres, by decide, by decide,
   (aspiration_loop_terminates shashinSample upstream defaultEnv 0 true true (fun _ => 16) 5 50
      (rootResults 100 60 0 1) (aspirationStart upstream defaultEnv shashinIdle)
      rfl rfl (by decide) hres).2.2.2⟩

/-- C12 fails with `NN Perceptron Search` on: from the previous score -30 the first
call gets the window `(-50, -10)`; the search returns 0 (a fail high) while the playout
average -120 is at most `alpha - PawnValueMg/2 = -114`, so the fail-low branch runs and
the second call to `search<PV>` gets `alpha = -20`, `beta = -30`, breaking the
precondition `alpha < beta` that `search` asserts. -/
theorem aspiration_perceptron_inverts_window :
    cabs (perceptronResults 0).bestValue < upstream.VALUE_INFINITE ∧
    callWindows (aspiration_loop shashinSample upstream perceptronEnv 0 true true 5
      perceptronResults 2 0
      (aspiration_init shashinSample upstream perceptronEnv 0 true (fun _ => 16) 5 (-30)
        (aspirationStart upstream perceptronEnv shashinIdle)) [])
      = some [(-50, -10), (-20, -30)] ∧
    ¬ window_ok upstream (-20) (-30) := by
  refine ⟨by decide, by decide, ?_⟩
  unfold window_ok
  decide

/-- The running minimum is below its start value and every score seen. -/
theorem vote_min_foldl_le (threads : List ThreadResult) :
    ∀ m0 : Int, threads.foldl (fun m th => min m th.score) m0 ≤ m0 ∧
      ∀ th ∈ threads, threads.foldl (fun m th => min m th.score) m0 ≤ th.score := by
  induction threads with
  | nil => intro m0; simp
  | cons a rest ih =>
    intro m0
    obtain ⟨h1, h2⟩ := ih (min m0 a.score)
    refine ⟨le_trans h1 (min_le_left _ _), ?_⟩
    intro th hth
    rcases List.mem_cons.mp hth with rfl | hmem
    · exact le_trans h1 (min_le_right _ _)
    · exact h2 th hmem

/-- The running minimum is its start value or one of the scores seen. -/
theorem vote_min_foldl_attained (threads : List ThreadResult) :
    ∀ m0 : Int, threads.foldl (fun m th => min m th.score) m0 = m0 ∨
      ∃ th ∈ threads, threads.foldl (fun m th => min m th.score) m0 = th.score := by
  induction threads with
  | nil => intro m0; simp
  | cons a rest ih =>
    intro m0
    rcases ih (min m0 a.score) with h | ⟨th, hth, h⟩
    · rcases min_choice m0 a.score with hm | hm
      · left
        simpa [hm] using h
      · right
        exact ⟨a, List.mem_cons_self _ _, by simpa [hm] using h⟩
    · right
      exact ⟨th, List.mem_cons_of_mem _ hth, h⟩

/-- The tally of a move is the sum of the votes of the threads that chose it. -/
theorem vote_tally_foldl (minScore : Int) (threads : List ThreadResult) :
    ∀ (init : Nat → Int) (m : Nat),
      threads.foldl
        (fun votes th =>
          let s := th.score - minScore + 1
          fun m => if m = th.move then votes m + (200 + s * s * th.completedDepth) else votes m)
        init m
      = init m + ((threads.filter (fun th => decide (th.move = m))).map
          (vote_weight minScore)).sum := by
  induction threads with
  | nil => intro init m; simp
  | cons a rest ih =>
    intro init m
    rw [List.foldl_cons, ih]
    by_cases hm : a.move = m
    · simp [List.filter_cons, hm, vote_weight, pow_two]
      ring
    · have hm2 : ¬ m = a.move := fun h => hm h.symm
      simp [List.filter_cons, hm, hm2]

/-- The selection loop ends on a thread whose move has the largest tally among all
threads, given that this holds for the threads already seen. -/
theorem vote_select_max (votes : Nat → Int) (all : List ThreadResult) :
    ∀ (rest pre : List ThreadResult) (acc : Nat × Int), all = pre ++ rest →
      (∃ b, all[acc.1]? = some b ∧ acc.2 = votes b.move) →
      (∀ th ∈ pre, votes th.move ≤ acc.2) →
      (∃ b, all[(vote_select votes rest pre.length acc).1]? = some b ∧
        (vote_select votes rest pre.length acc).2 = votes b.move) ∧
      ∀ th ∈ all, votes th.move ≤ (vote_select votes rest pre.length acc).2 := by
  intro rest
  induction rest with
  | nil =>
    intro pre acc hall hacc hpre
    simp only [vote_select]
    refine ⟨hacc, ?_⟩
    intro th hth
    rw [hall, List.append_nil] at hth
    exact hpre th hth
  | cons a rest ih =>
    intro pre acc hall hacc hpre
    have hall2 : all = (pre ++ [a]) ++ rest := by rw [hall]; simp
    have hlen : (pre ++ [a]).length = pre.length + 1 := by simp
    by_cases hgt : votes a.move > acc.2
    · have e : vote_select votes (a :: rest) pre.length acc
          = vote_select votes rest (pre ++ [a]).length (pre.length, votes a.move) := by
        rw [hlen]
        simp only [vote_select, hgt, if_true]
      rw [e]
      apply ih (pre ++ [a]) (pre.length, votes a.move) hall2
      · refine ⟨a, ?_, rfl⟩
        show all[pre.length]? = some a
        rw [hall, List.getElem?_append_right (le_refl _)]
        simp
      · intro th hth
        rcases List.mem_append.mp hth with h | h
        · have := hpre th h
          show votes th.move ≤ votes a.move
          omega
        · rw [List.mem_singleton.mp h]
    · have e : vote_select votes (a :: rest) pre.length acc
          = vote_select votes rest (pre ++ [a]).length acc := by
        rw [hlen]
        simp only [vote_select, hgt, if_false]
      rw [e]
      apply ih (pre ++ [a]) acc hall2 hacc
      intro th hth
      rcases List.mem_append.mp hth with h | h
      · exact hpre th h
      · rw [List.mem_singleton.mp h]
        omega

/-- The selection loop keeps its accumulator when no remaining thread has a strictly
larger tally. -/
theorem vote_select_keeps (votes : Nat → Int) :
    ∀ (rest : List ThreadResult) (i : Nat) (acc : Nat × Int),
      (∀ th ∈ rest, votes th.move ≤ acc.2) → vote_select votes rest i acc = acc := by
  intro rest
  induction rest with
  | nil => intro i acc _; rfl
  | cons a rest ih =>
    intro i acc h
    have ha : ¬ votes a.move > acc.2 := by
      have := h a (List.mem_cons_self _ _)
      omega
    simp only [vote_select, ha, if_false]
    exact ih (i + 1) acc (fun th hth => h th (List.mem_cons_of_mem _ hth))

/-- C13: when voting applies (MultiPV = 1, no depth limit, strength limit off, the main
thread's best move is not MOVE_NONE), `minScore` is the minimum best score over all
threads, `votes[m]` is the sum over the threads whose best move is `m` of
`200 + (score − minScore + 1)² · completedDepth`, the thread chosen as `bestThread` has
a best move whose vote total is the maximum over all threads' best moves, and the main
thread (index 0) is kept when its move attains that maximum. -/
theorem best_thread_max_vote (K : Params) (multiPV : Nat) (limitsDepth : Int)
    (limitStrength : Bool) (main : ThreadResult) (helpers : List ThreadResult)
    (hv : multiPV = 1 ∧ limitsDepth = 0 ∧ limitStrength = false ∧ main.move ≠ K.MOVE_NONE) :
    (∀ th ∈ main :: helpers, vote_minScore main (main :: helpers) ≤ th.score) ∧
    (∃ th ∈ main :: helpers, vote_minScore main (main :: helpers) = th.score) ∧
    (∀ m, vote_tally (vote_minScore main (main :: helpers)) (main :: helpers) m
      = (((main :: helpers).filter (fun th => decide (th.move = m))).map
          (vote_weight (vote_minScore main (main :: helpers)))).sum) ∧
    (∃ best, (main :: helpers)[best_thread K multiPV limitsDepth limitStrength main helpers]?
        = some best ∧
      ∀ th ∈ main :: helpers,
        vote_tally (vote_minScore main (main :: helpers)) (main :: helpers) th.move
          ≤ vote_tally (vote_minScore main (main :: helpers)) (main :: helpers) best.move) ∧
    ((∀ th ∈ main :: helpers,
        vote_tally (vote_minScore main (main :: helpers)) (main :: helpers) th.move
          ≤ vote_tally (vote_minScore main (main :: helpers)) (main :: helpers) main.move) →
      best_thread K multiPV limitsDepth limitStrength main helpers = 0) := by
  have hbest : best_thread K multiPV limitsDepth limitStrength main helpers
      = (vote_select (vote_tally (vote_minScore main (main :: helpers)) (main :: helpers))
          (main :: helpers) 0
          (0, vote_tally (vote_minScore main (main :: helpers)) (main :: helpers) main.move)).1 := by
    obtain ⟨h1, h2, h3, h4⟩ := hv
    simp [best_thread, h1, h2, h3, h4]
  refine ⟨?_, ?_, ?_, ?_, ?_⟩
  · exact (vote_min_foldl_le (main :: helpers) main.score).2
  · rcases vote_min_foldl_attained (main :: helpers) main.score with h | h
    · exact ⟨main, List.mem_cons_self _ _, h⟩
    · exact h
  · intro m
    have h := vote_tally_foldl (vote_minScore main (main :: helpers)) (main :: helpers)
      (fun _ => 0) m
    simpa [vote_tally] using h
  · obtain ⟨⟨b, hb1, hb2⟩, hmax⟩ := vote_select_max
      (vote_tally (vote_minScore main (main :: helpers)) (main :: helpers)) (main :: helpers)
      (main :: helpers) []
      (0, vote_tally (vote_minScore main (main :: helpers)) (main :: helpers) main.move)
      rfl ⟨main, by simp, rfl⟩ (by simp)
    rw [hbest]
    refine ⟨b, hb1, ?_⟩
    intro th hth
    rw [← hb2]
    exact hmax th hth
  · intro hall
    rw [hbest, vote_select_keeps _ _ _ _ hall]

/-- Instance of C13: the main thread votes 560 for move 1, the two helpers together
585 for move 2; the first helper (index 1) is chosen. -/
theorem best_thread_max_vote_witness :
    ((1 : Nat) = 1 ∧ (0 : Int) = 0 ∧ false = false ∧ votingMain.move ≠ upstream.MOVE_NONE) ∧
    best_thread upstream 1 0 false votingMain votingHelpers = 1 ∧
    vote_tally (vote_minScore votingMain (votingMain :: votingHelpers))
      (votingMain :: votingHelpers) 1 = 560 ∧
    vote_tally (vote_minScore votingMain (votingMain :: votingHelpers))
      (votingMain :: votingHelpers) 2 = 585 ∧
    (∃ best, (votingMain :: votingHelpers)[best_thread upstream 1 0 false votingMain
          votingHelpers]? = some best ∧
      ∀ th ∈ votingMain :: votingHelpers,
        vote_tally (vote_minScore votingMain (votingMain :: votingHelpers))
            (votingMain :: votingHelpers) th.move
          ≤ vote_tally (vote_minScore votingMain (votingMain :: votingHelpers))
            (votingMain :: votingHelpers) best.move) :=
  ⟨by decide, by decide, by decide, by decide,
   (best_thread_max_vote upstream 1 0 false votingMain votingHelpers (by decide)).2.2.2.1⟩

/-- With no move from the picker, not in check, no rule draw, no TT hit, not directly
after a null move and a static evaluation below `beta`, `qsearch` returns the static
evaluation after the `Variety` step. -/
theorem qsearch_no_moves_variety {P T : Type} (X : PosOps P) (TX : TTOps T) (K : Params)
    (E : SearchEnv) (fuel : Nat) (PvNode : Bool) (pos : P) (ss : Int) (alpha beta depth : Int)
    (q : QState T)
    (hcheck : X.checkers pos = false)
    (hmoves : ∀ ttMove d sq, X.qs_moves pos ttMove d sq = [])
    (hdraw : X.is_draw pos (q.stack ss).ply = false)
    (hply : (q.stack ss).ply < K.MAX_PLY)
    (hmiss : (TX.probe q.tt (X.key pos)).2 = false)
    (hnull : (q.stack (ss - 1)).currentMove ≠ K.MOVE_NULL)
    (hpat : X.evaluate pos < beta) :
    (qsearch X TX K E (fuel + 1) PvNode pos ss alpha beta depth q).map (fun r => r.1)
      = some (qsearch_variety K E (X.evaluate pos) q.randCalls).1 := by
  have hne1 : ss - 1 ≠ ss := by omega
  have hne2 : ss - 1 ≠ ss + 1 := by omega
  have hne3 : ss ≠ ss + 1 := by omega
  have hply2 : ¬ (q.stack ss).ply ≥ K.MAX_PLY := by omega
  have hpat2 : ¬ X.evaluate pos ≥ beta := by omega
  cases PvNode <;>
    simp only [qsearch, qsearch_variety, hcheck, hmoves, hdraw, hmiss, hply2, hnull, hpat2,
      qsearch_loop,
      setFrame_same, setFrame_other _ _ _ _ hne1, setFrame_other _ _ _ _ hne2,
      setFrame_other _ _ _ _ hne3, Bool.false_eq_true, if_false, if_true, decide_False,
      Bool.or_false, Bool.false_and, Bool.and_false, Bool.not_false, Bool.true_and,
      Bool.false_or, Bool.not_true, ne_eq, not_true_eq_false, not_false_eq_true, decide_True,
      decide_eq_true_eq, Bool.and_true, Bool.decide_eq_true] <;>
    split_ifs <;> simp <;> split_ifs <;> rfl

/-- The amount `rand() % (variety + 1)` lies in `[0, variety]` for a non-negative
`rand()` and a positive `variety`. -/
theorem variety_jitter_range (r V : Int) (hr : 0 ≤ r) (hV : 0 < V) :
    0 ≤ Int.tmod r (V + 1) ∧ Int.tmod r (V + 1) ≤ V := by
  have h1 : 0 ≤ Int.tmod r (V + 1) := Int.tmod_nonneg _ hr
  have h2 : Int.tmod r (V + 1) < V + 1 := Int.tmod_lt_of_pos _ (by omega)
  exact ⟨h1, by omega⟩

/-- C11 (as stated, refuted): with `Variety = 1`, a `rand()` returning 1 and a node
without moves whose static evaluation is −100, the value after the moves loop is
`b = −100`; `|b| + V·PawnValueEg/100 = 102 ≥ 0` and `rand() mod 2 = 1`, yet `qsearch`
returns −100: nothing is added, because the code tests `b + V·PawnValueEg/100 ≥ 0`. -/
theorem qsearch_variety_skips_negative :
    0 < varietyEnv.variety ∧
    cabs (-100) + Int.tdiv (varietyEnv.variety * upstream.PawnValueEg) 100 ≥ 0 ∧
    Int.tmod (varietyEnv.rand 0) (varietyEnv.variety + 1) = 1 ∧
    (quietPos (-100)).qs_moves () 0 0 0 = [] ∧
    (qsearch (quietPos (-100)) logTT upstream varietyEnv 1 false () 8 (-200) 0 0
      { tt := [], stack := stackAtPly 3, randCalls := 0 }).map (fun r => r.1)
      = some (-100) := by
  decide

theorem qsearch_entryStack_prev (K : Params) (PvNode : Bool) (ss : Int)
    (stack : Int → Stack) : qsearch_entryStack K PvNode ss stack (ss - 1) = stack (ss - 1) := by
  have hne1 : ss - 1 ≠ ss := by omega
  have hne2 : ss - 1 ≠ ss + 1 := by omega
  cases PvNode <;>
    simp [qsearch_entryStack, setFrame_other _ _ _ _ hne1, setFrame_other _ _ _ _ hne2]

theorem qsearch_entryStack_ply (K : Params) (PvNode : Bool) (ss : Int)
    (stack : Int → Stack) : (qsearch_entryStack K PvNode ss stack ss).ply = (stack ss).ply := by
  have hne3 : ss ≠ ss + 1 := by omega
  cases PvNode <;>
    simp [qsearch_entryStack, setFrame_same, setFrame_other _ _ _ _ hne3]

/-- A `qsearch` node that is not drawn, below `MAX_PLY`, not cut by the TT and does not
stand pat runs its moves loop from `qsearch_loopStart` and finishes with
`qsearch_finish`. -/
theorem qsearch_runs_loop {P T : Type} (X : PosOps P) (TX : TTOps T) (K : Params)
    (E : SearchEnv) (fuel : Nat) (PvNode : Bool) (pos : P) (ss : Int) (alpha beta depth : Int)
    (q : QState T)
    (hdraw : X.is_draw pos (q.stack ss).ply = false)
    (hply : (q.stack ss).ply < K.MAX_PLY)
    (hcut : qsearch_ttCutoff X TX K PvNode pos ss beta depth q = false)
    (hpat : X.checkers pos = true ∨ qsearch_standPat X TX K pos ss q < beta) :
    qsearch X TX K E (fuel + 1) PvNode pos ss alpha beta depth q
      = (qsearch_loop X K (fun p s a b d st => qsearch X TX K E fuel PvNode p s a b d st)
          PvNode (X.checkers pos) pos ss beta depth (qsearch_futilityBase X TX K pos ss q)
          (qsearch_moves X TX K pos ss depth q)
          (qsearch_loopStart X TX K PvNode pos ss alpha q)).map
        (qsearch_finish X TX K E PvNode pos ss alpha beta depth q) := by
  have hne1 : ss - 1 ≠ ss := by omega
  have hne2 : ss - 1 ≠ ss + 1 := by omega
  have hne3 : ss ≠ ss + 1 := by omega
  have hply2 : ¬ (q.stack ss).ply ≥ K.MAX_PLY := by omega
  cases hchk : X.checkers pos <;> cases hhit : (TX.probe q.tt (X.key pos)).2 <;>
    cases PvNode <;>
    simp only [qsearch_ttCutoff, qsearch_standPat, qsearch_staticEval, hchk, hhit,
      Bool.false_or, Bool.not_false, Bool.not_true, Bool.true_and, Bool.false_and,
      Bool.false_eq_true, if_false, if_true, false_or, true_or, Bool.true_or] at hcut hpat <;>
    simp only [qsearch, qsearch_standPat, qsearch_staticEval, qsearch_loopStart,
      qsearch_futilityBase, qsearch_moves, qsearch_finish, qsearch_entryStack,
      qsearch_variety, qsearch_ttDepth, hchk, hdraw, hply2, hhit,
      setFrame_same, setFrame_other _ _ _ _ hne1, setFrame_other _ _ _ _ hne2,
      setFrame_other _ _ _ _ hne3, Bool.false_eq_true, if_false, if_true, decide_False,
      Bool.or_false, Bool.false_and, Bool.and_false, Bool.not_false, Bool.true_and,
      Bool.false_or, Bool.not_true, Bool.true_or, hcut, hpat, decide_True]
  all_goals
    first
    | (have hpat2 := not_le.mpr hpat
       simp only [ge_iff_le, hpat2, decide_False, Bool.false_eq_true, if_false]
       generalize qsearch_loop _ _ _ _ _ _ _ _ _ _ _ _ = r
       cases r with
       | none => rfl
       | some l =>
         simp only [Option.map_some', qsearch_finish, qsearch_variety, qsearch_ttDepth, hchk,
           hhit, Bool.false_eq_true, if_false, if_true, Bool.false_and, Bool.true_and,
           Bool.false_or, Bool.true_or, ge_iff_le]
         split_ifs <;> rfl)
    | (generalize qsearch_loop _ _ _ _ _ _ _ _ _ _ _ _ = r
       cases r with
       | none => rfl
       | some l =>
         simp only [Option.map_some', qsearch_finish, qsearch_variety, qsearch_ttDepth, hchk,
           hhit, Bool.false_eq_true, if_false, if_true, Bool.false_and, Bool.true_and,
           Bool.false_or, Bool.true_or, ge_iff_le]
         split_ifs <;> rfl)

/-- C11 (amended): for every Variety setting `V > 0` and a non-negative `rand()`, at
every `qsearch` node that reaches its moves loop (not drawn by rule, below `MAX_PLY`,
not cut by the TT, no stand-pat return) and for the `bestValue` `b` with which the
loop is left: when `b + V·PawnValueEg/100 ≥ 0` (the signed value, C++ integer
division) `qsearch` makes one `rand()` call and goes on with `b + rand() mod (V+1)`,
an amount in `[0, V]`; otherwise it makes no call and goes on with `b` unchanged.  The
value it goes on with is the value `qsearch` returns (or `mated_in(ply)` at a node in
check where it is `-VALUE_INFINITE`). -/
theorem qsearch_variety_jitter {P T : Type} (X : PosOps P) (TX : TTOps T) (K : Params)
    (E : SearchEnv) (fuel : Nat) (PvNode : Bool) (pos : P) (ss : Int) (alpha beta depth : Int)
    (q : QState T) (l : QLoop T)
    (hV : 0 < E.variety) (hrand : ∀ n, 0 ≤ E.rand n)
    (hdraw : X.is_draw pos (q.stack ss).ply = false)
    (hply : (q.stack ss).ply < K.MAX_PLY)
    (hcut : qsearch_ttCutoff X TX K PvNode pos ss beta depth q = false)
    (hpat : X.checkers pos = true ∨ qsearch_standPat X TX K pos ss q < beta)
    (hloop : qsearch_loop X K (fun p s a b d st => qsearch X TX K E fuel PvNode p s a b d st)
        PvNode (X.checkers pos) pos ss beta depth (qsearch_futilityBase X TX K pos ss q)
        (qsearch_moves X TX K pos ss depth q)
        (qsearch_loopStart X TX K PvNode pos ss alpha q) = some l) :
    (l.bestValue + Int.tdiv (E.variety * K.PawnValueEg) 100 ≥ 0 →
      0 ≤ Int.tmod (E.rand l.st.randCalls) (E.variety + 1) ∧
      Int.tmod (E.rand l.st.randCalls) (E.variety + 1) ≤ E.variety ∧
      ∃ st, qsearch X TX K E (fuel + 1) PvNode pos ss alpha beta depth q
          = some (if X.checkers pos
                    && decide (l.bestValue + Int.tmod (E.rand l.st.randCalls) (E.variety + 1)
                        = -K.VALUE_INFINITE)
                  then mated_in K (q.stack ss).ply
                  else l.bestValue + Int.tmod (E.rand l.st.randCalls) (E.variety + 1), st) ∧
        st.randCalls = l.st.randCalls + 1) ∧
    (l.bestValue + Int.tdiv (E.variety * K.PawnValueEg) 100 < 0 →
      ∃ st, qsearch X TX K E (fuel + 1) PvNode pos ss alpha beta depth q
          = some (if X.checkers pos && decide (l.bestValue = -K.VALUE_INFINITE)
                  then mated_in K (q.stack ss).ply
                  else l.bestValue, st) ∧
        st.randCalls = l.st.randCalls) := by
  have hV0 : E.variety ≠ 0 := by omega
  have hrun := qsearch_runs_loop X TX K E fuel PvNode pos ss alpha beta depth q hdraw hply hcut
    hpat
  rw [hloop, Option.map_some'] at hrun
  rw [hrun]
  refine ⟨?_, ?_⟩
  · intro hb
    obtain ⟨h1, h2⟩ := variety_jitter_range (E.rand l.st.randCalls) E.variety
      (hrand l.st.randCalls) hV
    refine ⟨h1, h2, ?_⟩
    have hvar : qsearch_variety K E l.bestValue l.st.randCalls
        = (l.bestValue + Int.tmod (E.rand l.st.randCalls) (E.variety + 1),
           l.st.randCalls + 1) := by
      simp [qsearch_variety, hV0, hb]
    simp only [qsearch_finish, hvar]
    split_ifs <;> exact ⟨_, rfl, rfl⟩
  · intro hb
    have hb2 : ¬ 0 ≤ l.bestValue + Int.tdiv (E.variety * K.PawnValueEg) 100 := by omega
    have hvar : qsearch_variety K E l.bestValue l.st.randCalls
        = (l.bestValue, l.st.randCalls) := by
      simp [qsearch_variety, hb2]
    simp only [qsearch_finish, hvar]
    split_ifs <;> exact ⟨_, rfl, rfl⟩

/-- Instance of C11 (amended): with `Variety = 1` and `rand()` returning 1, a node with
one capture whose reply position evaluates to 0: the capture is searched (the child
returns 1 after its own jitter), the loop is left with `bestValue = 0` after one move
and one `rand()` call, and `qsearch` returns `0 + 1 = 1` after a second call. -/
theorem qsearch_variety_jitter_witness :
    0 < varietyEnv.variety ∧ (∀ n, 0 ≤ varietyEnv.rand n) ∧
    ∃ l st,
      qsearch_loop captureChain upstream
        (fun p s a b d st => qsearch captureChain logTT upstream varietyEnv 1 false p s a b d st)
        false (captureChain.checkers 1) 1 8 200 0
        (qsearch_futilityBase captureChain logTT upstream 1 8
          { tt := [], stack := stackAtPly 3, randCalls := 0 })
        (qsearch_moves captureChain logTT upstream 1 8 0
          { tt := [], stack := stackAtPly 3, randCalls := 0 })
        (qsearch_loopStart captureChain logTT upstream false 1 8 (-200)
          { tt := [], stack := stackAtPly 3, randCalls := 0 }) = some l ∧
      l.bestValue = 0 ∧ l.moveCount = 1 ∧ l.st.randCalls = 1 ∧
      qsearch captureChain logTT upstream varietyEnv 2 false 1 8 (-200) 200 0
        { tt := [], stack := stackAtPly 3, randCalls := 0 } = some (1, st) ∧
      st.randCalls = 2 := by
  refine ⟨by decide, fun _ => (by decide : (0 : Int) ≤ 1), ?_⟩
  have hl : (qsearch_loop captureChain upstream
        (fun p s a b d st => qsearch captureChain logTT upstream varietyEnv 1 false p s a b d st)
        false (captureChain.checkers 1) 1 8 200 0
        (qsearch_futilityBase captureChain logTT upstream 1 8
          { tt := [], stack := stackAtPly 3, randCalls := 0 })
        (qsearch_moves captureChain logTT upstream 1 8 0
          { tt := [], stack := stackAtPly 3, randCalls := 0 })
        (qsearch_loopStart captureChain logTT upstream false 1 8 (-200)
          { tt := [], stack := stackAtPly 3, randCalls := 0 })).map
        (fun l => (l.bestValue, l.moveCount, l.st.randCalls)) = some (0, 1, 1) := by
    decide
  obtain ⟨l, hloop, hval⟩ := Option.map_eq_some'.mp hl
  simp only [Prod.mk.injEq] at hval
  obtain ⟨hb, hm, hr⟩ := hval
  obtain ⟨_, _, st, hq, hst⟩ := (qsearch_variety_jitter captureChain logTT upstream varietyEnv 1
    false 1 8 (-200) 200 0 { tt := [], stack := stackAtPly 3, randCalls := 0 } l
    (by decide) (fun _ => (by decide : (0 : Int) ≤ 1)) rfl (by decide) (by decide)
    (Or.inr (by decide)) hloop).1 (by rw [hb]; decide)
  refine ⟨l, st, hloop, hb, hm, hr, ?_, ?_⟩
  · rw [hq, hb, hr]
    rfl
  · rw [hst, hr]

/-- C15 (as stated, refuted): at depth 8 with `ttValue = 116` the margin gives
`singularBeta = 100`; with `beta = 100 = singularBeta`, `cutNode` set and the
excluded-move search returning `v = 100 ≥ singularBeta`, Step 13 does not return: the
move is searched on with no extension, because the code asks `singularBeta > beta`. -/
theorem singular_multicut_not_at_equal_beta :
    singular_condition oneMovePos upstream false () 3 8 796 796 0 116 ttLower116 = true ∧
    116 - Int.tdiv (2 * 8) upstream.ONE_PLY = 100 ∧
    (moveStart 99 100).s.loc.beta = 100 ∧
    (search_step13 oneMovePos upstream defaultEnv (fun _ b _ _ s => (b, s)) false true () 8 8
      796 796 0 116 ttLower116 0 0 0 false false (moveStart 99 100)).returned = none ∧
    (search_step13 oneMovePos upstream defaultEnv (fun _ b _ _ s => (b, s)) false true () 8 8
      796 796 0 116 ttLower116 0 0 0 false false (moveStart 99 100)).state.extension = 0 ∧
    (search_step13 oneMovePos upstream defaultEnv (fun _ b _ _ s => (b, s)) false true () 8 8
      796 796 0 116 ttLower116 0 0 0 false false (moveStart 99 100)).state.value = 100 := by
  decide

/-- C15 (amended): when the singular condition holds, with
`singularBeta = ttValue − 2·depth/ONE_PLY` and `v` the result of the excluded-move
search on the window `(singularBeta − 1, singularBeta)` at `depth/2`: if
`v < singularBeta` the move is extended by `ONE_PLY`; if `v ≥ singularBeta`, `cutNode`
holds and `singularBeta > beta` (strictly), `search` returns `beta` at once; in every
other case, `beta = singularBeta` included, the move goes on with no extension. -/
theorem singular_extension_multicut {P T : Type} (X : PosOps P) (K : Params) (E : SearchEnv)
    (child : Int → Int → Int → Bool → SearchState T → Int × SearchState T)
    (PvNode cutNode : Bool) (pos : P) (ss : Int) (depth : Int)
    (move ttMove excludedMove : Nat) (ttValue : Int) (tte : TTData)
    (minSons : Int) (expttMove : Nat) (visits : Int) (discoversCheck isCastling : Bool)
    (m : MoveState T) (singularBeta v : Int)
    (hsing : singular_condition X K PvNode pos (m.s.q.stack ss).ply depth move ttMove
      excludedMove ttValue tte = true)
    (hsb : singularBeta = ttValue - Int.tdiv (2 * depth) K.ONE_PLY)
    (hv : v = (child (singularBeta - 1) singularBeta (Int.tdiv depth 2) cutNode
      (set_excludedMove m.s ss move)).1) :
    (v < singularBeta →
      ∃ st, search_step13 X K E child PvNode cutNode pos ss depth move ttMove excludedMove
          ttValue tte minSons expttMove visits discoversCheck isCastling m = .next st ∧
        st.extension = K.ONE_PLY ∧ st.newDepth = depth - K.ONE_PLY + K.ONE_PLY) ∧
    (v ≥ singularBeta → cutNode = true → singularBeta > m.s.loc.beta →
      ∃ st, search_step13 X K E child PvNode cutNode pos ss depth move ttMove excludedMove
          ttValue tte minSons expttMove visits discoversCheck isCastling m
        = .ret m.s.loc.beta st) ∧
    (v ≥ singularBeta → (cutNode = false ∨ singularBeta ≤ m.s.loc.beta) →
      ∃ st, search_step13 X K E child PvNode cutNode pos ss depth move ttMove excludedMove
          ttValue tte minSons expttMove visits discoversCheck isCastling m = .next st ∧
        st.extension = K.DEPTH_ZERO ∧ st.newDepth = depth - K.ONE_PLY + K.DEPTH_ZERO) := by
  subst hsb
  subst hv
  refine ⟨?_, ?_, ?_⟩
  · intro hlt
    cases hr : search_step13 X K E child PvNode cutNode pos ss depth move ttMove excludedMove
        ttValue tte minSons expttMove visits discoversCheck isCastling m with
    | ret v st => simp [search_step13, hsing, hlt] at hr
    | brk st => simp [search_step13, hsing, hlt] at hr
    | next st =>
      simp only [search_step13, hsing, if_true, hlt, Flow.next.injEq] at hr
      subst hr
      exact ⟨_, rfl, rfl, rfl⟩
  · intro hge hcut hgt
    subst hcut
    have hlt : ¬ (child (ttValue - Int.tdiv (2 * depth) K.ONE_PLY - 1)
        (ttValue - Int.tdiv (2 * depth) K.ONE_PLY) (Int.tdiv depth 2) true
        (set_excludedMove m.s ss move)).1 < ttValue - Int.tdiv (2 * depth) K.ONE_PLY := by
      omega
    cases hr : search_step13 X K E child PvNode true pos ss depth move ttMove excludedMove
        ttValue tte minSons expttMove visits discoversCheck isCastling m with
    | next st => simp [search_step13, hsing, hlt, hgt] at hr
    | brk st => simp [search_step13, hsing, hlt, hgt] at hr
    | ret v st =>
      simp only [search_step13, hsing, if_true, hlt, if_false, Bool.true_and, hgt,
        decide_True, Flow.ret.injEq] at hr
      exact ⟨st, by rw [hr.1]⟩
  · intro hge hno
    have hlt : ¬ (child (ttValue - Int.tdiv (2 * depth) K.ONE_PLY - 1)
        (ttValue - Int.tdiv (2 * depth) K.ONE_PLY) (Int.tdiv depth 2) cutNode
        (set_excludedMove m.s ss move)).1 < ttValue - Int.tdiv (2 * depth) K.ONE_PLY := by
      omega
    have hcond : (cutNode && decide (ttValue - Int.tdiv (2 * depth) K.ONE_PLY > m.s.loc.beta))
        = false := by
      rcases hno with h | h
      · simp [h]
      · have : ¬ ttValue - Int.tdiv (2 * depth) K.ONE_PLY > m.s.loc.beta := by omega
        simp [this]
    cases hr : search_step13 X K E child PvNode cutNode pos ss depth move ttMove excludedMove
        ttValue tte minSons expttMove visits discoversCheck isCastling m with
    | ret v st => simp [search_step13, hsing, hlt, hcond] at hr
    | brk st => simp [search_step13, hsing, hlt, hcond] at hr
    | next st =>
      simp only [search_step13, hsing, if_true, hlt, if_false, hcond, Bool.false_eq_true,
        Flow.next.injEq] at hr
      subst hr
      exact ⟨_, rfl, rfl, rfl⟩

/-- Instance of C15 (amended): `singularBeta = 100 > beta = 99` on a cut node with the
excluded-move search returning 100: Step 13 returns `beta`. -/
theorem singular_extension_multicut_witness :
    singular_condition oneMovePos upstream false () 3 8 796 796 0 116 ttLower116 = true ∧
    (100 : Int) = 116 - Int.tdiv (2 * 8) upstream.ONE_PLY ∧
    (∃ st, search_step13 oneMovePos upstream defaultEnv (fun _ b _ _ s => (b, s)) false true ()
        8 8 796 796 0 116 ttLower116 0 0 0 false false (moveStart 98 99)
      = .ret (moveStart 98 99).s.loc.beta st) :=
  ⟨by decide, by decide,
   (singular_extension_multicut oneMovePos upstream defaultEnv (fun _ b _ _ s => (b, s))
      false true () 8 8 796 796 0 116 ttLower116 0 0 0 false false (moveStart 98 99) 100 100
      (by decide) (by decide) rfl).2.1 (by decide) rfl (by decide)⟩

/-- C17: for every move that reaches Step 13, whatever combination of the singular,
check, shuffle and castling conditions holds, the extension is `DEPTH_ZERO` or
`ONE_PLY`; unless the multi-cut returns from the node,
`newDepth = depth − ONE_PLY + extension`, which is `depth − ONE_PLY` or `depth` and
never above the node's depth (`DEPTH_ZERO = 0 ≤ ONE_PLY`). -/
theorem extension_never_stacks {P T : Type} (X : PosOps P) (K : Params) (E : SearchEnv)
    (child : Int → Int → Int → Bool → SearchState T → Int × SearchState T)
    (PvNode cutNode : Bool) (pos : P) (ss : Int) (depth : Int)
    (move ttMove excludedMove : Nat) (ttValue : Int) (tte : TTData)
    (minSons : Int) (expttMove : Nat) (visits : Int) (discoversCheck isCastling : Bool)
    (m : MoveState T) (hz : K.DEPTH_ZERO = 0) (hone : 0 ≤ K.ONE_PLY) :
    ((search_step13 X K E child PvNode cutNode pos ss depth move ttMove excludedMove
        ttValue tte minSons expttMove visits discoversCheck isCastling m).state.extension
        = K.DEPTH_ZERO ∨
      (search_step13 X K E child PvNode cutNode pos ss depth move ttMove excludedMove
        ttValue tte minSons expttMove visits discoversCheck isCastling m).state.extension
        = K.ONE_PLY) ∧
    ((∃ st, search_step13 X K E child PvNode cutNode pos ss depth move ttMove excludedMove
        ttValue tte minSons expttMove visits discoversCheck isCastling m
        = .ret m.s.loc.beta st) ∨
      (∃ st, search_step13 X K E child PvNode cutNode pos ss depth move ttMove excludedMove
          ttValue tte minSons expttMove visits discoversCheck isCastling m = .next st ∧
        st.newDepth = depth - K.ONE_PLY + st.extension ∧
        (st.newDepth = depth - K.ONE_PLY ∨ st.newDepth = depth) ∧
        st.newDepth ≤ depth)) := by
  have hA : ∀ x : MoveState T,
      (depth - K.ONE_PLY + K.ONE_PLY = depth - K.ONE_PLY ∨
        depth - K.ONE_PLY + K.ONE_PLY = depth) ∧ depth - K.ONE_PLY + K.ONE_PLY ≤ depth := by
    intro _
    exact ⟨Or.inr (by omega), by omega⟩
  have hB : (depth - K.ONE_PLY + K.DEPTH_ZERO = depth - K.ONE_PLY ∨
        depth - K.ONE_PLY + K.DEPTH_ZERO = depth) ∧ depth - K.ONE_PLY + K.DEPTH_ZERO ≤ depth :=
    ⟨Or.inl (by omega), by omega⟩
  have hA2 := hA m
  unfold search_step13
  simp only []
  split_ifs <;>
    first
      | exact ⟨Or.inr rfl, Or.inr ⟨_, rfl, rfl, hA2.1, hA2.2⟩⟩
      | exact ⟨Or.inl rfl, Or.inr ⟨_, rfl, rfl, hB.1, hB.2⟩⟩
      | exact ⟨Or.inl rfl, Or.inl ⟨_, rfl⟩⟩

/-- Instance of C17: a castling move that is not the TT move gets `ONE_PLY`, so
`newDepth = depth`. -/
theorem extension_never_stacks_witness :
    upstream.DEPTH_ZERO = 0 ∧ 0 ≤ upstream.ONE_PLY ∧
    (search_step13 oneMovePos upstream defaultEnv (fun _ b _ _ s => (b, s)) false false ()
        8 8 796 0 0 116 ttLower116 0 0 0 false true (moveStart 98 99)).state.newDepth = 8 ∧
    ((search_step13 oneMovePos upstream defaultEnv (fun _ b _ _ s => (b, s)) false false ()
        8 8 796 0 0 116 ttLower116 0 0 0 false true (moveStart 98 99)).state.extension
        = upstream.DEPTH_ZERO ∨
      (search_step13 oneMovePos upstream defaultEnv (fun _ b _ _ s => (b, s)) false false ()
        8 8 796 0 0 116 ttLower116 0 0 0 false true (moveStart 98 99)).state.extension
        = upstream.ONE_PLY) :=
  ⟨rfl, by decide, by decide,
   (extension_never_stacks oneMovePos upstream defaultEnv (fun _ b _ _ s => (b, s)) false false
      () 8 8 796 0 0 116 ttLower116 0 0 0 false true (moveStart 98 99) rfl (by decide)).1⟩

/-- C16: for every reduction `r` (of any sign) and every `newDepth ≥ ONE_PLY`, with
`r'` the reduction after the Shashin cap, the reduced depth
`d = max(newDepth − max(r', 0), ONE_PLY)` satisfies `ONE_PLY ≤ d ≤ newDepth`; the
reduced null-window search is made at `d`, and the full-depth null-window search at
`newDepth` is made exactly when the reduced search returned `value > alpha` and
`d ≠ newDepth` (`DEPTH_ZERO = 0`). -/
theorem lmr_depth_clamp_and_research {σ : Type} (K : Params) (E : SearchEnv)
    (child : Int → Int → Int → Bool → σ → Int × σ) (train : σ → σ)
    (PvNode cutNode : Bool) (r newDepth alpha rootDepth shashinMaxLmr moveCount : Int)
    (trainPerc : Bool) (prediction : Int) (value : Int) (s : σ) (d : Int)
    (hz : K.DEPTH_ZERO = 0) (hnew : K.ONE_PLY ≤ newDepth)
    (hd : d = max (newDepth - max (shashin_lmr_cap K r newDepth rootDepth shashinMaxLmr) 0)
      K.ONE_PLY) :
    K.ONE_PLY ≤ d ∧ d ≤ newDepth ∧
    (search_step16_17 K E child train PvNode cutNode true r newDepth alpha rootDepth
      shashinMaxLmr moveCount trainPerc prediction value s).d = some d ∧
    ((search_step16_17 K E child train PvNode cutNode true r newDepth alpha rootDepth
        shashinMaxLmr moveCount trainPerc prediction value s).doFullDepthSearch = true ↔
      (-(child (-(alpha + 1)) (-alpha) d true s).1 > alpha ∧ d ≠ newDepth)) ∧
    ((search_step16_17 K E child train PvNode cutNode true r newDepth alpha rootDepth
        shashinMaxLmr moveCount trainPerc prediction value s).calls =
      if (search_step16_17 K E child train PvNode cutNode true r newDepth alpha rootDepth
        shashinMaxLmr moveCount trainPerc prediction value s).doFullDepthSearch
      then [(-(alpha + 1), -alpha, d, true), (-(alpha + 1), -alpha, newDepth, !cutNode)]
      else [(-(alpha + 1), -alpha, d, true)]) := by
  have h1 : K.ONE_PLY ≤ d := by rw [hd]; exact le_max_right _ _
  have h2 : d ≤ newDepth := by
    rw [hd]
    apply max_le _ hnew
    have := le_max_right (shashin_lmr_cap K r newDepth rootDepth shashinMaxLmr) 0
    omega
  refine ⟨h1, h2, ?_, ?_, ?_⟩
  · simp only [search_step16_17, hz, if_true, ← hd]
    split_ifs <;> rfl
  · simp only [search_step16_17, hz, if_true, ← hd]
    split_ifs with h <;> simp_all
  · simp only [search_step16_17, hz, if_true, ← hd]
    split_ifs with h <;> simp_all

/-- Instance of C16: `newDepth = 6`, `r = 2` gives `d = 4`; the reduced search returns
above `alpha`, so the move is searched again at depth 6. -/
theorem lmr_depth_clamp_and_research_witness :
    upstream.DEPTH_ZERO = 0 ∧ upstream.ONE_PLY ≤ 6 ∧
    (4 : Int) = max (6 - max (shashin_lmr_cap upstream 2 6 10 63) 0) upstream.ONE_PLY ∧
    (search_step16_17 upstream defaultEnv (fun _ _ _ _ (t : Unit) => (-60, t)) (fun t => t)
      false false true 2 6 50 10 63 3 false 0 0 ()).calls
      = [(-51, -50, 4, true), (-51, -50, 6, true)] ∧
    (upstream.ONE_PLY ≤ 4 ∧ (4 : Int) ≤ 6) :=
  ⟨rfl, by decide, by decide, by decide,
   ⟨(lmr_depth_clamp_and_research upstream defaultEnv (fun _ _ _ _ (t : Unit) => (-60, t))
      (fun t => t) false false 2 6 50 10 63 3 false 0 0 () 4 rfl (by decide) (by decide)).1,
    (lmr_depth_clamp_and_research upstream defaultEnv (fun _ _ _ _ (t : Unit) => (-60, t))
      (fun t => t) false false 2 6 50 10 63 3 false 0 0 () 4 rfl (by decide) (by decide)).2.1⟩⟩

/-- C18 (as stated, refuted): with `nullValue = 100 ≥ beta = 0`, `depth = 12·ONE_PLY`,
`R = 4` and no verification in progress (`nmpMinPly = 0`), `search` does not return at
once: it runs the verification search at depth 8 with `nmpMinPly = 3 + 3·8/4 = 9`,
and when that fails low it goes on to Step 10.  With a verification in progress
(`nmpMinPly = 5`) it returns 100 without a verification search. -/
theorem null_move_verifies_at_depth_12 :
    (nullMoveStart (-1) 0 0).nmpMinPly = 0 ∧
    (search_step9_tail upstream defaultEnv (fun _ _ _ _ t => (-50, t)) 8 1 12 4 0 100
      (nullMoveStart (-1) 0 0)).calls = [(-1, 0, 8, false, 9, 1)] ∧
    (search_step9_tail upstream defaultEnv (fun _ _ _ _ t => (-50, t)) 8 1 12 4 0 100
      (nullMoveStart (-1) 0 0)).flow.returned = none ∧
    (search_step9_tail upstream defaultEnv (fun _ _ _ _ t => (-50, t)) 8 1 12 4 0 100
      (nullMoveStart (-1) 0 5)).calls = [] ∧
    (search_step9_tail upstream defaultEnv (fun _ _ _ _ t => (-50, t)) 8 1 12 4 0 100
      (nullMoveStart (-1) 0 5)).flow.returned = some 100 := by
  refine ⟨?_, ?_, ?_, ?_, ?_⟩
  · decide
  · decide
  · decide
  · decide
  · decide

/-- C18 (amended): when the null-move search returns `nullValue ≥ beta`, with
`nv = beta` if `nullValue ≥ VALUE_MATE_IN_MAX_PLY` and `nv = nullValue` otherwise:
`search` returns `nv` at once, without a verification search, when a verification is in
progress (`nmpMinPly ≠ 0`) or when `|beta| < VALUE_KNOWN_WIN` and
`depth < 12·ONE_PLY`; otherwise (`nmpMinPly = 0` and a large `beta` or depth) it runs
the verification search on `(beta − 1, beta)` at `depth − R` with
`nmpMinPly = ply + 3·(depth − R)/4` and `nmpColor = us`, resets `nmpMinPly` to 0, and
returns `nv` exactly when the verification value is at least `beta`. -/
theorem null_move_cut_or_verify {T : Type} (K : Params) (E : SearchEnv)
    (child : Int → Int → Int → Bool → NullMoveState T → Int × NullMoveState T)
    (ss : Int) (us : Nat) (depth R beta nullValue : Int) (n : NullMoveState T)
    (hge : nullValue ≥ beta) :
    ((n.nmpMinPly ≠ 0 ∨ (cabs beta < K.VALUE_KNOWN_WIN ∧ depth < 12 * K.ONE_PLY)) →
      (search_step9_tail K E child ss us depth R beta nullValue n).flow.returned
        = some (if nullValue ≥ K.VALUE_MATE_IN_MAX_PLY then beta else nullValue) ∧
      (search_step9_tail K E child ss us depth R beta nullValue n).calls = [] ∧
      (search_step9_tail K E child ss us depth R beta nullValue n).flow.state.nmpMinPly
        = n.nmpMinPly) ∧
    ((n.nmpMinPly = 0 ∧ ¬ (cabs beta < K.VALUE_KNOWN_WIN ∧ depth < 12 * K.ONE_PLY)) →
      (search_step9_tail K E child ss us depth R beta nullValue n).calls
        = [(beta - 1, beta, depth - R, false,
            (n.s.q.stack ss).ply + Int.tdiv (3 * (depth - R)) 4, us)] ∧
      (search_step9_tail K E child ss us depth R beta nullValue n).flow.state.nmpMinPly = 0 ∧
      (search_step9_tail K E child ss us depth R beta nullValue n).flow.returned
        = (if (child (beta - 1) beta (depth - R) false
                (verification_state n ss us depth R)).1 ≥ beta
           then some (if nullValue ≥ K.VALUE_MATE_IN_MAX_PLY then beta else nullValue)
           else none)) := by
  refine ⟨?_, ?_⟩
  · intro h
    have hc : (decide (n.nmpMinPly ≠ 0)
        || (decide (cabs beta < K.VALUE_KNOWN_WIN) && decide (depth < 12 * K.ONE_PLY)))
        = true := by
      rcases h with h | ⟨h1, h2⟩
      · simp [h]
      · simp [h1, h2]
    simp only [search_step9_tail, hge, if_true, hc]
    refine ⟨?_, ?_, ?_⟩ <;> first | rfl | trivial
  · intro h
    obtain ⟨h0, h1⟩ := h
    have hc : (decide (n.nmpMinPly ≠ 0)
        || (decide (cabs beta < K.VALUE_KNOWN_WIN) && decide (depth < 12 * K.ONE_PLY)))
        = false := by
      simp only [Bool.or_eq_false_iff, Bool.and_eq_false_iff, decide_eq_false_iff_not]
      refine ⟨by simp [h0], ?_⟩
      by_cases hb : cabs beta < K.VALUE_KNOWN_WIN
      · right
        exact fun hd => h1 ⟨hb, hd⟩
      · left
        exact hb
    simp only [search_step9_tail, hge, if_true, hc, Bool.false_eq_true, if_false]
    split_ifs <;> refine ⟨?_, ?_, ?_⟩ <;> rfl

/-- Instance of C18 (amended): at depth 5 with `beta = 0`, `nullValue = 100` and no
verification in progress the node returns 100 without a verification search. -/
theorem null_move_cut_or_verify_witness :
    (100 : Int) ≥ 0 ∧
    ((nullMoveStart (-1) 0 0).nmpMinPly ≠ 0 ∨
      (cabs 0 < upstream.VALUE_KNOWN_WIN ∧ (5 : Int) < 12 * upstream.ONE_PLY)) ∧
    (search_step9_tail upstream defaultEnv (fun _ _ _ _ t => (-50, t)) 8 1 5 3 0 100
      (nullMoveStart (-1) 0 0)).flow.returned
      = some (if (100 : Int) ≥ upstream.VALUE_MATE_IN_MAX_PLY then 0 else 100) ∧
    (search_step9_tail upstream defaultEnv (fun _ _ _ _ t => (-50, t)) 8 1 5 3 0 100
      (nullMoveStart (-1) 0 0)).calls = [] :=
  ⟨by decide, Or.inr (by decide),
   ((null_move_cut_or_verify upstream defaultEnv (fun _ _ _ _ t => (-50, t)) 8 1 5 3 0 100
      (nullMoveStart (-1) 0 0) (by decide)).1 (Or.inr (by decide))).1,
   ((null_move_cut_or_verify upstream defaultEnv (fun _ _ _ _ t => (-50, t)) 8 1 5 3 0 100
      (nullMoveStart (-1) 0 0) (by decide)).1 (Or.inr (by decide))).2.1⟩

/-- `stat_bonus` at a depth of `d` whole plies. -/
theorem stat_bonus_plies (K : Params) (h1 : 0 < K.ONE_PLY) (d : Int) :
    stat_bonus K (d * K.ONE_PLY) = if d > 17 then 0 else 29 * d * d + 138 * d - 134 := by
  unfold stat_bonus
  rw [Int.mul_tdiv_cancel _ (ne_of_gt h1)]

/-- C25: with depths in `ONE_PLY` units, `33 ≤ stat_bonus(d) ≤ 10593` for
`1 ≤ d ≤ 17`, `stat_bonus(d) < stat_bonus(d+1)` for `1 ≤ d < 17`, `stat_bonus(d) = 0`
for `d > 17`; hence `0 ≤ stat_bonus(depth) ≤ 10593` for every `depth ≥ ONE_PLY`, while
`stat_bonus(0) = −134`. -/
theorem stat_bonus_bounded_monotone (K : Params) (h1 : 0 < K.ONE_PLY) :
    (∀ d : Int, 1 ≤ d → d ≤ 17 →
      33 ≤ stat_bonus K (d * K.ONE_PLY) ∧ stat_bonus K (d * K.ONE_PLY) ≤ 10593) ∧
    (∀ d : Int, 1 ≤ d → d < 17 →
      stat_bonus K (d * K.ONE_PLY) < stat_bonus K ((d + 1) * K.ONE_PLY)) ∧
    (∀ d : Int, d > 17 → stat_bonus K (d * K.ONE_PLY) = 0) ∧
    (∀ depth : Int, K.ONE_PLY ≤ depth →
      0 ≤ stat_bonus K depth ∧ stat_bonus K depth ≤ 10593) ∧
    stat_bonus K 0 = -134 := by
  refine ⟨?_, ?_, ?_, ?_, ?_⟩
  · intro d hlo hhi
    rw [stat_bonus_plies K h1]
    have h : ¬ d > 17 := by omega
    rw [if_neg h]
    interval_cases d <;> omega
  · intro d hlo hhi
    rw [stat_bonus_plies K h1, stat_bonus_plies K h1]
    have h : ¬ d > 17 := by omega
    have h2 : ¬ d + 1 > 17 := by omega
    rw [if_neg h, if_neg h2]
    interval_cases d <;> omega
  · intro d hd
    rw [stat_bonus_plies K h1, if_pos hd]
  · intro depth hdepth
    unfold stat_bonus
    have hd0 : 0 ≤ depth := by omega
    have hq : Int.tdiv depth K.ONE_PLY = depth / K.ONE_PLY :=
      Int.tdiv_eq_ediv hd0 (le_of_lt h1)
    have hq1 : 1 ≤ depth / K.ONE_PLY := by
      have := Int.ediv_le_ediv h1 hdepth
      rwa [Int.ediv_self (ne_of_gt h1)] at this
    rw [hq]
    generalize depth / K.ONE_PLY = d at *
    simp only
    split_ifs with h
    · omega
    · have hle : d ≤ 17 := by omega
      interval_cases d <;> omega
  · unfold stat_bonus
    rw [Int.zero_tdiv]
    decide

/-- Instance of C25 at `ONE_PLY = 1`: the smallest and the largest reward. -/
theorem stat_bonus_bounded_monotone_witness :
    0 < upstream.ONE_PLY ∧ stat_bonus upstream 1 = 33 ∧ stat_bonus upstream 17 = 10593 ∧
    (∀ d : Int, d > 17 → stat_bonus upstream (d * upstream.ONE_PLY) = 0) :=
  ⟨by decide, by decide, by decide,
   (stat_bonus_bounded_monotone upstream (by decide)).2.2.1⟩

/-- The dynamic-contempt adjustment `88·v/(|v| + 200)` is at most 87 in absolute value
and has the sign of `v`. -/
theorem contempt_adjustment_bound (v : Int) :
    -87 ≤ Int.tdiv (88 * v) (cabs v + 200) ∧ Int.tdiv (88 * v) (cabs v + 200) ≤ 87 ∧
    (0 ≤ v → 0 ≤ Int.tdiv (88 * v) (cabs v + 200)) ∧
    (v ≤ 0 → Int.tdiv (88 * v) (cabs v + 200) ≤ 0) := by
  by_cases hv : 0 ≤ v
  · have hc : cabs v = v := by unfold cabs; split_ifs <;> omega
    rw [hc, tdiv_of_nonneg _ _ (by omega) (by omega)]
    have h1 : (88 * v) / (v + 200) < 88 := Int.ediv_lt_of_lt_mul (by omega) (by omega)
    have h2 : 0 ≤ (88 * v) / (v + 200) := Int.ediv_nonneg (by omega) (by omega)
    refine ⟨by omega, by omega, fun _ => h2, ?_⟩
    intro h0
    have hz : v = 0 := by omega
    subst hz
    decide
  · have hc : cabs v = -v := by unfold cabs; split_ifs <;> omega
    rw [hc, tdiv_of_nonpos _ _ (by omega) (by omega)]
    have h1 : (-(88 * v)) / (-v + 200) < 88 := Int.ediv_lt_of_lt_mul (by omega) (by omega)
    have h2 : 0 ≤ (-(88 * v)) / (-v + 200) := Int.ediv_nonneg (by omega) (by omega)
    exact ⟨by omega, by omega, fun h0 => absurd h0 hv, fun _ => by omega⟩

/-- C30: for every base contempt `ct` and every value `v`,
`Thread::updateShashinValues` sets the contempt from
`dct = ct + 88·v/(|v| + 200)` (C++ truncating division; the middlegame part is `dct`
for White and `−dct` for Black) with `|dct − ct| ≤ 87`, the adjustment having the sign
of `v` or being zero, and being zero when `v = 0`; for `|v| ≤ 24403223` the product
`88·v` fits an `int`. -/
theorem dynamic_contempt_within_87 (S : ShashinParams) (K : Params) (score ct : Int)
    (usWhite : Bool) (v : Int) :
    (updateShashinValues S K score ct usWhite v).contempt.1
      = (if usWhite then ct + Int.tdiv (88 * v) (cabs v + 200)
         else -(ct + Int.tdiv (88 * v) (cabs v + 200))) ∧
    cabs ((ct + Int.tdiv (88 * v) (cabs v + 200)) - ct) ≤ 87 ∧
    (0 ≤ v → 0 ≤ Int.tdiv (88 * v) (cabs v + 200)) ∧
    (v ≤ 0 → Int.tdiv (88 * v) (cabs v + 200) ≤ 0) ∧
    (v = 0 → (updateShashinValues S K score ct usWhite v).contempt.1
      = if usWhite then ct else -ct) ∧
    (cabs v ≤ 24403223 → toInt32 (88 * v) = 88 * v) := by
  obtain ⟨h1, h2, h3, h4⟩ := contempt_adjustment_bound v
  refine ⟨?_, ?_, h3, h4, ?_, ?_⟩
  · unfold updateShashinValues
    cases usWhite <;> simp
  · rw [cabs_le_iff]
    omega
  · intro h0
    subst h0
    unfold updateShashinValues
    cases usWhite <;> simp
  · intro hv
    rw [cabs_le_iff] at hv
    unfold toInt32
    omega

/-- What Step 5 does with a successful probe whose result cuts the node: the save and
the returned value. -/
theorem search_step5_ret {P T : Type} (X : PosOps P) (TX : TTOps T) (K : Params)
    (E : SearchEnv) (PvNode : Bool) (pos : P) (ss depth : Int) (posKey : Nat)
    (ttPv isMain : Bool) (Cardinality ProbeDepth : Int) (UseRule50 : Bool)
    (piecesCount : Int) (canCastle : Bool) (wdl : Int) (failed : Bool) (t : TbState T)
    (v : Int) (st : TbState T)
    (h : search_step5 X TX K E PvNode pos ss depth posKey ttPv isMain Cardinality ProbeDepth
      UseRule50 piecesCount canCastle wdl failed t = .ret v st) :
    v = tb_value K (t.s.q.stack ss).ply wdl (if UseRule50 then 1 else 0) ∧
    st.s.q.tt = TX.save t.s.q.tt
      { key := posKey, value := value_to_tt K v (t.s.q.stack ss).ply, pv := ttPv,
        bound := tb_bound K wdl (if UseRule50 then 1 else 0),
        depth := min (K.DEPTH_MAX - K.ONE_PLY) (depth + 6 * K.ONE_PLY),
        move := K.MOVE_NONE, eval := K.VALUE_NONE } := by
  cases UseRule50 <;> cases isMain <;>
    simp only [search_step5, Bool.false_eq_true, if_false, if_true] at h <;>
    split_ifs at h <;>
    (simp only [Flow.ret.injEq] at h
     obtain ⟨h1, h2⟩ := h
     subst h1
     subst h2
     exact ⟨rfl, rfl⟩)

/-- C29: assuming `VALUE_MATE_IN_MAX_PLY = VALUE_MATE − 2·MAX_PLY` (and the mirrored
`VALUE_MATED_IN_MAX_PLY`, `VALUE_DRAW = 0`, `VALUE_MATE_IN_MAX_PLY > 2`), at every ply
with `ply < MAX_PLY` and for `drawScore` 0 or 1: the tablebase win value
`VALUE_MATE − MAX_PLY − ply − 1` is at least `VALUE_MATE_IN_MAX_PLY`, so `value_to_tt`
maps it to `VALUE_MATE − MAX_PLY − 1` whatever the ply; the loss value is stored as
`−VALUE_MATE + MAX_PLY + 1`; the drawn value `VALUE_DRAW + 2·wdl·drawScore` lies in
`[−2, 2]` and is stored unchanged; and when Step 5 returns, it has saved exactly
`value_to_tt` of that value. -/
theorem tablebase_scores_ply_independent {P T : Type} (X : PosOps P) (TX : TTOps T)
    (K : Params) (E : SearchEnv) (PvNode : Bool) (pos : P) (ss depth : Int) (posKey : Nat)
    (ttPv isMain : Bool) (Cardinality ProbeDepth : Int) (UseRule50 : Bool)
    (piecesCount : Int) (canCastle : Bool) (wdl : Int) (failed : Bool) (t : TbState T)
    (ply ds : Int)
    (hmi : K.VALUE_MATE_IN_MAX_PLY = K.VALUE_MATE - 2 * K.MAX_PLY)
    (hmd : K.VALUE_MATED_IN_MAX_PLY = -K.VALUE_MATE + 2 * K.MAX_PLY)
    (hdraw : K.VALUE_DRAW = 0) (hbig : 2 < K.VALUE_MATE_IN_MAX_PLY)
    (hply : ply = (t.s.q.stack ss).ply) (hply1 : ply < K.MAX_PLY)
    (hds : ds = if UseRule50 then 1 else 0) :
    (wdl > ds →
      tb_value K ply wdl ds = K.VALUE_MATE - K.MAX_PLY - ply - 1 ∧
      tb_value K ply wdl ds ≥ K.VALUE_MATE_IN_MAX_PLY ∧
      value_to_tt K (tb_value K ply wdl ds) ply = K.VALUE_MATE - K.MAX_PLY - 1) ∧
    (wdl < -ds →
      tb_value K ply wdl ds = -K.VALUE_MATE + K.MAX_PLY + ply + 1 ∧
      tb_value K ply wdl ds ≤ K.VALUE_MATED_IN_MAX_PLY ∧
      value_to_tt K (tb_value K ply wdl ds) ply = -K.VALUE_MATE + K.MAX_PLY + 1) ∧
    (-ds ≤ wdl → wdl ≤ ds →
      tb_value K ply wdl ds = K.VALUE_DRAW + 2 * wdl * ds ∧
      -2 ≤ tb_value K ply wdl ds ∧ tb_value K ply wdl ds ≤ 2 ∧
      value_to_tt K (tb_value K ply wdl ds) ply = tb_value K ply wdl ds) ∧
    (∀ v st, search_step5 X TX K E PvNode pos ss depth posKey ttPv isMain Cardinality
        ProbeDepth UseRule50 piecesCount canCastle wdl failed t = .ret v st →
      v = tb_value K ply wdl ds ∧
      st.s.q.tt = TX.save t.s.q.tt
        { key := posKey, value := value_to_tt K (tb_value K ply wdl ds) ply, pv := ttPv,
          bound := tb_bound K wdl ds,
          depth := min (K.DEPTH_MAX - K.ONE_PLY) (depth + 6 * K.ONE_PLY),
          move := K.MOVE_NONE, eval := K.VALUE_NONE }) := by
  have hds01 : ds = 0 ∨ ds = 1 := by
    cases UseRule50
    · left; simpa using hds
    · right; simpa using hds
  refine ⟨?_, ?_, ?_, ?_⟩
  · intro hw
    have h1 : ¬ wdl < -ds := by omega
    have hv : tb_value K ply wdl ds = K.VALUE_MATE - K.MAX_PLY - ply - 1 := by
      simp only [tb_value, if_neg h1, if_pos hw]
    have hge : K.VALUE_MATE - K.MAX_PLY - ply - 1 ≥ K.VALUE_MATE_IN_MAX_PLY := by omega
    refine ⟨hv, by rw [hv]; exact hge, ?_⟩
    rw [hv]
    simp only [value_to_tt, if_pos hge]
    omega
  · intro hw
    have hv : tb_value K ply wdl ds = -K.VALUE_MATE + K.MAX_PLY + ply + 1 := by
      simp only [tb_value, if_pos hw]
    have hle : -K.VALUE_MATE + K.MAX_PLY + ply + 1 ≤ K.VALUE_MATED_IN_MAX_PLY := by omega
    have hnge : ¬ -K.VALUE_MATE + K.MAX_PLY + ply + 1 ≥ K.VALUE_MATE_IN_MAX_PLY := by omega
    refine ⟨hv, by rw [hv]; exact hle, ?_⟩
    rw [hv]
    simp only [value_to_tt, if_neg hnge, if_pos hle]
    omega
  · intro hlo hhi
    have h1 : ¬ wdl < -ds := by omega
    have h2 : ¬ wdl > ds := by omega
    have hv : tb_value K ply wdl ds = K.VALUE_DRAW + 2 * wdl * ds := by
      simp only [tb_value, if_neg h1, if_neg h2]
    have hr : -2 ≤ K.VALUE_DRAW + 2 * wdl * ds ∧ K.VALUE_DRAW + 2 * wdl * ds ≤ 2 := by
      rcases hds01 with h | h
      · subst h
        have : wdl = 0 := by omega
        subst this
        omega
      · subst h
        omega
    refine ⟨hv, by rw [hv]; exact hr.1, by rw [hv]; exact hr.2, ?_⟩
    rw [hv]
    have hnge : ¬ K.VALUE_DRAW + 2 * wdl * ds ≥ K.VALUE_MATE_IN_MAX_PLY := by omega
    have hnle : ¬ K.VALUE_DRAW + 2 * wdl * ds ≤ K.VALUE_MATED_IN_MAX_PLY := by omega
    simp only [value_to_tt, if_neg hnge, if_neg hnle]
  · intro v st h
    obtain ⟨h1, h2⟩ := search_step5_ret X TX K E PvNode pos ss depth posKey ttPv isMain
      Cardinality ProbeDepth UseRule50 piecesCount canCastle wdl failed t v st h
    rw [← hply, ← hds] at h1 h2
    subst h1
    exact ⟨rfl, h2⟩

/-- Instance of C29: a tablebase win probed at ply 5 and at ply 9 is stored as
`VALUE_MATE − MAX_PLY − 1 = 31871` both times. -/
theorem tablebase_scores_ply_independent_witness :
    upstream.VALUE_MATE_IN_MAX_PLY = upstream.VALUE_MATE - 2 * upstream.MAX_PLY ∧
    (5 : Int) = ((tbStart 5 (-100) 100).s.q.stack 8).ply ∧
    value_to_tt upstream (tb_value upstream 5 2 1) 5 = 31871 ∧
    value_to_tt upstream (tb_value upstream 9 2 1) 9 = 31871 ∧
    ((search_step5 oneMovePos logTT upstream defaultEnv false () 8 3 0 false true 6 1 true 5
        false 2 false (tbStart 5 (-100) 100)).state.s.q.tt.map (fun r => r.value)) = [31871] ∧
    ((2 : Int) > 1 →
      tb_value upstream 5 2 1 = upstream.VALUE_MATE - upstream.MAX_PLY - 5 - 1 ∧
      tb_value upstream 5 2 1 ≥ upstream.VALUE_MATE_IN_MAX_PLY ∧
      value_to_tt upstream (tb_value upstream 5 2 1) 5
        = upstream.VALUE_MATE - upstream.MAX_PLY - 1) :=
  ⟨by decide, by decide, by decide, by decide, by decide,
   (tablebase_scores_ply_independent oneMovePos logTT upstream defaultEnv false () 8 3 0
      false true 6 1 true 5 false 2 false (tbStart 5 (-100) 100) 5 1
      (by decide) (by decide) (by decide) (by decide) (by decide) (by decide)
      rfl).1⟩

/-- At a node that is not in check, not drawn, below `MAX_PLY` and not cut by the TT,
a stand-pat value of at least `beta` is returned at once, with the static evaluation
recorded in the frame and a save only when the probe missed. -/
theorem qsearch_stand_pat_returns {P T : Type} (X : PosOps P) (TX : TTOps T) (K : Params)
    (E : SearchEnv) (fuel : Nat) (PvNode : Bool) (pos : P) (ss : Int) (alpha beta depth : Int)
    (q : QState T)
    (hcheck : X.checkers pos = false)
    (hdraw : X.is_draw pos (q.stack ss).ply = false)
    (hply : (q.stack ss).ply < K.MAX_PLY)
    (hcut : qsearch_ttCutoff X TX K PvNode pos ss beta depth q = false)
    (hpat : qsearch_standPat X TX K pos ss q ≥ beta) :
    ∃ st, qsearch X TX K E (fuel + 1) PvNode pos ss alpha beta depth q
        = some (qsearch_standPat X TX K pos ss q, st) ∧
      (st.stack ss).staticEval = qsearch_staticEval X TX K pos ss q ∧
      st.tt = (if (TX.probe q.tt (X.key pos)).2 then q.tt
        else TX.save q.tt
          { key := X.key pos,
            value := value_to_tt K (qsearch_standPat X TX K pos ss q) (q.stack ss).ply,
            pv := false, bound := K.BOUND_LOWER, depth := K.DEPTH_NONE, move := K.MOVE_NONE,
            eval := qsearch_staticEval X TX K pos ss q }) := by
  have hne1 : ss - 1 ≠ ss := by omega
  have hne2 : ss - 1 ≠ ss + 1 := by omega
  have hne3 : ss ≠ ss + 1 := by omega
  have hply2 : ¬ (q.stack ss).ply ≥ K.MAX_PLY := by omega
  cases hhit : (TX.probe q.tt (X.key pos)).2 <;> cases PvNode <;>
    simp only [qsearch_ttCutoff, qsearch_standPat, qsearch_staticEval, hcheck, hhit,
      Bool.false_or, Bool.not_false, Bool.not_true, Bool.true_and, Bool.false_and,
      Bool.false_eq_true, if_false, if_true] at hcut hpat <;>
    simp only [qsearch, qsearch_standPat, qsearch_staticEval, hcheck, hdraw, hply2, hhit,
      setFrame_same, setFrame_other _ _ _ _ hne1, setFrame_other _ _ _ _ hne2,
      setFrame_other _ _ _ _ hne3, Bool.false_eq_true, if_false, if_true, decide_False,
      Bool.or_false, Bool.false_and, Bool.and_false, Bool.not_false, Bool.true_and,
      Bool.false_or, Bool.not_true, hcut, hpat, decide_True] <;>
    refine ⟨_, rfl, ?_, ?_⟩ <;> simp [setFrame_same]

/-- C21 (as stated, refuted): in a PV node that is not in check, with a TT hit whose
entry holds static evaluation 10 and the lower bound 500, and `beta = 100`, `qsearch`
records `ss->staticEval = 10` but starts from `bestValue = 500` (the TT value) and
returns 500 at once, although the static evaluation is below `beta`. -/
theorem qsearch_stand_pat_uses_tt_value :
    (quietPos 0).checkers () = false ∧
    (hitTT.probe [] ((quietPos 0).key ())).2 = true ∧
    (qsearch (quietPos 0) hitTT upstream defaultEnv 1 true () 8 (-200) 100 0
      { tt := [], stack := stackAtPly 3, randCalls := 0 }).map (fun r => r.1) = some 500 ∧
    (qsearch (quietPos 0) hitTT upstream defaultEnv 1 true () 8 (-200) 100 0
      { tt := [], stack := stackAtPly 3, randCalls := 0 }).map
        (fun r => (r.2.stack 8).staticEval) = some 10 ∧
    (10 : Int) < 100 := by
  refine ⟨?_, ?_, ?_, ?_, ?_⟩ <;> decide

/-- C21 (amended): for every position not in check that is not drawn by rule, is below
`MAX_PLY` and is not cut off by the TT entry, the static evaluation recorded in
`ss->staticEval` is the TT entry's evaluation on a hit (or `evaluate(pos)` when that is
`VALUE_NONE`) and the fresh evaluation otherwise; the initial `bestValue` equals it
when the probe misses, and on a hit it is the TT value whenever that is not
`VALUE_NONE` and the entry's bound contains `BOUND_LOWER` (TT value above the static
evaluation) or `BOUND_UPPER` (otherwise).  If the initial `bestValue` is at least
`beta`, `qsearch` returns it at once; otherwise `qsearch` is its moves loop started
with this `bestValue` and this `ss->staticEval`, followed by the steps after the
loop. -/
theorem qsearch_stand_pat {P T : Type} (X : PosOps P) (TX : TTOps T) (K : Params)
    (E : SearchEnv) (fuel : Nat) (PvNode : Bool) (pos : P) (ss : Int) (alpha beta depth : Int)
    (q : QState T)
    (hcheck : X.checkers pos = false)
    (hdraw : X.is_draw pos (q.stack ss).ply = false)
    (hply : (q.stack ss).ply < K.MAX_PLY)
    (hcut : qsearch_ttCutoff X TX K PvNode pos ss beta depth q = false) :
    ((TX.probe q.tt (X.key pos)).2 = false →
      qsearch_standPat X TX K pos ss q = qsearch_staticEval X TX K pos ss q) ∧
    ((TX.probe q.tt (X.key pos)).2 = true →
      qsearch_standPat X TX K pos ss q
        = if value_from_tt K (TX.probe q.tt (X.key pos)).1.value (q.stack ss).ply
              ≠ K.VALUE_NONE
            ∧ bound_has (TX.probe q.tt (X.key pos)).1.bound
                (if value_from_tt K (TX.probe q.tt (X.key pos)).1.value (q.stack ss).ply
                    > qsearch_staticEval X TX K pos ss q
                 then K.BOUND_LOWER else K.BOUND_UPPER) = true
          then value_from_tt K (TX.probe q.tt (X.key pos)).1.value (q.stack ss).ply
          else qsearch_staticEval X TX K pos ss q) ∧
    (qsearch_standPat X TX K pos ss q ≥ beta →
      ∃ st, qsearch X TX K E (fuel + 1) PvNode pos ss alpha beta depth q
          = some (qsearch_standPat X TX K pos ss q, st) ∧
        (st.stack ss).staticEval = qsearch_staticEval X TX K pos ss q) ∧
    (qsearch_standPat X TX K pos ss q < beta →
      (qsearch_loopStart X TX K PvNode pos ss alpha q).bestValue
        = qsearch_standPat X TX K pos ss q ∧
      ((qsearch_loopStart X TX K PvNode pos ss alpha q).st.stack ss).staticEval
        = qsearch_staticEval X TX K pos ss q ∧
      qsearch X TX K E (fuel + 1) PvNode pos ss alpha beta depth q
        = (qsearch_loop X K (fun p s a b d st => qsearch X TX K E fuel PvNode p s a b d st)
            PvNode (X.checkers pos) pos ss beta depth (qsearch_futilityBase X TX K pos ss q)
            (qsearch_moves X TX K pos ss depth q)
            (qsearch_loopStart X TX K PvNode pos ss alpha q)).map
          (qsearch_finish X TX K E PvNode pos ss alpha beta depth q)) := by
  refine ⟨?_, ?_, ?_, ?_⟩
  · intro hmiss
    simp [qsearch_standPat, hmiss]
  · intro hhit
    simp only [qsearch_standPat, hhit, if_true, Bool.true_and]
    split_ifs <;> simp_all
  · intro hpat
    obtain ⟨st, h1, h2, _⟩ := qsearch_stand_pat_returns X TX K E fuel PvNode pos ss alpha beta
      depth q hcheck hdraw hply hcut hpat
    exact ⟨st, h1, h2⟩
  · intro hpat
    refine ⟨?_, ?_, ?_⟩
    · simp [qsearch_loopStart, hcheck]
    · simp [qsearch_loopStart, hcheck, setFrame_same]
    · exact qsearch_runs_loop X TX K E fuel PvNode pos ss alpha beta depth q hdraw hply hcut
        (Or.inr hpat)

/-- Instance of C21 (amended): a PV node with a TT hit holding evaluation 10 and the
lower bound 500.  With `beta = 100` the node stands pat on 500; with `beta = 600` the
moves loop starts from `bestValue = 500` with `ss->staticEval = 10`, and `qsearch`
returns 500. -/
theorem qsearch_stand_pat_witness :
    (quietPos 0).checkers () = false ∧
    qsearch_ttCutoff (quietPos 0) hitTT upstream true () 8 600 0
      { tt := [], stack := stackAtPly 3, randCalls := 0 } = false ∧
    qsearch_standPat (quietPos 0) hitTT upstream () 8
      { tt := [], stack := stackAtPly 3, randCalls := 0 } = 500 ∧
    qsearch_staticEval (quietPos 0) hitTT upstream () 8
      { tt := [], stack := stackAtPly 3, randCalls := 0 } = 10 ∧
    (∃ st, qsearch (quietPos 0) hitTT upstream defaultEnv 1 true () 8 (-200) 100 0
        { tt := [], stack := stackAtPly 3, randCalls := 0 }
        = some (qsearch_standPat (quietPos 0) hitTT upstream () 8
          { tt := [], stack := stackAtPly 3, randCalls := 0 }, st) ∧
      (st.stack 8).staticEval = qsearch_staticEval (quietPos 0) hitTT upstream () 8
          { tt := [], stack := stackAtPly 3, randCalls := 0 }) ∧
    (qsearch_loopStart (quietPos 0) hitTT upstream true () 8 (-200)
        { tt := [], stack := stackAtPly 3, randCalls := 0 }).bestValue
      = qsearch_standPat (quietPos 0) hitTT upstream () 8
          { tt := [], stack := stackAtPly 3, randCalls := 0 } ∧
    (qsearch (quietPos 0) hitTT upstream defaultEnv 1 true () 8 (-200) 600 0
      { tt := [], stack := stackAtPly 3, randCalls := 0 }).map (fun r => r.1) = some 500 :=
  ⟨rfl, by decide, by decide, by decide,
   (qsearch_stand_pat (quietPos 0) hitTT upstream defaultEnv 0 true () 8 (-200) 100 0
      { tt := [], stack := stackAtPly 3, randCalls := 0 } rfl rfl (by decide)
      (by decide)).2.2.1 (by decide),
   ((qsearch_stand_pat (quietPos 0) hitTT upstream defaultEnv 0 true () 8 (-200) 600 0
      { tt := [], stack := stackAtPly 3, randCalls := 0 } rfl rfl (by decide)
      (by decide)).2.2.2 (by decide)).1,
   by decide⟩

theorem SavesSince.cons (K : Params) (a b : List TTSave) (r : TTSave)
    (h : SavesSince K a b) (hr : qs_depth_code K r = true) : SavesSince K a (r :: b) := by
  obtain ⟨x, hx, hx2⟩ := h
  refine ⟨r :: x, by rw [hx]; rfl, ?_⟩
  intro r2 h2
  rcases List.mem_cons.mp h2 with h | h
  · rw [h]; exact hr
  · exact hx2 r2 h

/-- Step 19 keeps the searched-move counters within the arrays, writes only below the
old counter, and records a move only when it is not the best move. -/
theorem search_step19_buffers {T : Type} (K : Params) (E : SearchEnv) (PvNode : Bool)
    (ss : Int) (move : Nat) (value : Int) (captureOrPromotion isMain stop : Bool)
    (s : SearchState T) (hc : s.loc.captureCount ≤ 32) (hq : s.loc.quietCount ≤ 64) :
    (search_step19 K E PvNode ss move value captureOrPromotion isMain stop s).state.loc.captureCount
      ≤ 32 ∧
    (search_step19 K E PvNode ss move value captureOrPromotion isMain stop s).state.loc.quietCount
      ≤ 64 ∧
    (∀ j, 32 ≤ j →
      (search_step19 K E PvNode ss move value captureOrPromotion isMain stop
        s).state.loc.capturesSearched j = s.loc.capturesSearched j) ∧
    (∀ j, 64 ≤ j →
      (search_step19 K E PvNode ss move value captureOrPromotion isMain stop
        s).state.loc.quietsSearched j = s.loc.quietsSearched j) := by
  unfold search_step19
  lift_lets
  intro rootNode l childPv better rootMoves1 src1 th1 changes1 s1 record line src2 frame src3
    q1 src4 frame0
  have hrec : ∀ t : SearchState T, t.loc.captureCount ≤ 32 → t.loc.quietCount ≤ 64 →
      (record t).loc.captureCount ≤ 32 ∧ (record t).loc.quietCount ≤ 64 ∧
      (∀ j, 32 ≤ j → (record t).loc.capturesSearched j = t.loc.capturesSearched j) ∧
      (∀ j, 64 ≤ j → (record t).loc.quietsSearched j = t.loc.quietsSearched j) := by
    intro t h1 h2
    simp only [record]
    split_ifs with ha hb hd
    · simp only [Bool.and_eq_true, decide_eq_true_eq] at hb
      refine ⟨by show t.loc.captureCount + 1 ≤ 32; omega, h2, ?_, fun _ _ => rfl⟩
      intro j hj
      show setAt t.loc.capturesSearched t.loc.captureCount move j = _
      exact setAt_ne _ _ _ _ (by omega)
    · simp only [Bool.and_eq_true, decide_eq_true_eq] at hd
      refine ⟨h1, by show t.loc.quietCount + 1 ≤ 64; omega, fun _ _ => rfl, ?_⟩
      intro j hj
      show setAt t.loc.quietsSearched t.loc.quietCount move j = _
      exact setAt_ne _ _ _ _ (by omega)
    · exact ⟨h1, h2, fun _ _ => rfl, fun _ _ => rfl⟩
    · exact ⟨h1, h2, fun _ _ => rfl, fun _ _ => rfl⟩
  split_ifs <;>
    first
      | exact hrec _ hc hq
      | exact ⟨hc, hq, fun _ _ => rfl, fun _ _ => rfl⟩

/-- Step 19 either leaves a searched-move buffer alone or appends `move` at the old
counter, below the array size, and only when `move` is not the best move. -/
theorem search_step19_record {T : Type} (K : Params) (E : SearchEnv) (PvNode : Bool)
    (ss : Int) (move : Nat) (value : Int) (captureOrPromotion isMain stop : Bool)
    (s : SearchState T) :
    (((search_step19 K E PvNode ss move value captureOrPromotion isMain stop
          s).state.loc.captureCount = s.loc.captureCount ∧
        (search_step19 K E PvNode ss move value captureOrPromotion isMain stop
          s).state.loc.capturesSearched = s.loc.capturesSearched) ∨
      (captureOrPromotion = true ∧ s.loc.captureCount < 32 ∧
        (search_step19 K E PvNode ss move value captureOrPromotion isMain stop
          s).state.loc.captureCount = s.loc.captureCount + 1 ∧
        (search_step19 K E PvNode ss move value captureOrPromotion isMain stop
          s).state.loc.capturesSearched
          = setAt s.loc.capturesSearched s.loc.captureCount move ∧
        move ≠ (search_step19 K E PvNode ss move value captureOrPromotion isMain stop
          s).state.loc.bestMove)) ∧
    (((search_step19 K E PvNode ss move value captureOrPromotion isMain stop
          s).state.loc.quietCount = s.loc.quietCount ∧
        (search_step19 K E PvNode ss move value captureOrPromotion isMain stop
          s).state.loc.quietsSearched = s.loc.quietsSearched) ∨
      (captureOrPromotion = false ∧ s.loc.quietCount < 64 ∧
        (search_step19 K E PvNode ss move value captureOrPromotion isMain stop
          s).state.loc.quietCount = s.loc.quietCount + 1 ∧
        (search_step19 K E PvNode ss move value captureOrPromotion isMain stop
          s).state.loc.quietsSearched
          = setAt s.loc.quietsSearched s.loc.quietCount move ∧
        move ≠ (search_step19 K E PvNode ss move value captureOrPromotion isMain stop
          s).state.loc.bestMove)) := by
  unfold search_step19
  lift_lets
  intro rootNode l childPv better rootMoves1 src1 th1 changes1 s1 record line src2 frame src3
    q1 src4 frame0
  have hrec : ∀ t : SearchState T,
      (((record t).loc.captureCount = t.loc.captureCount ∧
          (record t).loc.capturesSearched = t.loc.capturesSearched) ∨
        (captureOrPromotion = true ∧ t.loc.captureCount < 32 ∧
          (record t).loc.captureCount = t.loc.captureCount + 1 ∧
          (record t).loc.capturesSearched = setAt t.loc.capturesSearched t.loc.captureCount move ∧
          move ≠ (record t).loc.bestMove)) ∧
      (((record t).loc.quietCount = t.loc.quietCount ∧
          (record t).loc.quietsSearched = t.loc.quietsSearched) ∨
        (captureOrPromotion = false ∧ t.loc.quietCount < 64 ∧
          (record t).loc.quietCount = t.loc.quietCount + 1 ∧
          (record t).loc.quietsSearched = setAt t.loc.quietsSearched t.loc.quietCount move ∧
          move ≠ (record t).loc.bestMove)) := by
    intro t
    simp only [record]
    split_ifs with ha hb hd
    · simp only [Bool.and_eq_true, decide_eq_true_eq] at hb
      exact ⟨Or.inr ⟨hb.1, hb.2, rfl, rfl, ha⟩, Or.inl ⟨rfl, rfl⟩⟩
    · simp only [Bool.and_eq_true, decide_eq_true_eq, Bool.not_eq_true'] at hd
      exact ⟨Or.inl ⟨rfl, rfl⟩, Or.inr ⟨hd.1, hd.2, rfl, rfl, ha⟩⟩
    · exact ⟨Or.inl ⟨rfl, rfl⟩, Or.inl ⟨rfl, rfl⟩⟩
    · exact ⟨Or.inl ⟨rfl, rfl⟩, Or.inl ⟨rfl, rfl⟩⟩
  split_ifs <;>
    first
      | exact hrec _
      | exact ⟨Or.inl ⟨rfl, rfl⟩, Or.inl ⟨rfl, rfl⟩⟩

/-- The counters stay within the arrays over the whole moves loop, and nothing is
written at or beyond the array sizes. -/
theorem search_moves_loop_buffers {T : Type} (K : Params) (E : SearchEnv) (PvNode : Bool)
    (ss : Int) (isMain : Bool) (outcomes : List (MoveOutcome T)) :
    ∀ s : SearchState T, s.loc.captureCount ≤ 32 → s.loc.quietCount ≤ 64 →
      (search_moves_loop K E PvNode ss isMain outcomes s).state.loc.captureCount ≤ 32 ∧
      (search_moves_loop K E PvNode ss isMain outcomes s).state.loc.quietCount ≤ 64 ∧
      (∀ j, 32 ≤ j → (search_moves_loop K E PvNode ss isMain outcomes s).state.loc.capturesSearched j
        = s.loc.capturesSearched j) ∧
      (∀ j, 64 ≤ j → (search_moves_loop K E PvNode ss isMain outcomes s).state.loc.quietsSearched j
        = s.loc.quietsSearched j) := by
  induction outcomes with
  | nil =>
    intro s hc hq
    exact ⟨hc, hq, fun _ _ => rfl, fun _ _ => rfl⟩
  | cons o rest ih =>
    intro s hc hq
    have hstep := search_step19_buffers K E PvNode ss o.move o.value o.captureOrPromotion
      isMain o.stop
      { s with loc := { s.loc with moveCount := o.moveCount }, th := o.th, q := o.q } hc hq
    simp only [search_moves_loop]
    cases hr : search_step19 K E PvNode ss o.move o.value o.captureOrPromotion isMain o.stop
        { s with loc := { s.loc with moveCount := o.moveCount }, th := o.th, q := o.q } with
    | next s1 =>
      rw [hr] at hstep
      obtain ⟨h1, h2, h3, h4⟩ := hstep
      obtain ⟨g1, g2, g3, g4⟩ := ih s1 h1 h2
      refine ⟨g1, g2, ?_, ?_⟩
      · intro j hj
        rw [g3 j hj]
        exact h3 j hj
      · intro j hj
        rw [g4 j hj]
        exact h4 j hj
    | brk s1 =>
      rw [hr] at hstep
      exact hstep
    | ret v s1 =>
      rw [hr] at hstep
      exact hstep

/-- Step 1 starts every node with empty searched-move buffers. -/
theorem search_step1_3_counts {P T : Type} (X : PosOps P) (K : Params) (E : SearchEnv)
    (PvNode : Bool) (pos : P) (ss : Int) (alpha beta depth : Int)
    (isMain : Bool) (L : LimitsType) (clock : ClockEnv) (raised : Bool)
    (mt : MainThreadState) (s : SearchState T) :
    (search_step1_3 X K E PvNode pos ss alpha beta depth isMain L clock raised mt
      s).1.state.loc.captureCount = 0 ∧
    (search_step1_3 X K E PvNode pos ss alpha beta depth isMain L clock raised mt
      s).1.state.loc.quietCount = 0 := by
  unfold search_step1_3
  lift_lets
  intros
  rename_i flow
  show flow.state.loc.captureCount = 0 ∧ flow.state.loc.quietCount = 0
  simp only [flow]
  split_ifs <;> exact ⟨rfl, rfl⟩

/-- C24: the searched-move buffers are never overrun.  Step 1 sets both counters to 0;
from any state with `captureCount ≤ 32` and `quietCount ≤ 64`, after any number of moves
passed through Step 19 the counters are still at most 32 and 64 and no element at index
32 (captures) or 64 (quiets) or above has been written; in each pass a buffer is either
left alone or gets `move` at the old counter, which is below the array size, and only
when `move` is not the current `bestMove`. -/
theorem searched_move_buffers {P T : Type} (X : PosOps P) (K : Params) (E : SearchEnv)
    (PvNode : Bool) (pos : P) (ss : Int) (alpha beta depth : Int)
    (isMain : Bool) (L : LimitsType) (clock : ClockEnv) (raised : Bool)
    (mt : MainThreadState) (s0 : SearchState T)
    (outcomes : List (MoveOutcome T)) (s : SearchState T)
    (hc : s.loc.captureCount ≤ 32) (hq : s.loc.quietCount ≤ 64) :
    ((search_step1_3 X K E PvNode pos ss alpha beta depth isMain L clock raised mt
        s0).1.state.loc.captureCount = 0 ∧
      (search_step1_3 X K E PvNode pos ss alpha beta depth isMain L clock raised mt
        s0).1.state.loc.quietCount = 0) ∧
    ((search_moves_loop K E PvNode ss isMain outcomes s).state.loc.captureCount ≤ 32 ∧
      (search_moves_loop K E PvNode ss isMain outcomes s).state.loc.quietCount ≤ 64 ∧
      (∀ j, 32 ≤ j →
        (search_moves_loop K E PvNode ss isMain outcomes s).state.loc.capturesSearched j
          = s.loc.capturesSearched j) ∧
      (∀ j, 64 ≤ j →
        (search_moves_loop K E PvNode ss isMain outcomes s).state.loc.quietsSearched j
          = s.loc.quietsSearched j)) ∧
    (∀ (move : Nat) (value : Int) (captureOrPromotion stop : Bool) (t : SearchState T),
      (((search_step19 K E PvNode ss move value captureOrPromotion isMain stop
            t).state.loc.captureCount = t.loc.captureCount ∧
          (search_step19 K E PvNode ss move value captureOrPromotion isMain stop
            t).state.loc.capturesSearched = t.loc.capturesSearched) ∨
        (captureOrPromotion = true ∧ t.loc.captureCount < 32 ∧
          (search_step19 K E PvNode ss move value captureOrPromotion isMain stop
            t).state.loc.captureCount = t.loc.captureCount + 1 ∧
          (search_step19 K E PvNode ss move value captureOrPromotion isMain stop
            t).state.loc.capturesSearched
            = setAt t.loc.capturesSearched t.loc.captureCount move ∧
          move ≠ (search_step19 K E PvNode ss move value captureOrPromotion isMain stop
            t).state.loc.bestMove)) ∧
      (((search_step19 K E PvNode ss move value captureOrPromotion isMain stop
            t).state.loc.quietCount = t.loc.quietCount ∧
          (search_step19 K E PvNode ss move value captureOrPromotion isMain stop
            t).state.loc.quietsSearched = t.loc.quietsSearched) ∨
        (captureOrPromotion = false ∧ t.loc.quietCount < 64 ∧
          (search_step19 K E PvNode ss move value captureOrPromotion isMain stop
            t).state.loc.quietCount = t.loc.quietCount + 1 ∧
          (search_step19 K E PvNode ss move value captureOrPromotion isMain stop
            t).state.loc.quietsSearched
            = setAt t.loc.quietsSearched t.loc.quietCount move ∧
          move ≠ (search_step19 K E PvNode ss move value captureOrPromotion isMain stop
            t).state.loc.bestMove))) :=
  ⟨search_step1_3_counts X K E PvNode pos ss alpha beta depth isMain L clock raised mt s0,
   search_moves_loop_buffers K E PvNode ss isMain outcomes s hc hq,
   fun move value captureOrPromotion stop t =>
     search_step19_record K E PvNode ss move value captureOrPromotion isMain stop t⟩

/-- Instance of C24: seventy quiet moves that all fail low at a non-root node: 64 of
them are recorded, the last one at index 63, and the count stops at 64. -/
theorem searched_move_buffers_witness :
    (freshState 3 (-10) 10 false).loc.captureCount ≤ 32 ∧
    (freshState 3 (-10) 10 false).loc.quietCount ≤ 64 ∧
    (search_moves_loop upstream defaultEnv false 8 false (quietOutcomes 70)
      (freshState 3 (-10) 10 false)).state.loc.quietCount = 64 ∧
    (search_moves_loop upstream defaultEnv false 8 false (quietOutcomes 70)
      (freshState 3 (-10) 10 false)).state.loc.quietsSearched 63 = 163 ∧
    (search_moves_loop upstream defaultEnv false 8 false (quietOutcomes 70)
      (freshState 3 (-10) 10 false)).state.loc.captureCount ≤ 32 :=
  ⟨by decide, by decide, by decide, by decide,
   (searched_move_buffers (quietPos 0) upstream defaultEnv false () 8 (-10) 10 5 false
      limitsNoNodes clockEarly false mainThreadDue (freshState 3 (-10) 10 false)
      (quietOutcomes 70) (freshState 3 (-10) 10 false) (by decide) (by decide)).2.1.1⟩

/-- The push term is never negative, whatever the operands. -/
theorem pick_best_push_nonneg (weakness topScore score delta : Int) (rnd : Nat) :
    0 ≤ pick_best_push weakness topScore score delta rnd ∧
    pick_best_push weakness topScore score delta rnd < 2 ^ 25 := by
  unfold pick_best_push
  simp only []
  generalize toInt32 (weakness * toInt32 (topScore - score)) +
    toUInt32 (toUInt32 delta * (Int.ofNat (rnd % 2 ^ 32) % toUInt32 weakness)) = y
  unfold toInt32 toUInt32
  norm_num
  omega

theorem toInt32_of_small (x : Int) (h0 : -2 ^ 31 ≤ x) (h1 : x < 2 ^ 31) : toInt32 x = x := by
  unfold toInt32
  norm_num at *
  omega

theorem toUInt32_of_small (x : Int) (h0 : 0 ≤ x) (h1 : x < 2 ^ 32) : toUInt32 x = x := by
  unfold toUInt32
  norm_num at *
  omega

/-- Without overflow the push term is the plain quotient. -/
theorem pick_best_push_exact (weakness topScore score delta : Int) (rnd : Nat)
    (hw : 0 < weakness) (hw2 : weakness < 2 ^ 31) (hd : 0 ≤ topScore - score)
    (hdelta : 0 ≤ delta)
    (hsmall : weakness * (topScore - score) + delta * weakness < 2 ^ 31) :
    pick_best_push weakness topScore score delta rnd
      = (weakness * (topScore - score) + delta * (Int.ofNat (rnd % 2 ^ 32) % weakness)) / 128 := by
  have hm0 : 0 ≤ Int.ofNat (rnd % 2 ^ 32) % weakness := Int.emod_nonneg _ (by omega)
  have hm1 : Int.ofNat (rnd % 2 ^ 32) % weakness < weakness := Int.emod_lt_of_pos _ hw
  have hA0 : 0 ≤ weakness * (topScore - score) := Int.mul_nonneg (by omega) hd
  have hdw0 : 0 ≤ delta * weakness := Int.mul_nonneg hdelta (by omega)
  have hB0 : 0 ≤ delta * (Int.ofNat (rnd % 2 ^ 32) % weakness) := Int.mul_nonneg hdelta hm0
  have hB1 : delta * (Int.ofNat (rnd % 2 ^ 32) % weakness) ≤ delta * weakness :=
    Int.mul_le_mul_of_nonneg_left (by omega) hdelta
  have hd1 : topScore - score ≤ weakness * (topScore - score) := by nlinarith
  have hdl : delta ≤ delta * weakness := by nlinarith
  unfold pick_best_push
  simp only []
  rw [toInt32_of_small (topScore - score) (by norm_num; omega) (by omega),
    toInt32_of_small (weakness * (topScore - score)) (by norm_num; omega) (by omega),
    toUInt32_of_small delta hdelta (by norm_num at *; omega),
    toUInt32_of_small weakness (by omega) (by norm_num at *; omega),
    toUInt32_of_small (delta * _) hB0 (by norm_num at *; omega),
    toUInt32_of_small (_ + _) (by omega) (by norm_num at *; omega)]
  apply toInt32_of_small
  · have : 0 ≤ (weakness * (topScore - score)
        + delta * (Int.ofNat (rnd % 2 ^ 32) % weakness)) / 128 :=
      Int.ediv_nonneg (by omega) (by norm_num)
    omega
  · have : (weakness * (topScore - score)
        + delta * (Int.ofNat (rnd % 2 ^ 32) % weakness)) / 128
        ≤ weakness * (topScore - score) + delta * (Int.ofNat (rnd % 2 ^ 32) % weakness) :=
      Int.ediv_le_self _ (by omega)
    omega

/-- Once `best` is the first PV move of a candidate, it stays one. -/
theorem pick_best_loop_mem (weakness topScore delta : Int) (rand : Nat → Nat)
    (all : List RootMove) :
    ∀ (rest : List RootMove) (i : Nat) (acc : Int × Nat),
      (∀ rm ∈ rest, rm ∈ all) → (∃ rm ∈ all, acc.2 = rm.pv.headD 0) →
      ∃ rm ∈ all, (pick_best_loop weakness topScore delta rand rest i acc).2 = rm.pv.headD 0 := by
  intro rest
  induction rest with
  | nil =>
    intro i acc _ hacc
    exact hacc
  | cons a rest ih =>
    intro i acc hall hacc
    have hrest : ∀ rm ∈ rest, rm ∈ all := fun rm h => hall rm (List.mem_cons_of_mem _ h)
    simp only [pick_best_loop]
    split_ifs
    · exact ih _ _ hrest ⟨a, hall a (List.mem_cons_self _ _), rfl⟩
    · exact ih _ _ hrest hacc

/-- C27: `Skill::pick_best` always picks one of the candidates.  For every level with
`120 − 2·level > 0`, every `multiPV` with `1 ≤ multiPV ≤ rootMoves.size()`, every list
of root moves with scores `≥ −VALUE_INFINITE` and every sequence of random numbers,
each push term is `≥ 0` (and below `2^25`), and the returned move, which is also the
new `best`, is `pv[0]` of one of the first `multiPV` root moves.  When the list is
sorted by non-increasing score and nothing overflows, the push term is
`(weakness·(topScore − score) + delta·(rand mod weakness)) / 128`. -/
theorem pick_best_picks_candidate (K : Params) (level : Int) (best : Nat)
    (rootMoves : List RootMove) (multiPV : Nat) (rand : Nat → Nat)
    (hw : 0 < 120 - 2 * level) (h1 : 1 ≤ multiPV) (h2 : multiPV ≤ rootMoves.length)
    (hs : ∀ rm ∈ rootMoves, -K.VALUE_INFINITE ≤ rm.score) :
    (∀ (topScore score delta : Int) (rnd : Nat),
      0 ≤ pick_best_push (120 - 2 * level) topScore score delta rnd ∧
      pick_best_push (120 - 2 * level) topScore score delta rnd < 2 ^ 25) ∧
    (∀ (topScore score delta : Int) (rnd : Nat), 120 - 2 * level < 2 ^ 31 →
      0 ≤ topScore - score → 0 ≤ delta →
      (120 - 2 * level) * (topScore - score) + delta * (120 - 2 * level) < 2 ^ 31 →
      pick_best_push (120 - 2 * level) topScore score delta rnd
        = ((120 - 2 * level) * (topScore - score)
            + delta * (Int.ofNat (rnd % 2 ^ 32) % (120 - 2 * level))) / 128) ∧
    (∃ rm ∈ rootMoves.take multiPV,
      pick_best K level best rootMoves multiPV rand = some (rm.pv.headD 0)) := by
  refine ⟨fun t sc d r => pick_best_push_nonneg _ t sc d r,
    fun t sc d r hw2 hd hdl hsm => pick_best_push_exact _ t sc d r hw hw2 hd hdl hsm, ?_⟩
  have hlen0 : 0 < rootMoves.length := by omega
  have hlen1 : multiPV - 1 < rootMoves.length := by omega
  obtain ⟨top, htop⟩ : ∃ top, rootMoves[0]? = some top :=
    ⟨rootMoves[0], List.getElem?_eq_getElem hlen0⟩
  obtain ⟨last, hlast⟩ : ∃ last, rootMoves[multiPV - 1]? = some last :=
    ⟨rootMoves[multiPV - 1], List.getElem?_eq_getElem hlen1⟩
  have hpick : pick_best K level best rootMoves multiPV rand
      = some (pick_best_loop (120 - 2 * level) top.score
          (min (top.score - last.score) K.PawnValueMg) rand (rootMoves.take multiPV) 0
          (-K.VALUE_INFINITE, best)).2 := by
    simp only [pick_best, h1, h2, and_self, if_true, htop, hlast]
  rw [hpick]
  cases hcase : rootMoves.take multiPV with
  | nil =>
    have hl := congrArg List.length hcase
    simp only [List.length_take, List.length_nil] at hl
    omega
  | cons a rest =>
    have hmem : a ∈ rootMoves := List.mem_of_mem_take (by rw [hcase]; exact List.mem_cons_self _ _)
    have hpush := (pick_best_push_nonneg (120 - 2 * level) top.score a.score
      (min (top.score - last.score) K.PawnValueMg) (rand 0)).1
    have hfirst : a.score + pick_best_push (120 - 2 * level) top.score a.score
        (min (top.score - last.score) K.PawnValueMg) (rand 0) ≥ -K.VALUE_INFINITE := by
      have := hs a hmem
      omega
    simp only [pick_best_loop, hfirst, if_true]
    obtain ⟨rm, hrm, heq⟩ := pick_best_loop_mem (120 - 2 * level) top.score
      (min (top.score - last.score) K.PawnValueMg) rand (a :: rest) rest 1
      (a.score + pick_best_push (120 - 2 * level) top.score a.score
        (min (top.score - last.score) K.PawnValueMg) (rand 0), a.pv.headD 0)
      (fun rm h => List.mem_cons_of_mem _ h) ⟨a, List.mem_cons_self _ _, rfl⟩
    exact ⟨rm, hrm, by rw [heq]⟩

/-- Instance of C27: level 0, three candidates with scores 50, 40, 10 and moves 7, 8,
9, `multiPV = 2`, generator output 0 then 119: the second candidate's push of 18
lifts it above the first, and move 8 is picked. -/
theorem pick_best_picks_candidate_witness :
    (0 : Int) < 120 - 2 * 0 ∧ 1 ≤ 2 ∧
    2 ≤ [rootMoveOf 7 50, rootMoveOf 8 40, rootMoveOf 9 10].length ∧
    pick_best upstream 0 0 [rootMoveOf 7 50, rootMoveOf 8 40, rootMoveOf 9 10] 2
      (fun i => 119 * i) = some 8 ∧
    (∃ rm ∈ [rootMoveOf 7 50, rootMoveOf 8 40, rootMoveOf 9 10].take 2,
      pick_best upstream 0 0 [rootMoveOf 7 50, rootMoveOf 8 40, rootMoveOf 9 10] 2
        (fun i => 119 * i) = some (rm.pv.headD 0)) :=
  ⟨by decide, by decide, by decide, by decide,
   (pick_best_picks_candidate upstream 0 0
      [rootMoveOf 7 50, rootMoveOf 8 40, rootMoveOf 9 10] 2 (fun i => 119 * i)
      (by decide) (by decide) (by decide) (by decide)).2.2⟩

/-- With a recursion budget above `MAX_PLY − 2 − ply`, `playout` returns, with the root
position and the list of outstanding moves as it found them. -/
theorem playout_returns {P T : Type} (X : PosOps P) (TX : TTOps T) (K : Params)
    (pseudo_legal : P → Nat → Bool) (undo_move : P → Nat → P)
    (search : P → Int → Int → Int → Int → Bool → QState T → Int × P × QState T)
    (stop : Int → Bool) (rootDepth : Int)
    (hundo : ∀ p m, undo_move (X.do_move p m) m = p)
    (hpos : ∀ p s a b d c q, (search p s a b d c q).2.1 = p)
    (hply : ∀ p s a b d c q i, i ≤ s →
      ((search p s a b d c q).2.2.stack i).ply = (q.stack i).ply)
    (fuel : Nat) :
    ∀ (playMove : Nat) (ss playoutValue : Int) (st : PlayoutState P T),
      (K.MAX_PLY - 2 - (st.q.stack ss).ply).toNat + 1 ≤ fuel →
      ∃ v st1, playout X TX K pseudo_legal undo_move search stop rootDepth fuel playMove ss
          playoutValue st = some (v, st1) ∧
        st1.pos = st.pos ∧ st1.made = st.made ∧
        ((stop ss = true ∨ pseudo_legal st.pos playMove = false ∨
            X.legal st.pos playMove = false ∨ X.is_draw st.pos (st.q.stack ss).ply = true) →
          st1 = st) := by
  induction fuel with
  | zero =>
    intro playMove ss playoutValue st h
    omega
  | succ f ih =>
    intro playMove ss playoutValue st h
    unfold playout
    lift_lets
    intro src0 frame stack1 pos1 src1 stack2 src2 q2 d newDepth hit0 searched r value3 pos3 q3
      tte ttHit ttMove st3 finish
    have hne : ss ≠ ss + 1 := by omega
    have hpos3 : pos3 = pos1 := by
      simp only [pos3]
      split_ifs
      · exact hpos _ _ _ _ _ _ _
      · rfl
    have hq2a : (q2.stack (ss + 1)).ply = (st.q.stack ss).ply + 1 := by
      simp only [q2, stack2, stack1, setFrame_same]
    have hq2b : (q2.stack ss).ply = (st.q.stack ss).ply := by
      simp only [q2, stack2, stack1, setFrame_other _ _ _ _ hne, setFrame_same]
    have hq3a : (q3.stack (ss + 1)).ply = (st.q.stack ss).ply + 1 := by
      simp only [q3]
      split_ifs
      · rw [hply _ _ _ _ _ _ _ _ (le_refl _)]
        exact hq2a
      · exact hq2a
    have hq3b : (q3.stack ss).ply = (st.q.stack ss).ply := by
      simp only [q3]
      split_ifs
      · rw [hply _ _ _ _ _ _ _ _ (by omega)]
        exact hq2b
      · exact hq2b
    have hearly : ∀ (c1 c2 : Prop), ¬ c1 → ¬ c2 → c1 = ((stop ss || !pseudo_legal st.pos playMove
        || !X.legal st.pos playMove) = true) →
        c2 = (X.is_draw st.pos (st.q.stack ss).ply = true) →
        ¬ (stop ss = true ∨ pseudo_legal st.pos playMove = false ∨
          X.legal st.pos playMove = false ∨ X.is_draw st.pos (st.q.stack ss).ply = true) := by
      intro c1 c2 n1 n2 e1 e2 he
      subst e1
      subst e2
      simp only [Bool.or_eq_true, Bool.not_eq_true', not_or] at n1
      rcases he with he | he | he | he
      · exact n1.1.1 he
      · exact n1.1.2 he
      · exact n1.2 he
      · exact n2 he
    split_ifs with h1 h2 h3
    · exact ⟨_, _, rfl, rfl, rfl, fun _ => rfl⟩
    · exact ⟨_, _, rfl, rfl, rfl, fun _ => rfl⟩
    · simp only [Bool.and_eq_true, decide_eq_true_eq] at h3
      have hlt : (st.q.stack ss).ply < K.MAX_PLY - 2 := by
        rw [← hq3b]
        exact h3.1.2
      obtain ⟨v, st4, h4, h5, h6, _⟩ := ih ttMove (ss + 1) (-value3) st3 (by
        show (K.MAX_PLY - 2 - (q3.stack (ss + 1)).ply).toNat + 1 ≤ f
        rw [hq3a]
        omega)
      rw [h4]
      refine ⟨_, _, rfl, ?_, ?_, fun he => absurd he (hearly _ _ h1 h2 rfl rfl)⟩
      · show undo_move st4.pos playMove = st.pos
        rw [h5]
        show undo_move pos3 playMove = st.pos
        rw [hpos3]
        exact hundo _ _
      · show st4.made.tail = st.made
        rw [h6]
        rfl
    · refine ⟨_, _, rfl, ?_, rfl, fun he => absurd he (hearly _ _ h1 h2 rfl rfl)⟩
      show undo_move pos3 playMove = st.pos
      rw [hpos3]
      exact hundo _ _

/-- C28: `Thread::playout` leaves the root position as it found it.  Assuming that
`undo_move` takes back `do_move`, that the nested search restores the position it is
given and leaves alone the `ply` of the frame it is called on and of the frames below:
for every move, every result of the nested search and every TT content, `playout`
returns within `MAX_PLY − 2 − ply + 1` nested calls (it recurses only while
`ply < MAX_PLY − 2`, and the nested frame has `ply + 1`), the root position and the list
of moves not taken back are the same as at entry, and on the early returns (stop,
move not pseudo-legal or not legal, draw) nothing at all has changed. -/
theorem playout_restores_root {P T : Type} (X : PosOps P) (TX : TTOps T) (K : Params)
    (pseudo_legal : P → Nat → Bool) (undo_move : P → Nat → P)
    (search : P → Int → Int → Int → Int → Bool → QState T → Int × P × QState T)
    (stop : Int → Bool) (rootDepth : Int) (playMove : Nat) (ss playoutValue : Int)
    (st : PlayoutState P T)
    (hundo : ∀ p m, undo_move (X.do_move p m) m = p)
    (hpos : ∀ p s a b d c q, (search p s a b d c q).2.1 = p)
    (hply : ∀ p s a b d c q i, i ≤ s →
      ((search p s a b d c q).2.2.stack i).ply = (q.stack i).ply) :
    ∃ v st1,
      playout X TX K pseudo_legal undo_move search stop rootDepth
        ((K.MAX_PLY - 2 - (st.q.stack ss).ply).toNat + 1) playMove ss playoutValue st
        = some (v, st1) ∧
      st1.pos = st.pos ∧ st1.made = st.made ∧
      ((stop ss = true ∨ pseudo_legal st.pos playMove = false ∨
          X.legal st.pos playMove = false ∨ X.is_draw st.pos (st.q.stack ss).ply = true) →
        st1 = st) :=
  playout_returns X TX K pseudo_legal undo_move search stop rootDepth hundo hpos hply _
    playMove ss playoutValue st (le_refl _)

theorem tbRankAt_map (l : List RootMove) (i : Nat) :
    tbRankAt l i = (l.map (fun rm => rm.tbRank))[i]? := by
  simp [tbRankAt, List.getElem?_map]

theorem tbRankAt_congr (l l2 : List RootMove)
    (h : l2.map (fun rm => rm.tbRank) = l.map (fun rm => rm.tbRank)) (i : Nat) :
    tbRankAt l2 i = tbRankAt l i := by
  rw [tbRankAt_map, tbRankAt_map, h]

/-- The scan stops at the end of the vector or at the first rank that differs, having
passed only ranks equal to the first one. -/
theorem pvLast_scan_spec (l : List RootMove) (first : Nat) (fuel : Nat) :
    ∀ last, last ≤ l.length → l.length - last ≤ fuel →
      (∀ i, first ≤ i → i < last → tbRankAt l i = tbRankAt l first) →
      last ≤ pvLast_scan l first fuel last ∧ pvLast_scan l first fuel last ≤ l.length ∧
      (∀ i, first ≤ i → i < pvLast_scan l first fuel last →
        tbRankAt l i = tbRankAt l first) ∧
      (pvLast_scan l first fuel last = l.length ∨
        tbRankAt l (pvLast_scan l first fuel last) ≠ tbRankAt l first) := by
  induction fuel with
  | zero =>
    intro last h1 h2 h3
    simp only [pvLast_scan]
    exact ⟨le_refl _, h1, h3, Or.inl (by omega)⟩
  | succ f ih =>
    intro last h1 h2 h3
    simp only [pvLast_scan]
    split_ifs with ha hb
    · exact ⟨le_refl _, h1, h3, Or.inr hb⟩
    · have hb2 : tbRankAt l last = tbRankAt l first := by
        by_contra hne
        exact hb hne
      obtain ⟨g1, g2, g3, g4⟩ := ih (last + 1) (by omega) (by omega) (by
        intro i hi1 hi2
        by_cases hil : i < last
        · exact h3 i hi1 hil
        · have : i = last := by omega
          rw [this]
          exact hb2)
      exact ⟨by omega, g2, g3, g4⟩
    · exact ⟨le_refl _, h1, h3, Or.inl (by omega)⟩

/-- Sorting a range whose elements all have the same tablebase rank leaves the ranks of
the vector where they were. -/
theorem stable_sort_range_ranks (l : List RootMove) (lo hi : Nat) (c : Int) (hlo : lo ≤ hi)
    (h : ∀ i, lo ≤ i → i < hi → i < l.length → tbRankAt l i = some c) :
    (stable_sort_range l lo hi).map (fun rm => rm.tbRank) = l.map (fun rm => rm.tbRank) := by
  have hmid : ∀ rm ∈ (l.drop lo).take (hi - lo), rm.tbRank = c := by
    intro rm hrm
    obtain ⟨k, hk, hk2⟩ := List.mem_iff_getElem.mp hrm
    have hk3 : k < hi - lo := by
      have := hk
      simp only [List.length_take, List.length_drop] at this
      omega
    have hk4 : lo + k < l.length := by
      have := hk
      simp only [List.length_take, List.length_drop] at this
      omega
    have hg : l[lo + k]? = some rm := by
      rw [← hk2, List.getElem_take, List.getElem_drop]
      exact List.getElem?_eq_getElem hk4
    have := h (lo + k) (by omega) (by omega) hk4
    simp only [tbRankAt, hg, Option.map_some', Option.some.injEq] at this
    exact this
  have hperm := List.perm_insertionSort (fun a b : RootMove => rootMove_less b a = false)
    ((l.drop lo).take (hi - lo))
  have hsorted : (List.insertionSort (fun a b : RootMove => rootMove_less b a = false)
      ((l.drop lo).take (hi - lo))).map (fun rm => rm.tbRank)
      = ((l.drop lo).take (hi - lo)).map (fun rm => rm.tbRank) := by
    have e1 : (List.insertionSort (fun a b : RootMove => rootMove_less b a = false)
        ((l.drop lo).take (hi - lo))).map (fun rm => rm.tbRank)
        = List.replicate ((l.drop lo).take (hi - lo)).length c := by
      rw [List.eq_replicate_iff]
      refine ⟨by rw [List.length_map, hperm.length_eq], ?_⟩
      intro b hb
      obtain ⟨rm, hrm, hrm2⟩ := List.mem_map.mp hb
      rw [← hrm2]
      exact hmid rm (hperm.mem_iff.mp hrm)
    have e2 : ((l.drop lo).take (hi - lo)).map (fun rm => rm.tbRank)
        = List.replicate ((l.drop lo).take (hi - lo)).length c := by
      rw [List.eq_replicate_iff]
      refine ⟨by rw [List.length_map], ?_⟩
      intro b hb
      obtain ⟨rm, hrm, hrm2⟩ := List.mem_map.mp hb
      rw [← hrm2]
      exact hmid rm hrm
    rw [e1, e2]
  have hsplit : l = l.take lo ++ (l.drop lo).take (hi - lo) ++ l.drop hi := by
    have e : l.drop hi = (l.drop lo).drop (hi - lo) := by
      rw [List.drop_drop]
      congr 1
      omega
    rw [e, List.append_assoc, List.take_append_drop, List.take_append_drop]
  unfold stable_sort_range
  rw [List.map_append, List.map_append, hsorted, ← List.map_append, ← List.map_append, ← hsplit]

/-- One pass of the MultiPV loop keeps the group bounds and the rank of every index,
when the group `[pvFirst, pvLast)` holds a single rank and contains `pvIdx`. -/
theorem multipv_pass_ranks (search : Nat → List RootMove → List RootMove) (pvIdx : Nat)
    (hsearch : ∀ k l, (search k l).map (fun rm => rm.tbRank) = l.map (fun rm => rm.tbRank))
    (n : Nat) :
    ∀ s : PvGroup, s.pvFirst ≤ pvIdx → pvIdx < s.pvLast →
      (∀ i, s.pvFirst ≤ i → i < s.pvLast →
        tbRankAt s.rootMoves i = tbRankAt s.rootMoves s.pvFirst) →
      s.pvFirst < s.rootMoves.length →
      (multipv_pass search pvIdx n s).pvFirst = s.pvFirst ∧
      (multipv_pass search pvIdx n s).pvLast = s.pvLast ∧
      (multipv_pass search pvIdx n s).rootMoves.map (fun rm => rm.tbRank)
        = s.rootMoves.map (fun rm => rm.tbRank) := by
  have hanchor : ∀ l : List RootMove, ∀ first, first < l.length →
      ∃ c, tbRankAt l first = some c := by
    intro l first hf
    exact ⟨l[first].tbRank, by simp [tbRankAt, List.getElem?_eq_getElem hf]⟩
  induction n with
  | zero =>
    intro s h1 h2 h3 h4
    obtain ⟨c, hc⟩ := hanchor s.rootMoves s.pvFirst h4
    refine ⟨rfl, rfl, ?_⟩
    show (stable_sort_range s.rootMoves s.pvFirst (pvIdx + 1)).map _ = _
    apply stable_sort_range_ranks _ _ _ c (by omega)
    intro i hi1 hi2 _
    rw [h3 i hi1 (by omega), hc]
  | succ m ih =>
    intro s h1 h2 h3 h4
    obtain ⟨c, hc⟩ := hanchor s.rootMoves s.pvFirst h4
    have hs1 : (stable_sort_range (search m s.rootMoves) pvIdx s.pvLast).map
        (fun rm => rm.tbRank) = s.rootMoves.map (fun rm => rm.tbRank) := by
      rw [← hsearch m s.rootMoves]
      apply stable_sort_range_ranks _ _ _ c (by omega)
      intro i hi1 hi2 _
      rw [tbRankAt_congr _ _ (hsearch m s.rootMoves), h3 i (by omega) hi2, hc]
    have hlen : (stable_sort_range (search m s.rootMoves) pvIdx s.pvLast).length
        = s.rootMoves.length := by
      have := congrArg List.length hs1
      simpa using this
    obtain ⟨g1, g2, g3⟩ := ih
      { s with rootMoves := stable_sort_range (search m s.rootMoves) pvIdx s.pvLast }
      h1 h2 (by
        intro i hi1 hi2
        show tbRankAt (stable_sort_range (search m s.rootMoves) pvIdx s.pvLast) i
          = tbRankAt (stable_sort_range (search m s.rootMoves) pvIdx s.pvLast) s.pvFirst
        rw [tbRankAt_congr _ _ hs1, tbRankAt_congr _ _ hs1]
        exact h3 i hi1 hi2) (by
        show s.pvFirst < (stable_sort_range (search m s.rootMoves) pvIdx s.pvLast).length
        rw [hlen]
        exact h4)
    simp only [multipv_pass]
    exact ⟨g1, g2, by rw [g3]; exact hs1⟩

/-- The group invariant holds after the update at the top of every pass. -/
theorem multipv_loop_invariant (search : Nat → List RootMove → List RootMove)
    (passes : Nat → Nat) (stop : Nat → Bool)
    (hsearch : ∀ k l, (search k l).map (fun rm => rm.tbRank) = l.map (fun rm => rm.tbRank))
    (remaining : Nat) :
    ∀ (pvIdx : Nat) (s : PvGroup),
      pvIdx + remaining ≤ s.rootMoves.length →
      pvIdx ≤ s.pvLast → s.pvLast ≤ s.rootMoves.length →
      (pvIdx < s.pvLast → s.pvFirst ≤ pvIdx ∧
        (∀ i, s.pvFirst ≤ i → i < s.pvLast →
          tbRankAt s.rootMoves i = tbRankAt s.rootMoves s.pvFirst) ∧
        (s.pvLast = s.rootMoves.length ∨
          tbRankAt s.rootMoves s.pvLast ≠ tbRankAt s.rootMoves s.pvFirst)) →
      ∀ e ∈ multipv_loop search passes stop remaining pvIdx s,
        e.2.pvFirst ≤ e.1 ∧ e.1 < e.2.pvLast ∧ e.2.pvLast ≤ e.2.rootMoves.length ∧
        e.2.rootMoves.length = s.rootMoves.length ∧
        (∀ i, e.2.pvFirst ≤ i → i < e.2.pvLast →
          tbRankAt e.2.rootMoves i = tbRankAt e.2.rootMoves e.2.pvFirst) ∧
        (e.2.pvLast = e.2.rootMoves.length ∨
          tbRankAt e.2.rootMoves e.2.pvLast ≠ tbRankAt e.2.rootMoves e.2.pvFirst) := by
  induction remaining with
  | zero =>
    intro pvIdx s _ _ _ _ e he
    simp [multipv_loop] at he
  | succ r ih =>
    intro pvIdx s hrem hb1 hb2 hc e he
    simp only [multipv_loop] at he
    split_ifs at he with hstop
    · simp at he
    · have hG : (multipv_group s pvIdx).rootMoves = s.rootMoves ∧
          (multipv_group s pvIdx).pvFirst ≤ pvIdx ∧ pvIdx < (multipv_group s pvIdx).pvLast ∧
          (multipv_group s pvIdx).pvLast ≤ s.rootMoves.length ∧
          (∀ i, (multipv_group s pvIdx).pvFirst ≤ i → i < (multipv_group s pvIdx).pvLast →
            tbRankAt s.rootMoves i = tbRankAt s.rootMoves (multipv_group s pvIdx).pvFirst) ∧
          ((multipv_group s pvIdx).pvLast = s.rootMoves.length ∨
            tbRankAt s.rootMoves (multipv_group s pvIdx).pvLast
              ≠ tbRankAt s.rootMoves (multipv_group s pvIdx).pvFirst) := by
        unfold multipv_group
        split_ifs with heq
        · obtain ⟨g1, g2, g3, g4⟩ := pvLast_scan_spec s.rootMoves s.pvLast s.rootMoves.length
            (s.pvLast + 1) (by omega) (by omega) (by
              intro i hi1 hi2
              have : i = s.pvLast := by omega
              rw [this])
          exact ⟨rfl, by show s.pvLast ≤ pvIdx; omega,
            by show pvIdx < pvLast_scan _ _ _ _; omega, g2, g3, g4⟩
        · have hlt : pvIdx < s.pvLast := by omega
          obtain ⟨c1, c2, c3⟩ := hc hlt
          exact ⟨rfl, c1, hlt, hb2, c2, c3⟩
      obtain ⟨hG0, hG1, hG2, hG3, hG4, hG5⟩ := hG
      rcases List.mem_cons.mp he with h | h
      · rw [h]
        refine ⟨hG1, hG2, ?_, ?_, ?_, ?_⟩
        · show (multipv_group s pvIdx).pvLast ≤ (multipv_group s pvIdx).rootMoves.length
          rw [hG0]; exact hG3
        · show (multipv_group s pvIdx).rootMoves.length = _
          rw [hG0]
        · show ∀ i, _ → _ → tbRankAt (multipv_group s pvIdx).rootMoves i = _
          rw [hG0]; exact hG4
        · show _ = (multipv_group s pvIdx).rootMoves.length ∨
            tbRankAt (multipv_group s pvIdx).rootMoves _ ≠ _
          rw [hG0]; exact hG5
      · obtain ⟨p1, p2, p3⟩ := multipv_pass_ranks search pvIdx hsearch (passes pvIdx)
          (multipv_group s pvIdx) hG1 hG2 (by rw [hG0]; exact hG4) (by rw [hG0]; omega)
        rw [hG0] at p3
        have plen : (multipv_pass search pvIdx (passes pvIdx)
            (multipv_group s pvIdx)).rootMoves.length = s.rootMoves.length := by
          have := congrArg List.length p3
          simpa using this
        have hres := ih (pvIdx + 1)
          (multipv_pass search pvIdx (passes pvIdx) (multipv_group s pvIdx))
          (by rw [plen]; omega) (by rw [p2]; omega) (by rw [p2, plen]; exact hG3)
          (by
            intro _
            rw [p1, p2, plen]
            refine ⟨by omega, ?_, ?_⟩
            · intro i hi1 hi2
              rw [tbRankAt_congr _ _ p3, tbRankAt_congr _ _ p3]
              exact hG4 i hi1 hi2
            · rcases hG5 with h5 | h5
              · exact Or.inl h5
              · right
                rw [tbRankAt_congr _ _ p3, tbRankAt_congr _ _ p3]
                exact h5)
          e h
        rw [plen] at hres
        exact hres

theorem updateFirst_map {α β : Type} (p : α → Bool) (f : α → α) (g : α → β)
    (hf : ∀ a, g (f a) = g a) (l : List α) : (updateFirst p f l).map g = l.map g := by
  induction l with
  | nil => rfl
  | cons a rest ih =>
    simp only [updateFirst]
    split_ifs
    · simp [hf]
    · simp [ih]

/-- The root search changes scores, depths, lines and playout statistics of the root
moves, never a tablebase rank: Step 19, the only writer, keeps the rank of every index. -/
theorem search_step19_tbRank {T : Type} (K : Params) (E : SearchEnv) (PvNode : Bool)
    (ss : Int) (move : Nat) (value : Int) (captureOrPromotion isMain stop : Bool)
    (s : SearchState T) :
    (search_step19 K E PvNode ss move value captureOrPromotion isMain stop
      s).state.rootMoves.map (fun rm => rm.tbRank) = s.rootMoves.map (fun rm => rm.tbRank) := by
  unfold search_step19
  lift_lets
  intro rootNode l childPv better rootMoves1 src1 th1 changes1 s1 record line src2 frame src3
    q1 src4 frame0
  have h1 : rootMoves1.map (fun rm => rm.tbRank) = s.rootMoves.map (fun rm => rm.tbRank) := by
    simp only [rootMoves1]
    by_cases hr : rootNode = true
    · rw [if_pos hr]
      apply updateFirst_map
      intro a
      dsimp only
      split_ifs <;> rfl
    · rw [if_neg hr]
  have hrec : ∀ t : SearchState T, (record t).rootMoves = t.rootMoves := by
    intro t
    simp only [record]
    split_ifs <;> rfl
  split_ifs <;>
    first
      | rfl
      | (rw [Flow.state, hrec]; exact h1)
      | exact h1

/-- C26: in the MultiPV loop of `Thread::search`, given
`multiPV ≤ rootMoves.size()` and a root search that changes no tablebase rank, after
the `pvIdx == pvLast` update at the top of each pass the indices satisfy
`pvFirst ≤ pvIdx < pvLast ≤ rootMoves.size()`, every root move in `[pvFirst, pvLast)`
has the same `tbRank` as `rootMoves[pvFirst]`, and `pvLast` is `rootMoves.size()` or the
first index after `pvFirst` whose `tbRank` differs. -/
theorem multipv_group_invariant (search : Nat → List RootMove → List RootMove)
    (passes : Nat → Nat) (stop : Nat → Bool) (multiPV : Nat) (rootMoves : List RootMove)
    (e : Nat × PvGroup)
    (hmulti : multiPV ≤ rootMoves.length)
    (hsearch : ∀ k l, (search k l).map (fun rm => rm.tbRank) = l.map (fun rm => rm.tbRank))
    (he : e ∈ multipv_loop search passes stop multiPV 0
      { rootMoves := rootMoves, pvFirst := 0, pvLast := 0 }) :
    e.2.pvFirst ≤ e.1 ∧ e.1 < e.2.pvLast ∧ e.2.pvLast ≤ e.2.rootMoves.length ∧
    e.2.rootMoves.length = rootMoves.length ∧
    (∀ i, e.2.pvFirst ≤ i → i < e.2.pvLast →
      tbRankAt e.2.rootMoves i = tbRankAt e.2.rootMoves e.2.pvFirst) ∧
    (e.2.pvLast = e.2.rootMoves.length ∨
      tbRankAt e.2.rootMoves e.2.pvLast ≠ tbRankAt e.2.rootMoves e.2.pvFirst) :=
  multipv_loop_invariant search passes stop hsearch multiPV 0
    { rootMoves := rootMoves, pvFirst := 0, pvLast := 0 }
    (by simpa using hmulti) (le_refl _) (Nat.zero_le _)
    (fun h => absurd h (Nat.lt_irrefl 0)) e he

/-- Instance of C26: three root moves with tablebase ranks 5, 5, 3 and `multiPV = 3`:
the first two passes work on the group `[0, 2)`, the third on `[2, 3)`. -/
theorem multipv_group_invariant_witness :
    (multipv_loop (fun _ l => l) (fun _ => 1) (fun _ => false) 3 0
      { rootMoves := [rankedMove 1 10 5, rankedMove 2 20 5, rankedMove 3 5 3],
        pvFirst := 0, pvLast := 0 }).map (fun e => (e.1, e.2.pvFirst, e.2.pvLast))
      = [(0, 0, 2), (1, 0, 2), (2, 2, 3)] ∧
    (∀ e ∈ multipv_loop (fun _ l => l) (fun _ => 1) (fun _ => false) 3 0
        { rootMoves := [rankedMove 1 10 5, rankedMove 2 20 5, rankedMove 3 5 3],
          pvFirst := 0, pvLast := 0 },
      e.2.pvFirst ≤ e.1 ∧ e.1 < e.2.pvLast ∧ e.2.pvLast ≤ e.2.rootMoves.length) :=
  ⟨by decide, fun e he =>
    have h := multipv_group_invariant (fun _ l => l) (fun _ => 1) (fun _ => false) 3
      [rankedMove 1 10 5, rankedMove 2 20 5, rankedMove 3 5 3] e (by decide)
      (fun _ _ => rfl) he
    ⟨h.1, h.2.1, h.2.2.1⟩⟩

/-- Instance of C28: on a position that records its moves, with a table that always
proposes 796, starting at ply 124: the playout recurses through plies 125 and 126 and
comes back with the root position and the list of outstanding moves as they were. -/
theorem playout_restores_root_witness :
    (∀ (p : List Nat) (m : Nat), List.tail (historyGame.do_move p m) = p) ∧
    (playout historyGame tt796 upstream (fun _ _ => true) (fun p _ => p.tail)
      (fun p _ _ _ _ _ q => (0, p, q)) (fun _ => false) 10 3 796 8 10
      { pos := [], q := { tt := [], stack := stackAtPly 124, randCalls := 0 }, made := [] }).map
        (fun r => (r.1, r.2.pos, r.2.made)) = some (10, [], []) ∧
    (∃ v st1,
      playout historyGame tt796 upstream (fun _ _ => true) (fun p _ => p.tail)
        (fun p _ _ _ _ _ q => (0, p, q)) (fun _ => false) 10
        ((upstream.MAX_PLY - 2 - ((stackAtPly 124) 8).ply).toNat + 1) 796 8 10
        { pos := [], q := { tt := [], stack := stackAtPly 124, randCalls := 0 }, made := [] }
        = some (v, st1) ∧
      st1.pos = [] ∧ st1.made = []) := by
  refine ⟨fun _ _ => rfl, by decide, ?_⟩
  obtain ⟨v, st1, h1, h2, h3, _⟩ := playout_restores_root historyGame tt796 upstream
    (fun _ _ => true) (fun p _ => p.tail) (fun p _ _ _ _ _ q => (0, p, q)) (fun _ => false)
    10 796 8 10
    { pos := [], q := { tt := [], stack := stackAtPly 124, randCalls := 0 }, made := [] }
    (fun _ _ => rfl) (fun _ _ _ _ _ _ _ => rfl) (fun _ _ _ _ _ _ _ _ _ => rfl)
  exact ⟨v, st1, h1, h2, h3⟩

/-- Bounds on `√1.95`. -/
theorem sqrt_195_bounds :
    (13964239344 / 10 ^ 10 : ℝ) ≤ Real.sqrt (195 / 100) ∧
    Real.sqrt (195 / 100) ≤ (13964240743 / 10 ^ 10 : ℝ) := by
  constructor
  · rw [Real.le_sqrt' (by norm_num)]
    norm_num
  · rw [Real.sqrt_le_iff]
    exact ⟨by norm_num, by norm_num⟩

/-- For a non-negative value the conversion to `int` is the floor. -/
theorem truncToInt_of_nonneg (y : ℚ) (h : 0 ≤ y) : truncToInt y = ⌊y⌋ := by
  unfold truncToInt
  rw [Int.tdiv_eq_ediv (Rat.num_nonneg.mpr h) (by exact_mod_cast Nat.zero_le _)]
  exact (Rat.floor_def' y).symm

/-- A value in `[n, n + 1)` with `n ≥ 0` converts to `n`. -/
theorem truncToInt_of_mem (y : ℚ) (n : Int) (hn : 0 ≤ n) (h1 : (n : ℝ) ≤ (y : ℝ))
    (h2 : (y : ℝ) < n + 1) : truncToInt y = n := by
  have h1q : (n : ℚ) ≤ y := by exact_mod_cast h1
  have h2q : y < (n : ℚ) + 1 := by exact_mod_cast h2
  have hy : 0 ≤ y := le_trans (by exact_mod_cast hn) h1q
  rw [truncToInt_of_nonneg y hy, Int.floor_eq_iff]
  exact ⟨h1q, h2q⟩

/-- Propagation of the relative errors through `1024 * log / sqrt`: with every
operation accurate to `10⁻⁷`, the computed quotient `d` and the real number
`1024·L/√1.95` both lie between `733.301300893·L` and `733.301961168·L`. -/
theorem reduction_enclosure_real (c s l m d L : ℝ) (hL : 0 ≤ L)
    (hc : |c - 195 / 100| ≤ 1 / 10 ^ 7 * (195 / 100))
    (hs : |s - Real.sqrt c| ≤ 1 / 10 ^ 7 * Real.sqrt c)
    (hl : |l - L| ≤ 1 / 10 ^ 7 * L)
    (hm : |m - 1024 * l| ≤ 1 / 10 ^ 7 * |1024 * l|)
    (hd : |d - m / s| ≤ 1 / 10 ^ 7 * |m / s|) :
    733301300893 / 10 ^ 9 * L ≤ d ∧ d ≤ 733301961168 / 10 ^ 9 * L ∧
    733301300893 / 10 ^ 9 * L ≤ 1024 * L / Real.sqrt (195 / 100) ∧
    1024 * L / Real.sqrt (195 / 100) ≤ 733301961168 / 10 ^ 9 * L := by
  rw [abs_le] at hc hs hl
  have hl0 : 0 ≤ l := by linarith only [hl.1, hL]
  rw [abs_of_nonneg (by linarith only [hl0] : (0 : ℝ) ≤ 1024 * l), abs_le] at hm
  have hm0 : 0 ≤ m := by linarith only [hm.1, hl0]
  have hp1 : (13964239344 / 10 ^ 10 : ℝ) ≤ Real.sqrt c := by
    rw [Real.le_sqrt' (by norm_num)]
    linarith only [hc.1]
  have hp2 : Real.sqrt c ≤ (13964240743 / 10 ^ 10 : ℝ) := by
    rw [Real.sqrt_le_iff]
    exact ⟨by norm_num, by linarith only [hc.2]⟩
  have hs1 : (13964237946 / 10 ^ 10 : ℝ) ≤ s := by linarith only [hs.1, hp1]
  have hs2 : s ≤ (13964242141 / 10 ^ 10 : ℝ) := by linarith only [hs.2, hp2]
  have hspos : 0 < s := lt_of_lt_of_le (by norm_num) hs1
  have hq0 : 0 ≤ m / s := div_nonneg hm0 hspos.le
  rw [abs_of_nonneg hq0, abs_le] at hd
  have hq1 : m / (13964242141 / 10 ^ 10 : ℝ) ≤ m / s :=
    div_le_div_of_nonneg_left hm0 hspos hs2
  have hq2 : m / s ≤ m / (13964237946 / 10 ^ 10 : ℝ) :=
    div_le_div_of_nonneg_left hm0 (by norm_num) hs1
  obtain ⟨hS1, hS2⟩ := sqrt_195_bounds
  have hSpos : 0 < Real.sqrt (195 / 100) := lt_of_lt_of_le (by norm_num) hS1
  have hL2 : (0 : ℝ) ≤ 1024 * L := by linarith only [hL]
  have hX1 : 1024 * L / (13964240743 / 10 ^ 10 : ℝ) ≤ 1024 * L / Real.sqrt (195 / 100) :=
    div_le_div_of_nonneg_left hL2 hSpos hS2
  have hX2 : 1024 * L / Real.sqrt (195 / 100) ≤ 1024 * L / (13964239344 / 10 ^ 10 : ℝ) :=
    div_le_div_of_nonneg_left hL2 (by norm_num) hS1
  generalize m / s = q at hd hq1 hq2
  generalize 1024 * L / Real.sqrt (195 / 100) = X at hX1 hX2
  refine ⟨?_, ?_, ?_, ?_⟩
  · linarith only [hd.1, hq1, hm.1, hl.1, hL]
  · linarith only [hd.2, hq2, hm.2, hl.2, hL]
  · linarith only [hX1, hL]
  · linarith only [hX2, hL]

set_option maxHeartbeats 4000000 in
/-- Enclosures of `10¹⁰·ln p` for the primes `p` below 64.  The logarithm of 2 is taken
from Mathlib; that of an odd prime `p` comes from `p² = (p² − 1)·(1 + 1/(p² − 1))`, the
logarithms of the smaller primes dividing `p² − 1`, and the logarithm series. -/
theorem log_primes :
    (((6931471803 : ℤ) : ℝ) ≤ 10 ^ 10 * Real.log ((2 : ℕ) : ℝ) ∧
      10 ^ 10 * Real.log ((2 : ℕ) : ℝ) ≤ ((6931471808 : ℤ) : ℝ)) ∧
    (((10986122881 : ℤ) : ℝ) ≤ 10 ^ 10 * Real.log ((3 : ℕ) : ℝ) ∧
      10 ^ 10 * Real.log ((3 : ℕ) : ℝ) ≤ ((10986122892 : ℤ) : ℝ)) ∧
    (((16094379116 : ℤ) : ℝ) ≤ 10 ^ 10 * Real.log ((5 : ℕ) : ℝ) ∧
      10 ^ 10 * Real.log ((5 : ℕ) : ℝ) ≤ ((16094379132 : ℤ) : ℝ)) ∧
    (((19459101481 : ℤ) : ℝ) ≤ 10 ^ 10 * Real.log ((7 : ℕ) : ℝ) ∧
      10 ^ 10 * Real.log ((7 : ℕ) : ℝ) ≤ ((19459101500 : ℤ) : ℝ)) ∧
    (((23978952716 : ℤ) : ℝ) ≤ 10 ^ 10 * Real.log ((11 : ℕ) : ℝ) ∧
      10 ^ 10 * Real.log ((11 : ℕ) : ℝ) ≤ ((23978952740 : ℤ) : ℝ)) ∧
    (((25649493562 : ℤ) : ℝ) ≤ 10 ^ 10 * Real.log ((13 : ℕ) : ℝ) ∧
      10 ^ 10 * Real.log ((13 : ℕ) : ℝ) ≤ ((25649493587 : ℤ) : ℝ)) ∧
    (((28332133427 : ℤ) : ℝ) ≤ 10 ^ 10 * Real.log ((17 : ℕ) : ℝ) ∧
      10 ^ 10 * Real.log ((17 : ℕ) : ℝ) ≤ ((28332133453 : ℤ) : ℝ)) ∧
    (((29444389776 : ℤ) : ℝ) ≤ 10 ^ 10 * Real.log ((19 : ℕ) : ℝ) ∧
      10 ^ 10 * Real.log ((19 : ℕ) : ℝ) ≤ ((29444389806 : ℤ) : ℝ)) ∧
    (((31354942144 : ℤ) : ℝ) ≤ 10 ^ 10 * Real.log ((23 : ℕ) : ℝ) ∧
      10 ^ 10 * Real.log ((23 : ℕ) : ℝ) ≤ ((31354942174 : ℤ) : ℝ)) ∧
    (((33672958283 : ℤ) : ℝ) ≤ 10 ^ 10 * Real.log ((29 : ℕ) : ℝ) ∧
      10 ^ 10 * Real.log ((29 : ℕ) : ℝ) ≤ ((33672958316 : ℤ) : ℝ)) ∧
    (((34339872029 : ℤ) : ℝ) ≤ 10 ^ 10 * Real.log ((31 : ℕ) : ℝ) ∧
      10 ^ 10 * Real.log ((31 : ℕ) : ℝ) ≤ ((34339872060 : ℤ) : ℝ)) ∧
    (((36109179108 : ℤ) : ℝ) ≤ 10 ^ 10 * Real.log ((37 : ℕ) : ℝ) ∧
      10 ^ 10 * Real.log ((37 : ℕ) : ℝ) ≤ ((36109179144 : ℤ) : ℝ)) ∧
    (((37135720649 : ℤ) : ℝ) ≤ 10 ^ 10 * Real.log ((41 : ℕ) : ℝ) ∧
      10 ^ 10 * Real.log ((41 : ℕ) : ℝ) ≤ ((37135720685 : ℤ) : ℝ)) ∧
    (((37612001138 : ℤ) : ℝ) ≤ 10 ^ 10 * Real.log ((43 : ℕ) : ℝ) ∧
      10 ^ 10 * Real.log ((43 : ℕ) : ℝ) ≤ ((37612001175 : ℤ) : ℝ)) ∧
    (((38501475999 : ℤ) : ℝ) ≤ 10 ^ 10 * Real.log ((47 : ℕ) : ℝ) ∧
      10 ^ 10 * Real.log ((47 : ℕ) : ℝ) ≤ ((38501476035 : ℤ) : ℝ)) ∧
    (((39702919115 : ℤ) : ℝ) ≤ 10 ^ 10 * Real.log ((53 : ℕ) : ℝ) ∧
      10 ^ 10 * Real.log ((53 : ℕ) : ℝ) ≤ ((39702919155 : ℤ) : ℝ)) ∧
    (((40775374418 : ℤ) : ℝ) ≤ 10 ^ 10 * Real.log ((59 : ℕ) : ℝ) ∧
      10 ^ 10 * Real.log ((59 : ℕ) : ℝ) ≤ ((40775374459 : ℤ) : ℝ)) ∧
    (((41108738621 : ℤ) : ℝ) ≤ 10 ^ 10 * Real.log ((61 : ℕ) : ℝ) ∧
      10 ^ 10 * Real.log ((61 : ℕ) : ℝ) ≤ ((41108738661 : ℤ) : ℝ)) := by
  have e2 : ((6931471803 : ℤ) : ℝ) ≤ 10 ^ 10 * Real.log ((2 : ℕ) : ℝ) ∧
      10 ^ 10 * Real.log ((2 : ℕ) : ℝ) ≤ ((6931471808 : ℤ) : ℝ) := by
    have a := Real.log_two_gt_d9
    have b := Real.log_two_lt_d9
    simp only [Int.cast_ofNat, Nat.cast_ofNat]
    constructor
    · linarith only [a]
    · linarith only [b]
  have e3 : ((10986122881 : ℤ) : ℝ) ≤ 10 ^ 10 * Real.log ((3 : ℕ) : ℝ) ∧
      10 ^ 10 * Real.log ((3 : ℕ) : ℝ) ≤ ((10986122892 : ℤ) : ℝ) := by
    have e : 2 * Real.log 3 = 3 * Real.log 2 + Real.log (1 - (-1 / 8)) := by
      have h : (3 : ℝ) ^ 2 = 2 ^ 3 * (1 - (-1 / 8)) := by norm_num
      have h2 := congrArg Real.log h
      rw [Real.log_mul (by norm_num) (by norm_num)] at h2
      simp only [Real.log_pow] at h2
      push_cast at h2
      linarith only [h2]
    have hs := Real.abs_log_sub_add_sum_range_le (x := (-1 / 8 : ℝ)) (by
      rw [abs_lt]
      constructor <;> norm_num) 12
    rw [show |(-1 / 8 : ℝ)| = 1 / 8 by rw [abs_of_neg (by norm_num)]; norm_num, abs_le] at hs
    simp only [Finset.sum_range_succ, Finset.sum_range_zero] at hs
    norm_num at hs
    simp only [Int.cast_ofNat, Nat.cast_ofNat] at e2 ⊢
    constructor
    · linarith only [e, hs.1, hs.2, e2.1]
    · linarith only [e, hs.1, hs.2, e2.2]
  have e5 : ((16094379116 : ℤ) : ℝ) ≤ 10 ^ 10 * Real.log ((5 : ℕ) : ℝ) ∧
      10 ^ 10 * Real.log ((5 : ℕ) : ℝ) ≤ ((16094379132 : ℤ) : ℝ) := by
    have e : 2 * Real.log 5 = 3 * Real.log 2 + Real.log 3 + Real.log (1 - (-1 / 24)) := by
      have h : (5 : ℝ) ^ 2 = 2 ^ 3 * 3 * (1 - (-1 / 24)) := by norm_num
      have h2 := congrArg Real.log h
      rw [Real.log_mul (by norm_num) (by norm_num), Real.log_mul (by norm_num) (by norm_num)] at h2
      simp only [Real.log_pow] at h2
      push_cast at h2
      linarith only [h2]
    have hs := Real.abs_log_sub_add_sum_range_le (x := (-1 / 24 : ℝ)) (by
      rw [abs_lt]
      constructor <;> norm_num) 7
    rw [show |(-1 / 24 : ℝ)| = 1 / 24 by rw [abs_of_neg (by norm_num)]; norm_num, abs_le] at hs
    simp only [Finset.sum_range_succ, Finset.sum_range_zero] at hs
    norm_num at hs
    simp only [Int.cast_ofNat, Nat.cast_ofNat] at e2 e3 ⊢
    constructor
    · linarith only [e, hs.1, hs.2, e2.1, e3.1]
    · linarith only [e, hs.1, hs.2, e2.2, e3.2]
  have e7 : ((19459101481 : ℤ) : ℝ) ≤ 10 ^ 10 * Real.log ((7 : ℕ) : ℝ) ∧
      10 ^ 10 * Real.log ((7 : ℕ) : ℝ) ≤ ((19459101500 : ℤ) : ℝ) := by
    have e : 2 * Real.log 7 = 4 * Real.log 2 + Real.log 3 + Real.log (1 - (-1 / 48)) := by
      have h : (7 : ℝ) ^ 2 = 2 ^ 4 * 3 * (1 - (-1 / 48)) := by norm_num
      have h2 := congrArg Real.log h
      rw [Real.log_mul (by norm_num) (by norm_num), Real.log_mul (by norm_num) (by norm_num)] at h2
      simp only [Real.log_pow] at h2
      push_cast at h2
      linarith only [h2]
    have hs := Real.abs_log_sub_add_sum_range_le (x := (-1 / 48 : ℝ)) (by
      rw [abs_lt]
      constructor <;> norm_num) 6
    rw [show |(-1 / 48 : ℝ)| = 1 / 48 by rw [abs_of_neg (by norm_num)]; norm_num, abs_le] at hs
    simp only [Finset.sum_range_succ, Finset.sum_range_zero] at hs
    norm_num at hs
    simp only [Int.cast_ofNat, Nat.cast_ofNat] at e2 e3 ⊢
    constructor
    · linarith only [e, hs.1, hs.2, e2.1, e3.1]
    · linarith only [e, hs.1, hs.2, e2.2, e3.2]
  have e11 : ((23978952716 : ℤ) : ℝ) ≤ 10 ^ 10 * Real.log ((11 : ℕ) : ℝ) ∧
      10 ^ 10 * Real.log ((11 : ℕ) : ℝ) ≤ ((23978952740 : ℤ) : ℝ) := by
    have e : 2 * Real.log 11 =
        3 * Real.log 2 + Real.log 3 + Real.log 5 + Real.log (1 - (-1 / 120)) := by
      have h : (11 : ℝ) ^ 2 = 2 ^ 3 * 3 * 5 * (1 - (-1 / 120)) := by norm_num
      have h2 := congrArg Real.log h
      rw [Real.log_mul (by norm_num) (by norm_num), Real.log_mul (by norm_num) (by norm_num),
        Real.log_mul (by norm_num) (by norm_num)] at h2
      simp only [Real.log_pow] at h2
      push_cast at h2
      linarith only [h2]
    have hs := Real.abs_log_sub_add_sum_range_le (x := (-1 / 120 : ℝ)) (by
      rw [abs_lt]
      constructor <;> norm_num) 5
    rw [show |(-1 / 120 : ℝ)| = 1 / 120 by rw [abs_of_neg (by norm_num)]; norm_num, abs_le] at hs
    simp only [Finset.sum_range_succ, Finset.sum_range_zero] at hs
    norm_num at hs
    simp only [Int.cast_ofNat, Nat.cast_ofNat] at e2 e3 e5 ⊢
    constructor
    · linarith only [e, hs.1, hs.2, e2.1, e3.1, e5.1]
    · linarith only [e, hs.1, hs.2, e2.2, e3.2, e5.2]
  have e13 : ((25649493562 : ℤ) : ℝ) ≤ 10 ^ 10 * Real.log ((13 : ℕ) : ℝ) ∧
      10 ^ 10 * Real.log ((13 : ℕ) : ℝ) ≤ ((25649493587 : ℤ) : ℝ) := by
    have e : 2 * Real.log 13 =
        3 * Real.log 2 + Real.log 3 + Real.log 7 + Real.log (1 - (-1 / 168)) := by
      have h : (13 : ℝ) ^ 2 = 2 ^ 3 * 3 * 7 * (1 - (-1 / 168)) := by norm_num
      have h2 := congrArg Real.log h
      rw [Real.log_mul (by norm_num) (by norm_num), Real.log_mul (by norm_num) (by norm_num),
        Real.log_mul (by norm_num) (by norm_num)] at h2
      simp only [Real.log_pow] at h2
      push_cast at h2
      linarith only [h2]
    have hs := Real.abs_log_sub_add_sum_range_le (x := (-1 / 168 : ℝ)) (by
      rw [abs_lt]
      constructor <;> norm_num) 4
    rw [show |(-1 / 168 : ℝ)| = 1 / 168 by rw [abs_of_neg (by norm_num)]; norm_num, abs_le] at hs
    simp only [Finset.sum_range_succ, Finset.sum_range_zero] at hs
    norm_num at hs
    simp only [Int.cast_ofNat, Nat.cast_ofNat] at e2 e3 e7 ⊢
    constructor
    · linarith only [e, hs.1, hs.2, e2.1, e3.1, e7.1]
    · linarith only [e, hs.1, hs.2, e2.2, e3.2, e7.2]
  have e17 : ((28332133427 : ℤ) : ℝ) ≤ 10 ^ 10 * Real.log ((17 : ℕ) : ℝ) ∧
      10 ^ 10 * Real.log ((17 : ℕ) : ℝ) ≤ ((28332133453 : ℤ) : ℝ) := by
    have e : 2 * Real.log 17 = 5 * Real.log 2 + 2 * Real.log 3 + Real.log (1 - (-1 / 288)) := by
      have h : (17 : ℝ) ^ 2 = 2 ^ 5 * 3 ^ 2 * (1 - (-1 / 288)) := by norm_num
      have h2 := congrArg Real.log h
      rw [Real.log_mul (by norm_num) (by norm_num), Real.log_mul (by norm_num) (by norm_num)] at h2
      simp only [Real.log_pow] at h2
      push_cast at h2
      linarith only [h2]
    have hs := Real.abs_log_sub_add_sum_range_le (x := (-1 / 288 : ℝ)) (by
      rw [abs_lt]
      constructor <;> norm_num) 4
    rw [show |(-1 / 288 : ℝ)| = 1 / 288 by rw [abs_of_neg (by norm_num)]; norm_num, abs_le] at hs
    simp only [Finset.sum_range_succ, Finset.sum_range_zero] at hs
    norm_num at hs
    simp only [Int.cast_ofNat, Nat.cast_ofNat] at e2 e3 ⊢
    constructor
    · linarith only [e, hs.1, hs.2, e2.1, e3.1]
    · linarith only [e, hs.1, hs.2, e2.2, e3.2]
  have e19 : ((29444389776 : ℤ) : ℝ) ≤ 10 ^ 10 * Real.log ((19 : ℕ) : ℝ) ∧
      10 ^ 10 * Real.log ((19 : ℕ) : ℝ) ≤ ((29444389806 : ℤ) : ℝ) := by
    have e : 2 * Real.log 19 =
        3 * Real.log 2 + 2 * Real.log 3 + Real.log 5 + Real.log (1 - (-1 / 360)) := by
      have h : (19 : ℝ) ^ 2 = 2 ^ 3 * 3 ^ 2 * 5 * (1 - (-1 / 360)) := by norm_num
      have h2 := congrArg Real.log h
      rw [Real.log_mul (by norm_num) (by norm_num), Real.log_mul (by norm_num) (by norm_num),
        Real.log_mul (by norm_num) (by norm_num)] at h2
      simp only [Real.log_pow] at h2
      push_cast at h2
      linarith only [h2]
    have hs := Real.abs_log_sub_add_sum_range_le (x := (-1 / 360 : ℝ)) (by
      rw [abs_lt]
      constructor <;> norm_num) 4
    rw [show |(-1 / 360 : ℝ)| = 1 / 360 by rw [abs_of_neg (by norm_num)]; norm_num, abs_le] at hs
    simp only [Finset.sum_range_succ, Finset.sum_range_zero] at hs
    norm_num at hs
    simp only [Int.cast_ofNat, Nat.cast_ofNat] at e2 e3 e5 ⊢
    constructor
    · linarith only [e, hs.1, hs.2, e2.1, e3.1, e5.1]
    · linarith only [e, hs.1, hs.2, e2.2, e3.2, e5.2]
  have e23 : ((31354942144 : ℤ) : ℝ) ≤ 10 ^ 10 * Real.log ((23 : ℕ) : ℝ) ∧
      10 ^ 10 * Real.log ((23 : ℕ) : ℝ) ≤ ((31354942174 : ℤ) : ℝ) := by
    have e : 2 * Real.log 23 =
        4 * Real.log 2 + Real.log 3 + Real.log 11 + Real.log (1 - (-1 / 528)) := by
      have h : (23 : ℝ) ^ 2 = 2 ^ 4 * 3 * 11 * (1 - (-1 / 528)) := by norm_num
      have h2 := congrArg Real.log h
      rw [Real.log_mul (by norm_num) (by norm_num), Real.log_mul (by norm_num) (by norm_num),
        Real.log_mul (by norm_num) (by norm_num)] at h2
      simp only [Real.log_pow] at h2
      push_cast at h2
      linarith only [h2]
    have hs := Real.abs_log_sub_add_sum_range_le (x := (-1 / 528 : ℝ)) (by
      rw [abs_lt]
      constructor <;> norm_num) 4
    rw [show |(-1 / 528 : ℝ)| = 1 / 528 by rw [abs_of_neg (by norm_num)]; norm_num, abs_le] at hs
    simp only [Finset.sum_range_succ, Finset.sum_range_zero] at hs
    norm_num at hs
    simp only [Int.cast_ofNat, Nat.cast_ofNat] at e2 e3 e11 ⊢
    constructor
    · linarith only [e, hs.1, hs.2, e2.1, e3.1, e11.1]
    · linarith only [e, hs.1, hs.2, e2.2, e3.2, e11.2]
  have e29 : ((33672958283 : ℤ) : ℝ) ≤ 10 ^ 10 * Real.log ((29 : ℕ) : ℝ) ∧
      10 ^ 10 * Real.log ((29 : ℕ) : ℝ) ≤ ((33672958316 : ℤ) : ℝ) := by
    have e : 2 * Real.log 29 =
        3 * Real.log 2 + Real.log 3 + Real.log 5 + Real.log 7 + Real.log (1 - (-1 / 840)) := by
      have h : (29 : ℝ) ^ 2 = 2 ^ 3 * 3 * 5 * 7 * (1 - (-1 / 840)) := by norm_num
      have h2 := congrArg Real.log h
      rw [Real.log_mul (by norm_num) (by norm_num), Real.log_mul (by norm_num) (by norm_num),
        Real.log_mul (by norm_num) (by norm_num), Real.log_mul (by norm_num) (by norm_num)] at h2
      simp only [Real.log_pow] at h2
      push_cast at h2
      linarith only [h2]
    have hs := Real.abs_log_sub_add_sum_range_le (x := (-1 / 840 : ℝ)) (by
      rw [abs_lt]
      constructor <;> norm_num) 3
    rw [show |(-1 / 840 : ℝ)| = 1 / 840 by rw [abs_of_neg (by norm_num)]; norm_num, abs_le] at hs
    simp only [Finset.sum_range_succ, Finset.sum_range_zero] at hs
    norm_num at hs
    simp only [Int.cast_ofNat, Nat.cast_ofNat] at e2 e3 e5 e7 ⊢
    constructor
    · linarith only [e, hs.1, hs.2, e2.1, e3.1, e5.1, e7.1]
    · linarith only [e, hs.1, hs.2, e2.2, e3.2, e5.2, e7.2]
  have e31 : ((34339872029 : ℤ) : ℝ) ≤ 10 ^ 10 * Real.log ((31 : ℕ) : ℝ) ∧
      10 ^ 10 * Real.log ((31 : ℕ) : ℝ) ≤ ((34339872060 : ℤ) : ℝ) := by
    have e : 2 * Real.log 31 =
        6 * Real.log 2 + Real.log 3 + Real.log 5 + Real.log (1 - (-1 / 960)) := by
      have h : (31 : ℝ) ^ 2 = 2 ^ 6 * 3 * 5 * (1 - (-1 / 960)) := by norm_num
      have h2 := congrArg Real.log h
      rw [Real.log_mul (by norm_num) (by norm_num), Real.log_mul (by norm_num) (by norm_num),
        Real.log_mul (by norm_num) (by norm_num)] at h2
      simp only [Real.log_pow] at h2
      push_cast at h2
      linarith only [h2]
    have hs := Real.abs_log_sub_add_sum_range_le (x := (-1 / 960 : ℝ)) (by
      rw [abs_lt]
      constructor <;> norm_num) 3
    rw [show |(-1 / 960 : ℝ)| = 1 / 960 by rw [abs_of_neg (by norm_num)]; norm_num, abs_le] at hs
    simp only [Finset.sum_range_succ, Finset.sum_range_zero] at hs
    norm_num at hs
    simp only [Int.cast_ofNat, Nat.cast_ofNat] at e2 e3 e5 ⊢
    constructor
    · linarith only [e, hs.1, hs.2, e2.1, e3.1, e5.1]
    · linarith only [e, hs.1, hs.2, e2.2, e3.2, e5.2]
  have e37 : ((36109179108 : ℤ) : ℝ) ≤ 10 ^ 10 * Real.log ((37 : ℕ) : ℝ) ∧
      10 ^ 10 * Real.log ((37 : ℕ) : ℝ) ≤ ((36109179144 : ℤ) : ℝ) := by
    have e : 2 * Real.log 37 =
        3 * Real.log 2 + 2 * Real.log 3 + Real.log 19 + Real.log (1 - (-1 / 1368)) := by
      have h : (37 : ℝ) ^ 2 = 2 ^ 3 * 3 ^ 2 * 19 * (1 - (-1 / 1368)) := by norm_num
      have h2 := congrArg Real.log h
      rw [Real.log_mul (by norm_num) (by norm_num), Real.log_mul (by norm_num) (by norm_num),
        Real.log_mul (by norm_num) (by norm_num)] at h2
      simp only [Real.log_pow] at h2
      push_cast at h2
      linarith only [h2]
    have hs := Real.abs_log_sub_add_sum_range_le (x := (-1 / 1368 : ℝ)) (by
      rw [abs_lt]
      constructor <;> norm_num) 3
    rw [show |(-1 / 1368 : ℝ)| = 1 / 1368 by rw [abs_of_neg (by norm_num)]; norm_num, abs_le] at hs
    simp only [Finset.sum_range_succ, Finset.sum_range_zero] at hs
    norm_num at hs
    simp only [Int.cast_ofNat, Nat.cast_ofNat] at e2 e3 e19 ⊢
    constructor
    · linarith only [e, hs.1, hs.2, e2.1, e3.1, e19.1]
    · linarith only [e, hs.1, hs.2, e2.2, e3.2, e19.2]
  have e41 : ((37135720649 : ℤ) : ℝ) ≤ 10 ^ 10 * Real.log ((41 : ℕ) : ℝ) ∧
      10 ^ 10 * Real.log ((41 : ℕ) : ℝ) ≤ ((37135720685 : ℤ) : ℝ) := by
    have e : 2 * Real.log 41 =
        4 * Real.log 2 + Real.log 3 + Real.log 5 + Real.log 7 + Real.log (1 - (-1 / 1680)) := by
      have h : (41 : ℝ) ^ 2 = 2 ^ 4 * 3 * 5 * 7 * (1 - (-1 / 1680)) := by norm_num
      have h2 := congrArg Real.log h
      rw [Real.log_mul (by norm_num) (by norm_num), Real.log_mul (by norm_num) (by norm_num),
        Real.log_mul (by norm_num) (by norm_num), Real.log_mul (by norm_num) (by norm_num)] at h2
      simp only [Real.log_pow] at h2
      push_cast at h2
      linarith only [h2]
    have hs := Real.abs_log_sub_add_sum_range_le (x := (-1 / 1680 : ℝ)) (by
      rw [abs_lt]
      constructor <;> norm_num) 3
    rw [show |(-1 / 1680 : ℝ)| = 1 / 1680 by rw [abs_of_neg (by norm_num)]; norm_num, abs_le] at hs
    simp only [Finset.sum_range_succ, Finset.sum_range_zero] at hs
    norm_num at hs
    simp only [Int.cast_ofNat, Nat.cast_ofNat] at e2 e3 e5 e7 ⊢
    constructor
    · linarith only [e, hs.1, hs.2, e2.1, e3.1, e5.1, e7.1]
    · linarith only [e, hs.1, hs.2, e2.2, e3.2, e5.2, e7.2]
  have e43 : ((37612001138 : ℤ) : ℝ) ≤ 10 ^ 10 * Real.log ((43 : ℕ) : ℝ) ∧
      10 ^ 10 * Real.log ((43 : ℕ) : ℝ) ≤ ((37612001175 : ℤ) : ℝ) := by
    have e : 2 * Real.log 43 =
        3 * Real.log 2 + Real.log 3 + Real.log 7 + Real.log 11 + Real.log (1 - (-1 / 1848)) := by
      have h : (43 : ℝ) ^ 2 = 2 ^ 3 * 3 * 7 * 11 * (1 - (-1 / 1848)) := by norm_num
      have h2 := congrArg Real.log h
      rw [Real.log_mul (by norm_num) (by norm_num), Real.log_mul (by norm_num) (by norm_num),
        Real.log_mul (by norm_num) (by norm_num), Real.log_mul (by norm_num) (by norm_num)] at h2
      simp only [Real.log_pow] at h2
      push_cast at h2
      linarith only [h2]
    have hs := Real.abs_log_sub_add_sum_range_le (x := (-1 / 1848 : ℝ)) (by
      rw [abs_lt]
      constructor <;> norm_num) 3
    rw [show |(-1 / 1848 : ℝ)| = 1 / 1848 by rw [abs_of_neg (by norm_num)]; norm_num, abs_le] at hs
    simp only [Finset.sum_range_succ, Finset.sum_range_zero] at hs
    norm_num at hs
    simp only [Int.cast_ofNat, Nat.cast_ofNat] at e2 e3 e7 e11 ⊢
    constructor
    · linarith only [e, hs.1, hs.2, e2.1, e3.1, e7.1, e11.1]
    · linarith only [e, hs.1, hs.2, e2.2, e3.2, e7.2, e11.2]
  have e47 : ((38501475999 : ℤ) : ℝ) ≤ 10 ^ 10 * Real.log ((47 : ℕ) : ℝ) ∧
      10 ^ 10 * Real.log ((47 : ℕ) : ℝ) ≤ ((38501476035 : ℤ) : ℝ) := by
    have e : 2 * Real.log 47 =
        5 * Real.log 2 + Real.log 3 + Real.log 23 + Real.log (1 - (-1 / 2208)) := by
      have h : (47 : ℝ) ^ 2 = 2 ^ 5 * 3 * 23 * (1 - (-1 / 2208)) := by norm_num
      have h2 := congrArg Real.log h
      rw [Real.log_mul (by norm_num) (by norm_num), Real.log_mul (by norm_num) (by norm_num),
        Real.log_mul (by norm_num) (by norm_num)] at h2
      simp only [Real.log_pow] at h2
      push_cast at h2
      linarith only [h2]
    have hs := Real.abs_log_sub_add_sum_range_le (x := (-1 / 2208 : ℝ)) (by
      rw [abs_lt]
      constructor <;> norm_num) 3
    rw [show |(-1 / 2208 : ℝ)| = 1 / 2208 by rw [abs_of_neg (by norm_num)]; norm_num, abs_le] at hs
    simp only [Finset.sum_range_succ, Finset.sum_range_zero] at hs
    norm_num at hs
    simp only [Int.cast_ofNat, Nat.cast_ofNat] at e2 e3 e23 ⊢
    constructor
    · linarith only [e, hs.1, hs.2, e2.1, e3.1, e23.1]
    · linarith only [e, hs.1, hs.2, e2.2, e3.2, e23.2]
  have e53 : ((39702919115 : ℤ) : ℝ) ≤ 10 ^ 10 * Real.log ((53 : ℕ) : ℝ) ∧
      10 ^ 10 * Real.log ((53 : ℕ) : ℝ) ≤ ((39702919155 : ℤ) : ℝ) := by
    have e : 2 * Real.log 53 =
        3 * Real.log 2 + 3 * Real.log 3 + Real.log 13 + Real.log (1 - (-1 / 2808)) := by
      have h : (53 : ℝ) ^ 2 = 2 ^ 3 * 3 ^ 3 * 13 * (1 - (-1 / 2808)) := by norm_num
      have h2 := congrArg Real.log h
      rw [Real.log_mul (by norm_num) (by norm_num), Real.log_mul (by norm_num) (by norm_num),
        Real.log_mul (by norm_num) (by norm_num)] at h2
      simp only [Real.log_pow] at h2
      push_cast at h2
      linarith only [h2]
    have hs := Real.abs_log_sub_add_sum_range_le (x := (-1 / 2808 : ℝ)) (by
      rw [abs_lt]
      constructor <;> norm_num) 3
    rw [show |(-1 / 2808 : ℝ)| = 1 / 2808 by rw [abs_of_neg (by norm_num)]; norm_num, abs_le] at hs
    simp only [Finset.sum_range_succ, Finset.sum_range_zero] at hs
    norm_num at hs
    simp only [Int.cast_ofNat, Nat.cast_ofNat] at e2 e3 e13 ⊢
    constructor
    · linarith only [e, hs.1, hs.2, e2.1, e3.1, e13.1]
    · linarith only [e, hs.1, hs.2, e2.2, e3.2, e13.2]
  have e59 : ((40775374418 : ℤ) : ℝ) ≤ 10 ^ 10 * Real.log ((59 : ℕ) : ℝ) ∧
      10 ^ 10 * Real.log ((59 : ℕ) : ℝ) ≤ ((40775374459 : ℤ) : ℝ) := by
    have e : 2 * Real.log 59 =
        3 * Real.log 2 + Real.log 3 + Real.log 5 + Real.log 29 + Real.log (1 - (-1 / 3480)) := by
      have h : (59 : ℝ) ^ 2 = 2 ^ 3 * 3 * 5 * 29 * (1 - (-1 / 3480)) := by norm_num
      have h2 := congrArg Real.log h
      rw [Real.log_mul (by norm_num) (by norm_num), Real.log_mul (by norm_num) (by norm_num),
        Real.log_mul (by norm_num) (by norm_num), Real.log_mul (by norm_num) (by norm_num)] at h2
      simp only [Real.log_pow] at h2
      push_cast at h2
      linarith only [h2]
    have hs := Real.abs_log_sub_add_sum_range_le (x := (-1 / 3480 : ℝ)) (by
      rw [abs_lt]
      constructor <;> norm_num) 3
    rw [show |(-1 / 3480 : ℝ)| = 1 / 3480 by rw [abs_of_neg (by norm_num)]; norm_num, abs_le] at hs
    simp only [Finset.sum_range_succ, Finset.sum_range_zero] at hs
    norm_num at hs
    simp only [Int.cast_ofNat, Nat.cast_ofNat] at e2 e3 e5 e29 ⊢
    constructor
    · linarith only [e, hs.1, hs.2, e2.1, e3.1, e5.1, e29.1]
    · linarith only [e, hs.1, hs.2, e2.2, e3.2, e5.2, e29.2]
  have e61 : ((41108738621 : ℤ) : ℝ) ≤ 10 ^ 10 * Real.log ((61 : ℕ) : ℝ) ∧
      10 ^ 10 * Real.log ((61 : ℕ) : ℝ) ≤ ((41108738661 : ℤ) : ℝ) := by
    have e : 2 * Real.log 61 =
        3 * Real.log 2 + Real.log 3 + Real.log 5 + Real.log 31 + Real.log (1 - (-1 / 3720)) := by
      have h : (61 : ℝ) ^ 2 = 2 ^ 3 * 3 * 5 * 31 * (1 - (-1 / 3720)) := by norm_num
      have h2 := congrArg Real.log h
      rw [Real.log_mul (by norm_num) (by norm_num), Real.log_mul (by norm_num) (by norm_num),
        Real.log_mul (by norm_num) (by norm_num), Real.log_mul (by norm_num) (by norm_num)] at h2
      simp only [Real.log_pow] at h2
      push_cast at h2
      linarith only [h2]
    have hs := Real.abs_log_sub_add_sum_range_le (x := (-1 / 3720 : ℝ)) (by
      rw [abs_lt]
      constructor <;> norm_num) 3
    rw [show |(-1 / 3720 : ℝ)| = 1 / 3720 by rw [abs_of_neg (by norm_num)]; norm_num, abs_le] at hs
    simp only [Finset.sum_range_succ, Finset.sum_range_zero] at hs
    norm_num at hs
    simp only [Int.cast_ofNat, Nat.cast_ofNat] at e2 e3 e5 e31 ⊢
    constructor
    · linarith only [e, hs.1, hs.2, e2.1, e3.1, e5.1, e31.1]
    · linarith only [e, hs.1, hs.2, e2.2, e3.2, e5.2, e31.2]
  exact ⟨e2, e3, e5, e7, e11, e13, e17, e19, e23, e29, e31, e37, e41, e43, e47, e53, e59, e61⟩

/-- Enclosures of the logarithms: `ln 3` lies between 1.0986122881 and 1.0986122892, and
for every `i` from 1 to 63 there are integers `l ≤ 10¹⁰·ln i ≤ h` and `n` such that every
number between `733.301300893·ln i` and `733.301961168·ln i` has integer part `n`.  The
logarithm of a product is the sum of the logarithms of its factors. -/
theorem log_table :
    ((10986122881 : ℝ) ≤ 10 ^ 10 * Real.log 3 ∧ 10 ^ 10 * Real.log 3 ≤ 10986122892) ∧
    ∀ i : Nat, 1 ≤ i → i ≤ 63 →
      ∃ n l h : Int, (l : ℝ) ≤ 10 ^ 10 * Real.log i ∧ 10 ^ 10 * Real.log i ≤ (h : ℝ) ∧
        0 ≤ n ∧ n * 10 ^ 19 ≤ 733301300893 * l ∧ 733301961168 * h < (n + 1) * 10 ^ 19 := by
  obtain ⟨e2, e3, e5, e7, e11, e13, e17, e19, e23, e29, e31, e37, e41, e43, e47, e53, e59, e61⟩ := log_primes
  have hmul : ∀ (a b : Nat) (la ha lb hb : Int), 0 < a → 0 < b →
      ((la : ℝ) ≤ 10 ^ 10 * Real.log (a : ℝ) ∧ 10 ^ 10 * Real.log (a : ℝ) ≤ (ha : ℝ)) →
      ((lb : ℝ) ≤ 10 ^ 10 * Real.log (b : ℝ) ∧ 10 ^ 10 * Real.log (b : ℝ) ≤ (hb : ℝ)) →
      (((la + lb : ℤ) : ℝ) ≤ 10 ^ 10 * Real.log ((a * b : ℕ) : ℝ) ∧
        10 ^ 10 * Real.log ((a * b : ℕ) : ℝ) ≤ ((ha + hb : ℤ) : ℝ)) := by
    intro a b la ha lb hb h1 h2 e1 e2
    have ha0 : (a : ℝ) ≠ 0 := by exact_mod_cast (Nat.pos_iff_ne_zero.mp h1)
    have hb0 : (b : ℝ) ≠ 0 := by exact_mod_cast (Nat.pos_iff_ne_zero.mp h2)
    rw [Nat.cast_mul, Real.log_mul ha0 hb0]
    push_cast
    constructor
    · linarith only [e1.1, e2.1]
    · linarith only [e1.2, e2.2]
  have e4 : ((13862943606 : ℤ) : ℝ) ≤ 10 ^ 10 * Real.log ((4 : ℕ) : ℝ) ∧
      10 ^ 10 * Real.log ((4 : ℕ) : ℝ) ≤ ((13862943616 : ℤ) : ℝ) :=
    hmul 2 2 _ _ _ _ (by decide) (by decide) e2 e2
  have e6 : ((17917594684 : ℤ) : ℝ) ≤ 10 ^ 10 * Real.log ((6 : ℕ) : ℝ) ∧
      10 ^ 10 * Real.log ((6 : ℕ) : ℝ) ≤ ((17917594700 : ℤ) : ℝ) :=
    hmul 2 3 _ _ _ _ (by decide) (by decide) e2 e3
  have e8 : ((20794415409 : ℤ) : ℝ) ≤ 10 ^ 10 * Real.log ((8 : ℕ) : ℝ) ∧
      10 ^ 10 * Real.log ((8 : ℕ) : ℝ) ≤ ((20794415424 : ℤ) : ℝ) :=
    hmul 2 4 _ _ _ _ (by decide) (by decide) e2 e4
  have e9 : ((21972245762 : ℤ) : ℝ) ≤ 10 ^ 10 * Real.log ((9 : ℕ) : ℝ) ∧
      10 ^ 10 * Real.log ((9 : ℕ) : ℝ) ≤ ((21972245784 : ℤ) : ℝ) :=
    hmul 3 3 _ _ _ _ (by decide) (by decide) e3 e3
  have e10 : ((23025850919 : ℤ) : ℝ) ≤ 10 ^ 10 * Real.log ((10 : ℕ) : ℝ) ∧
      10 ^ 10 * Real.log ((10 : ℕ) : ℝ) ≤ ((23025850940 : ℤ) : ℝ) :=
    hmul 2 5 _ _ _ _ (by decide) (by decide) e2 e5
  have e12 : ((24849066487 : ℤ) : ℝ) ≤ 10 ^ 10 * Real.log ((12 : ℕ) : ℝ) ∧
      10 ^ 10 * Real.log ((12 : ℕ) : ℝ) ≤ ((24849066508 : ℤ) : ℝ) :=
    hmul 2 6 _ _ _ _ (by decide) (by decide) e2 e6
  have e14 : ((26390573284 : ℤ) : ℝ) ≤ 10 ^ 10 * Real.log ((14 : ℕ) : ℝ) ∧
      10 ^ 10 * Real.log ((14 : ℕ) : ℝ) ≤ ((26390573308 : ℤ) : ℝ) :=
    hmul 2 7 _ _ _ _ (by decide) (by decide) e2 e7
  have e15 : ((27080501997 : ℤ) : ℝ) ≤ 10 ^ 10 * Real.log ((15 : ℕ) : ℝ) ∧
      10 ^ 10 * Real.log ((15 : ℕ) : ℝ) ≤ ((27080502024 : ℤ) : ℝ) :=
    hmul 3 5 _ _ _ _ (by decide) (by decide) e3 e5
  have e16 : ((27725887212 : ℤ) : ℝ) ≤ 10 ^ 10 * Real.log ((16 : ℕ) : ℝ) ∧
      10 ^ 10 * Real.log ((16 : ℕ) : ℝ) ≤ ((27725887232 : ℤ) : ℝ) :=
    hmul 2 8 _ _ _ _ (by decide) (by decide) e2 e8
  have e18 : ((28903717565 : ℤ) : ℝ) ≤ 10 ^ 10 * Real.log ((18 : ℕ) : ℝ) ∧
      10 ^ 10 * Real.log ((18 : ℕ) : ℝ) ≤ ((28903717592 : ℤ) : ℝ) :=
    hmul 2 9 _ _ _ _ (by decide) (by decide) e2 e9
  have e20 : ((29957322722 : ℤ) : ℝ) ≤ 10 ^ 10 * Real.log ((20 : ℕ) : ℝ) ∧
      10 ^ 10 * Real.log ((20 : ℕ) : ℝ) ≤ ((29957322748 : ℤ) : ℝ) :=
    hmul 2 10 _ _ _ _ (by decide) (by decide) e2 e10
  have e21 : ((30445224362 : ℤ) : ℝ) ≤ 10 ^ 10 * Real.log ((21 : ℕ) : ℝ) ∧
      10 ^ 10 * Real.log ((21 : ℕ) : ℝ) ≤ ((30445224392 : ℤ) : ℝ) :=
    hmul 3 7 _ _ _ _ (by decide) (by decide) e3 e7
  have e22 : ((30910424519 : ℤ) : ℝ) ≤ 10 ^ 10 * Real.log ((22 : ℕ) : ℝ) ∧
      10 ^ 10 * Real.log ((22 : ℕ) : ℝ) ≤ ((30910424548 : ℤ) : ℝ) :=
    hmul 2 11 _ _ _ _ (by decide) (by decide) e2 e11
  have e24 : ((31780538290 : ℤ) : ℝ) ≤ 10 ^ 10 * Real.log ((24 : ℕ) : ℝ) ∧
      10 ^ 10 * Real.log ((24 : ℕ) : ℝ) ≤ ((31780538316 : ℤ) : ℝ) :=
    hmul 2 12 _ _ _ _ (by decide) (by decide) e2 e12
  have e25 : ((32188758232 : ℤ) : ℝ) ≤ 10 ^ 10 * Real.log ((25 : ℕ) : ℝ) ∧
      10 ^ 10 * Real.log ((25 : ℕ) : ℝ) ≤ ((32188758264 : ℤ) : ℝ) :=
    hmul 5 5 _ _ _ _ (by decide) (by decide) e5 e5
  have e26 : ((32580965365 : ℤ) : ℝ) ≤ 10 ^ 10 * Real.log ((26 : ℕ) : ℝ) ∧
      10 ^ 10 * Real.log ((26 : ℕ) : ℝ) ≤ ((32580965395 : ℤ) : ℝ) :=
    hmul 2 13 _ _ _ _ (by decide) (by decide) e2 e13
  have e27 : ((32958368643 : ℤ) : ℝ) ≤ 10 ^ 10 * Real.log ((27 : ℕ) : ℝ) ∧
      10 ^ 10 * Real.log ((27 : ℕ) : ℝ) ≤ ((32958368676 : ℤ) : ℝ) :=
    hmul 3 9 _ _ _ _ (by decide) (by decide) e3 e9
  have e28 : ((33322045087 : ℤ) : ℝ) ≤ 10 ^ 10 * Real.log ((28 : ℕ) : ℝ) ∧
      10 ^ 10 * Real.log ((28 : ℕ) : ℝ) ≤ ((33322045116 : ℤ) : ℝ) :=
    hmul 2 14 _ _ _ _ (by decide) (by decide) e2 e14
  have e30 : ((34011973800 : ℤ) : ℝ) ≤ 10 ^ 10 * Real.log ((30 : ℕ) : ℝ) ∧
      10 ^ 10 * Real.log ((30 : ℕ) : ℝ) ≤ ((34011973832 : ℤ) : ℝ) :=
    hmul 2 15 _ _ _ _ (by decide) (by decide) e2 e15
  have e32 : ((34657359015 : ℤ) : ℝ) ≤ 10 ^ 10 * Real.log ((32 : ℕ) : ℝ) ∧
      10 ^ 10 * Real.log ((32 : ℕ) : ℝ) ≤ ((34657359040 : ℤ) : ℝ) :=
    hmul 2 16 _ _ _ _ (by decide) (by decide) e2 e16
  have e33 : ((34965075597 : ℤ) : ℝ) ≤ 10 ^ 10 * Real.log ((33 : ℕ) : ℝ) ∧
      10 ^ 10 * Real.log ((33 : ℕ) : ℝ) ≤ ((34965075632 : ℤ) : ℝ) :=
    hmul 3 11 _ _ _ _ (by decide) (by decide) e3 e11
  have e34 : ((35263605230 : ℤ) : ℝ) ≤ 10 ^ 10 * Real.log ((34 : ℕ) : ℝ) ∧
      10 ^ 10 * Real.log ((34 : ℕ) : ℝ) ≤ ((35263605261 : ℤ) : ℝ) :=
    hmul 2 17 _ _ _ _ (by decide) (by decide) e2 e17
  have e35 : ((35553480597 : ℤ) : ℝ) ≤ 10 ^ 10 * Real.log ((35 : ℕ) : ℝ) ∧
      10 ^ 10 * Real.log ((35 : ℕ) : ℝ) ≤ ((35553480632 : ℤ) : ℝ) :=
    hmul 5 7 _ _ _ _ (by decide) (by decide) e5 e7
  have e36 : ((35835189368 : ℤ) : ℝ) ≤ 10 ^ 10 * Real.log ((36 : ℕ) : ℝ) ∧
      10 ^ 10 * Real.log ((36 : ℕ) : ℝ) ≤ ((35835189400 : ℤ) : ℝ) :=
    hmul 2 18 _ _ _ _ (by decide) (by decide) e2 e18
  have e38 : ((36375861579 : ℤ) : ℝ) ≤ 10 ^ 10 * Real.log ((38 : ℕ) : ℝ) ∧
      10 ^ 10 * Real.log ((38 : ℕ) : ℝ) ≤ ((36375861614 : ℤ) : ℝ) :=
    hmul 2 19 _ _ _ _ (by decide) (by decide) e2 e19
  have e39 : ((36635616443 : ℤ) : ℝ) ≤ 10 ^ 10 * Real.log ((39 : ℕ) : ℝ) ∧
      10 ^ 10 * Real.log ((39 : ℕ) : ℝ) ≤ ((36635616479 : ℤ) : ℝ) :=
    hmul 3 13 _ _ _ _ (by decide) (by decide) e3 e13
  have e40 : ((36888794525 : ℤ) : ℝ) ≤ 10 ^ 10 * Real.log ((40 : ℕ) : ℝ) ∧
      10 ^ 10 * Real.log ((40 : ℕ) : ℝ) ≤ ((36888794556 : ℤ) : ℝ) :=
    hmul 2 20 _ _ _ _ (by decide) (by decide) e2 e20
  have e42 : ((37376696165 : ℤ) : ℝ) ≤ 10 ^ 10 * Real.log ((42 : ℕ) : ℝ) ∧
      10 ^ 10 * Real.log ((42 : ℕ) : ℝ) ≤ ((37376696200 : ℤ) : ℝ) :=
    hmul 2 21 _ _ _ _ (by decide) (by decide) e2 e21
  have e44 : ((37841896322 : ℤ) : ℝ) ≤ 10 ^ 10 * Real.log ((44 : ℕ) : ℝ) ∧
      10 ^ 10 * Real.log ((44 : ℕ) : ℝ) ≤ ((37841896356 : ℤ) : ℝ) :=
    hmul 2 22 _ _ _ _ (by decide) (by decide) e2 e22
  have e45 : ((38066624878 : ℤ) : ℝ) ≤ 10 ^ 10 * Real.log ((45 : ℕ) : ℝ) ∧
      10 ^ 10 * Real.log ((45 : ℕ) : ℝ) ≤ ((38066624916 : ℤ) : ℝ) :=
    hmul 3 15 _ _ _ _ (by decide) (by decide) e3 e15
  have e46 : ((38286413947 : ℤ) : ℝ) ≤ 10 ^ 10 * Real.log ((46 : ℕ) : ℝ) ∧
      10 ^ 10 * Real.log ((46 : ℕ) : ℝ) ≤ ((38286413982 : ℤ) : ℝ) :=
    hmul 2 23 _ _ _ _ (by decide) (by decide) e2 e23
  have e48 : ((38712010093 : ℤ) : ℝ) ≤ 10 ^ 10 * Real.log ((48 : ℕ) : ℝ) ∧
      10 ^ 10 * Real.log ((48 : ℕ) : ℝ) ≤ ((38712010124 : ℤ) : ℝ) :=
    hmul 2 24 _ _ _ _ (by decide) (by decide) e2 e24
  have e49 : ((38918202962 : ℤ) : ℝ) ≤ 10 ^ 10 * Real.log ((49 : ℕ) : ℝ) ∧
      10 ^ 10 * Real.log ((49 : ℕ) : ℝ) ≤ ((38918203000 : ℤ) : ℝ) :=
    hmul 7 7 _ _ _ _ (by decide) (by decide) e7 e7
  have e50 : ((39120230035 : ℤ) : ℝ) ≤ 10 ^ 10 * Real.log ((50 : ℕ) : ℝ) ∧
      10 ^ 10 * Real.log ((50 : ℕ) : ℝ) ≤ ((39120230072 : ℤ) : ℝ) :=
    hmul 2 25 _ _ _ _ (by decide) (by decide) e2 e25
  have e51 : ((39318256308 : ℤ) : ℝ) ≤ 10 ^ 10 * Real.log ((51 : ℕ) : ℝ) ∧
      10 ^ 10 * Real.log ((51 : ℕ) : ℝ) ≤ ((39318256345 : ℤ) : ℝ) :=
    hmul 3 17 _ _ _ _ (by decide) (by decide) e3 e17
  have e52 : ((39512437168 : ℤ) : ℝ) ≤ 10 ^ 10 * Real.log ((52 : ℕ) : ℝ) ∧
      10 ^ 10 * Real.log ((52 : ℕ) : ℝ) ≤ ((39512437203 : ℤ) : ℝ) :=
    hmul 2 26 _ _ _ _ (by decide) (by decide) e2 e26
  have e54 : ((39889840446 : ℤ) : ℝ) ≤ 10 ^ 10 * Real.log ((54 : ℕ) : ℝ) ∧
      10 ^ 10 * Real.log ((54 : ℕ) : ℝ) ≤ ((39889840484 : ℤ) : ℝ) :=
    hmul 2 27 _ _ _ _ (by decide) (by decide) e2 e27
  have e55 : ((40073331832 : ℤ) : ℝ) ≤ 10 ^ 10 * Real.log ((55 : ℕ) : ℝ) ∧
      10 ^ 10 * Real.log ((55 : ℕ) : ℝ) ≤ ((40073331872 : ℤ) : ℝ) :=
    hmul 5 11 _ _ _ _ (by decide) (by decide) e5 e11
  have e56 : ((40253516890 : ℤ) : ℝ) ≤ 10 ^ 10 * Real.log ((56 : ℕ) : ℝ) ∧
      10 ^ 10 * Real.log ((56 : ℕ) : ℝ) ≤ ((40253516924 : ℤ) : ℝ) :=
    hmul 2 28 _ _ _ _ (by decide) (by decide) e2 e28
  have e57 : ((40430512657 : ℤ) : ℝ) ≤ 10 ^ 10 * Real.log ((57 : ℕ) : ℝ) ∧
      10 ^ 10 * Real.log ((57 : ℕ) : ℝ) ≤ ((40430512698 : ℤ) : ℝ) :=
    hmul 3 19 _ _ _ _ (by decide) (by decide) e3 e19
  have e58 : ((40604430086 : ℤ) : ℝ) ≤ 10 ^ 10 * Real.log ((58 : ℕ) : ℝ) ∧
      10 ^ 10 * Real.log ((58 : ℕ) : ℝ) ≤ ((40604430124 : ℤ) : ℝ) :=
    hmul 2 29 _ _ _ _ (by decide) (by decide) e2 e29
  have e60 : ((40943445603 : ℤ) : ℝ) ≤ 10 ^ 10 * Real.log ((60 : ℕ) : ℝ) ∧
      10 ^ 10 * Real.log ((60 : ℕ) : ℝ) ≤ ((40943445640 : ℤ) : ℝ) :=
    hmul 2 30 _ _ _ _ (by decide) (by decide) e2 e30
  have e62 : ((41271343832 : ℤ) : ℝ) ≤ 10 ^ 10 * Real.log ((62 : ℕ) : ℝ) ∧
      10 ^ 10 * Real.log ((62 : ℕ) : ℝ) ≤ ((41271343868 : ℤ) : ℝ) :=
    hmul 2 31 _ _ _ _ (by decide) (by decide) e2 e31
  have e63 : ((41431347243 : ℤ) : ℝ) ≤ 10 ^ 10 * Real.log ((63 : ℕ) : ℝ) ∧
      10 ^ 10 * Real.log ((63 : ℕ) : ℝ) ≤ ((41431347284 : ℤ) : ℝ) :=
    hmul 3 21 _ _ _ _ (by decide) (by decide) e3 e21
  refine ⟨?_, ?_⟩
  · simp only [Int.cast_ofNat, Nat.cast_ofNat] at e3
    exact e3
  intro i h1 h2
  interval_cases i
  · exact ⟨0, 0, 0, by simp, by simp, by decide, by decide, by decide⟩
  · exact ⟨508, _, _, e2.1, e2.2, by decide, by decide, by decide⟩
  · exact ⟨805, _, _, e3.1, e3.2, by decide, by decide, by decide⟩
  · exact ⟨1016, _, _, e4.1, e4.2, by decide, by decide, by decide⟩
  · exact ⟨1180, _, _, e5.1, e5.2, by decide, by decide, by decide⟩
  · exact ⟨1313, _, _, e6.1, e6.2, by decide, by decide, by decide⟩
  · exact ⟨1426, _, _, e7.1, e7.2, by decide, by decide, by decide⟩
  · exact ⟨1524, _, _, e8.1, e8.2, by decide, by decide, by decide⟩
  · exact ⟨1611, _, _, e9.1, e9.2, by decide, by decide, by decide⟩
  · exact ⟨1688, _, _, e10.1, e10.2, by decide, by decide, by decide⟩
  · exact ⟨1758, _, _, e11.1, e11.2, by decide, by decide, by decide⟩
  · exact ⟨1822, _, _, e12.1, e12.2, by decide, by decide, by decide⟩
  · exact ⟨1880, _, _, e13.1, e13.2, by decide, by decide, by decide⟩
  · exact ⟨1935, _, _, e14.1, e14.2, by decide, by decide, by decide⟩
  · exact ⟨1985, _, _, e15.1, e15.2, by decide, by decide, by decide⟩
  · exact ⟨2033, _, _, e16.1, e16.2, by decide, by decide, by decide⟩
  · exact ⟨2077, _, _, e17.1, e17.2, by decide, by decide, by decide⟩
  · exact ⟨2119, _, _, e18.1, e18.2, by decide, by decide, by decide⟩
  · exact ⟨2159, _, _, e19.1, e19.2, by decide, by decide, by decide⟩
  · exact ⟨2196, _, _, e20.1, e20.2, by decide, by decide, by decide⟩
  · exact ⟨2232, _, _, e21.1, e21.2, by decide, by decide, by decide⟩
  · exact ⟨2266, _, _, e22.1, e22.2, by decide, by decide, by decide⟩
  · exact ⟨2299, _, _, e23.1, e23.2, by decide, by decide, by decide⟩
  · exact ⟨2330, _, _, e24.1, e24.2, by decide, by decide, by decide⟩
  · exact ⟨2360, _, _, e25.1, e25.2, by decide, by decide, by decide⟩
  · exact ⟨2389, _, _, e26.1, e26.2, by decide, by decide, by decide⟩
  · exact ⟨2416, _, _, e27.1, e27.2, by decide, by decide, by decide⟩
  · exact ⟨2443, _, _, e28.1, e28.2, by decide, by decide, by decide⟩
  · exact ⟨2469, _, _, e29.1, e29.2, by decide, by decide, by decide⟩
  · exact ⟨2494, _, _, e30.1, e30.2, by decide, by decide, by decide⟩
  · exact ⟨2518, _, _, e31.1, e31.2, by decide, by decide, by decide⟩
  · exact ⟨2541, _, _, e32.1, e32.2, by decide, by decide, by decide⟩
  · exact ⟨2563, _, _, e33.1, e33.2, by decide, by decide, by decide⟩
  · exact ⟨2585, _, _, e34.1, e34.2, by decide, by decide, by decide⟩
  · exact ⟨2607, _, _, e35.1, e35.2, by decide, by decide, by decide⟩
  · exact ⟨2627, _, _, e36.1, e36.2, by decide, by decide, by decide⟩
  · exact ⟨2647, _, _, e37.1, e37.2, by decide, by decide, by decide⟩
  · exact ⟨2667, _, _, e38.1, e38.2, by decide, by decide, by decide⟩
  · exact ⟨2686, _, _, e39.1, e39.2, by decide, by decide, by decide⟩
  · exact ⟨2705, _, _, e40.1, e40.2, by decide, by decide, by decide⟩
  · exact ⟨2723, _, _, e41.1, e41.2, by decide, by decide, by decide⟩
  · exact ⟨2740, _, _, e42.1, e42.2, by decide, by decide, by decide⟩
  · exact ⟨2758, _, _, e43.1, e43.2, by decide, by decide, by decide⟩
  · exact ⟨2774, _, _, e44.1, e44.2, by decide, by decide, by decide⟩
  · exact ⟨2791, _, _, e45.1, e45.2, by decide, by decide, by decide⟩
  · exact ⟨2807, _, _, e46.1, e46.2, by decide, by decide, by decide⟩
  · exact ⟨2823, _, _, e47.1, e47.2, by decide, by decide, by decide⟩
  · exact ⟨2838, _, _, e48.1, e48.2, by decide, by decide, by decide⟩
  · exact ⟨2853, _, _, e49.1, e49.2, by decide, by decide, by decide⟩
  · exact ⟨2868, _, _, e50.1, e50.2, by decide, by decide, by decide⟩
  · exact ⟨2883, _, _, e51.1, e51.2, by decide, by decide, by decide⟩
  · exact ⟨2897, _, _, e52.1, e52.2, by decide, by decide, by decide⟩
  · exact ⟨2911, _, _, e53.1, e53.2, by decide, by decide, by decide⟩
  · exact ⟨2925, _, _, e54.1, e54.2, by decide, by decide, by decide⟩
  · exact ⟨2938, _, _, e55.1, e55.2, by decide, by decide, by decide⟩
  · exact ⟨2951, _, _, e56.1, e56.2, by decide, by decide, by decide⟩
  · exact ⟨2964, _, _, e57.1, e57.2, by decide, by decide, by decide⟩
  · exact ⟨2977, _, _, e58.1, e58.2, by decide, by decide, by decide⟩
  · exact ⟨2990, _, _, e59.1, e59.2, by decide, by decide, by decide⟩
  · exact ⟨3002, _, _, e60.1, e60.2, by decide, by decide, by decide⟩
  · exact ⟨3014, _, _, e61.1, e61.2, by decide, by decide, by decide⟩
  · exact ⟨3026, _, _, e62.1, e62.2, by decide, by decide, by decide⟩
  · exact ⟨3038, _, _, e63.1, e63.2, by decide, by decide, by decide⟩

/-- With every operation accurate to `10⁻⁷`, the computed entry and the integer part
of the real number agree with the `n` that an enclosure of `ln i` fixes. -/
theorem Reductions_entry (F : DoubleOps) (i : Nat) (h1 : 1 ≤ i) (h2 : i ≤ 63)
    (hacc : F.accurateAt (1 / 10 ^ 7) i) (n l h : Int)
    (b1 : (l : ℝ) ≤ 10 ^ 10 * Real.log i) (b2 : 10 ^ 10 * Real.log i ≤ (h : ℝ))
    (hn0 : 0 ≤ n) (hn1 : n * 10 ^ 19 ≤ 733301300893 * l)
    (hn2 : 733301961168 * h < (n + 1) * 10 ^ 19) :
    Reductions F i = n ∧ ⌊1024 * Real.log i / Real.sqrt (195 / 100)⌋ = n ∧
    (n : ℝ) * 10 ^ 9 ≤ 733301300893 * Real.log i ∧
    733301961168 * Real.log i < ((n : ℝ) + 1) * 10 ^ 9 := by
  have hL : 0 ≤ Real.log i := Real.log_nonneg (by exact_mod_cast h1)
  obtain ⟨hc, hs, hl, hm, hd⟩ := hacc
  obtain ⟨e1, e2, e3, e4⟩ := reduction_enclosure_real _ _ _ _ _ (Real.log i) hL hc hs hl hm hd
  have hn1r : (n : ℝ) * 10 ^ 19 ≤ 733301300893 * (l : ℝ) := by exact_mod_cast hn1
  have hn2r : 733301961168 * (h : ℝ) < ((n : ℝ) + 1) * 10 ^ 19 := by exact_mod_cast hn2
  have k1 : (n : ℝ) * 10 ^ 9 ≤ 733301300893 * Real.log i := by linarith only [hn1r, b1]
  have k2 : 733301961168 * Real.log i < ((n : ℝ) + 1) * 10 ^ 9 := by linarith only [hn2r, b2]
  have hdef : Reductions F i
      = truncToInt (F.div (F.mul 1024 (F.log i)) (F.sqrt (F.lit (195 / 100)))) := by
    have : 1 ≤ i ∧ i < 64 := ⟨h1, by omega⟩
    simp only [Reductions, this, and_self, if_true]
  refine ⟨?_, ?_, k1, k2⟩
  · rw [hdef]
    exact truncToInt_of_mem _ n hn0 (by linarith only [k1, e1]) (by linarith only [k2, e2])
  · rw [Int.floor_eq_iff]
    exact ⟨by linarith only [k1, e3], by linarith only [k2, e4]⟩

/-- The sample operations are accurate to `10⁻⁷` at `i = 3` and at `i = 2`. -/
theorem sampleDouble_accurate :
    sampleDouble.accurateAt (1 / 10 ^ 7) 3 ∧ sampleDouble.accurateAt (1 / 10 ^ 7) 2 := by
  obtain ⟨s1, s2⟩ := sqrt_195_bounds
  obtain ⟨l1, l2⟩ := log_table.1
  have a := Real.log_two_gt_d9
  have b := Real.log_two_lt_d9
  have h23 : ¬ ((2 : ℚ) = 3) := by norm_num
  have hlit : |(((195 / 100 : ℚ) : ℚ) : ℝ) - 195 / 100| ≤ 1 / 10 ^ 7 * (195 / 100) := by
    push_cast
    norm_num
  have hsq : |(((13964240 / 10 ^ 7 : ℚ) : ℚ) : ℝ) - Real.sqrt (((195 / 100 : ℚ) : ℚ) : ℝ)|
      ≤ 1 / 10 ^ 7 * Real.sqrt (((195 / 100 : ℚ) : ℚ) : ℝ) := by
    push_cast
    rw [abs_le]
    constructor <;> linarith only [s1, s2]
  have hexact : ∀ x y : ℝ, |x - x| ≤ 1 / 10 ^ 7 * |y| := by
    intro x y
    rw [sub_self, abs_zero]
    positivity
  refine ⟨⟨hlit, hsq, ?_, ?_, ?_⟩, ⟨hlit, hsq, ?_, ?_, ?_⟩⟩
  · simp only [sampleDouble, Nat.cast_ofNat, if_true]
    push_cast
    rw [abs_le]
    constructor <;> linarith only [l1, l2]
  · simp only [sampleDouble]
    push_cast
    exact hexact _ _
  · simp only [sampleDouble]
    push_cast
    exact hexact _ _
  · simp only [sampleDouble, Nat.cast_ofNat, h23, if_false]
    push_cast
    rw [abs_le]
    constructor <;> linarith only [a, b]
  · simp only [sampleDouble]
    push_cast
    exact hexact _ _
  · simp only [sampleDouble]
    push_cast
    exact hexact _ _

/-- C23 (as stated, refuted): with sample operations that are accurate to `10⁻⁷`, the
entry at `i = 3` is `Reductions[3] = 805`, the integer part of `1024·ln 3/√1.95`
(about 805.61), while the nearest integer to that real number is 806. -/
theorem Reductions_three_not_rounded :
    sampleDouble.accurateAt (1 / 10 ^ 7) 3 ∧
    Reductions sampleDouble 3 = 805 ∧
    ⌊1024 * Real.log 3 / Real.sqrt 1.95⌋ = 805 ∧
    round (1024 * Real.log 3 / Real.sqrt 1.95) = 806 := by
  have h195 : (1.95 : ℝ) = 195 / 100 := by norm_num
  obtain ⟨l1, l2⟩ := log_table.1
  obtain ⟨r1, r2, k1, k2⟩ := Reductions_entry sampleDouble 3 (by decide) (by decide)
    sampleDouble_accurate.1 805 10986122881 10986122892
    (by simp only [Int.cast_ofNat, Nat.cast_ofNat]; exact l1)
    (by simp only [Int.cast_ofNat, Nat.cast_ofNat]; exact l2)
    (by decide) (by decide) (by decide)
  obtain ⟨s1, s2⟩ := sqrt_195_bounds
  simp only [Nat.cast_ofNat, Int.cast_ofNat] at r2 k1 k2
  refine ⟨sampleDouble_accurate.1, r1, ?_, ?_⟩
  · rw [h195]
    exact r2
  · rw [h195, round_eq, Int.floor_eq_iff]
    have hSpos : 0 < Real.sqrt (195 / 100) := lt_of_lt_of_le (by norm_num) s1
    have hX1 : 1024 * Real.log 3 / (13964240743 / 10 ^ 10 : ℝ)
        ≤ 1024 * Real.log 3 / Real.sqrt (195 / 100) :=
      div_le_div_of_nonneg_left (by linarith only [k1]) hSpos s2
    have hX2 : 1024 * Real.log 3 / Real.sqrt (195 / 100)
        ≤ 1024 * Real.log 3 / (13964239344 / 10 ^ 10 : ℝ) :=
      div_le_div_of_nonneg_left (by linarith only [k1]) (by norm_num) s1
    generalize 1024 * Real.log 3 / Real.sqrt (195 / 100) = X at hX1 hX2
    push_cast
    constructor
    · linarith only [hX1, l1]
    · linarith only [hX2, l2]

/-- C23 (amended): after `Search::init`, for every `i` with `1 ≤ i ≤ 63`, if each of
the five floating-point results in `1024 * std::log(i) / std::sqrt(1.95)` (the literal,
the square root, the logarithm, the product and the quotient) is within relative error
`10⁻⁷` of the exact result of its operation, then `Reductions[i]` is the integer part
`⌊1024·ln(i)/√1.95⌋` of the real number: the conversion to `int` truncates and does not
round.  At `i = 3` the entry is 805. -/
theorem Reductions_truncates (F : DoubleOps) (i : Nat) (h1 : 1 ≤ i) (h2 : i ≤ 63)
    (hacc : F.accurateAt (1 / 10 ^ 7) i) :
    Reductions F i = ⌊1024 * Real.log i / Real.sqrt 1.95⌋ ∧
    0 ≤ Reductions F i ∧
    (i = 3 → Reductions F i = 805) := by
  have h195 : (1.95 : ℝ) = 195 / 100 := by norm_num
  obtain ⟨n, l, h, b1, b2, hn0, hn1, hn2⟩ := log_table.2 i h1 h2
  obtain ⟨r1, r2, k1, k2⟩ := Reductions_entry F i h1 h2 hacc n l h b1 b2 hn0 hn1 hn2
  rw [h195, r1, r2]
  refine ⟨rfl, hn0, ?_⟩
  intro h3
  subst h3
  obtain ⟨l1, l2⟩ := log_table.1
  simp only [Nat.cast_ofNat] at k1 k2
  have a1 : (804 : ℝ) < n := by linarith only [k2, l1]
  have a2 : (n : ℝ) < 806 := by linarith only [k1, l2]
  have a3 : (804 : ℤ) < n := by exact_mod_cast a1
  have a4 : n < 806 := by exact_mod_cast a2
  omega

/-- Instance of C23 (amended): with the sample operations, the entry at `i = 2` is the
integer part of `1024·ln 2/√1.95`. -/
theorem Reductions_truncates_witness :
    1 ≤ 2 ∧ 2 ≤ 63 ∧ sampleDouble.accurateAt (1 / 10 ^ 7) 2 ∧
    Reductions sampleDouble 2 = ⌊1024 * Real.log (2 : ℕ) / Real.sqrt 1.95⌋ ∧
    0 ≤ Reductions sampleDouble 2 :=
  ⟨by decide, by decide, sampleDouble_accurate.2,
   (Reductions_truncates sampleDouble 2 (by decide) (by decide) sampleDouble_accurate.2).1,
   (Reductions_truncates sampleDouble 2 (by decide) (by decide) sampleDouble_accurate.2).2.1⟩

end ShashChess
